import Mathlib

/-!
# ulang: a shallow embedding of the tree-walking evaluator of `ulang.go`

The development embeds the AST produced by the grammar of `ulang.go`
(`Statement`, `Condition`, `Add`, `Mul`, `Value`, ...) and the evaluator
(`evalStatementList` ... `evalValue`) as Lean functions with explicit state
passing.

* The Go values are `float64`.  The evaluator never inspects a number except
  through the host operations `+ - * / math.Pow`, unary minus, the six
  comparisons and `fmt.Print`, so the embedding takes those operations as a
  record `Arith F` over an arbitrary carrier `F`.  Theorems quantified over
  `Arith F` hold for every host arithmetic, IEEE-754 included.  `Flt` with
  `fltArith` is a concrete instance used to run programs.
* The Go globals `vars` and `inFunction`, together with the text written to
  standard output and the lines still to be read from standard input, form the
  `State`.  A `panic` aborts evaluation; it is the `Except.error` result and
  carries the state reached when the panic was raised.
* The recursion of the evaluator is not structural (loops, calls through the
  function table), so every evaluator takes a `fuel` argument that is decreased
  at each call; `Err.OutOfFuel` is the only artefact of the embedding.
-/

set_option linter.dupNamespace false
set_option linter.unusedTactic false
set_option linter.unreachableTactic false
set_option linter.unnecessarySeqFocus false

namespace Ulang

/-! ## Abstract syntax (the grammar structs of `ulang.go`) -/

mutual
/-- Go `Add`: `Mul` with the optional group `[ @("+"|"-") @@ ]` (fields `Op`, `Add`). -/
inductive Add (F : Type) where
  | mk (Mul : Mul F) (Op : Option (String × Add F))
/-- Go `Mul`: `Value` with the optional group `[ @("*"|"/") @@ ]` (fields `Op`, `Mul`). -/
inductive Mul (F : Type) where
  | mk (Value : Value F) (Op : Option (String × Mul F))
/-- Go `Value`: optional `Unary`, one of the four alternatives, optional `Exp`. -/
inductive Value (F : Type) where
  | mk (Unary : Option String) (alt : ValueAlt F) (Exp : Option F)
/-- The alternative of a `Value` that the parser filled in. -/
inductive ValueAlt (F : Type) where
  | Number (n : F)
  | FunCallStatement (f : FunCallStatement F)
  | Variable (x : String)
  | Parens (a : Add F)
/-- Go `FunCallStatement`: `Ident` and `Arguments.Args`. -/
inductive FunCallStatement (F : Type) where
  | mk (Ident : String) (Args : List (Add F))
end

/-- Go `Condition`: `Add1 Cond Add2` with the optional group `[ @("and"|"or") @@ ]`
(fields `Logic`, `MoreCond`). -/
inductive Condition (F : Type) where
  | mk (Add1 : Add F) (Cond : String) (Add2 : Add F) (Logic : Option (String × Condition F))

/-- Go `AssignStatement`. -/
structure AssignStatement (F : Type) where
  Ident : String
  Expr : Add F

/-- Go `PrintStatement`: the list `Expr1.List`. -/
structure PrintStatement (F : Type) where
  Expr1 : List (Add F)

/-- Go `InputStatement`. -/
structure InputStatement where
  Ident : String

/-- Go `ReturnStatement`. -/
structure ReturnStatement (F : Type) where
  Expr : Add F

mutual
/-- Go `Statement`: the alternative that the parser filled in. -/
inductive Statement (F : Type) where
  | Assign (s : AssignStatement F)
  | If (s : IfStatement F)
  | While (s : WhileStatement F)
  | Until (s : UntilStatement F)
  | Print (s : PrintStatement F)
  | Input (s : InputStatement)
  | Function (s : FunctionStatement F)
  | FunCall (s : FunCallStatement F)
  | Return (s : ReturnStatement F)
/-- Go `IfStatement`; a `StatementList` is the list of its `Statements`. -/
inductive IfStatement (F : Type) where
  | mk (Condition : Condition F) (Body : List (Statement F))
      (ElseIf : List (ElseIf F)) (Else : Option (List (Statement F)))
/-- Go `ElseIf`. -/
inductive ElseIf (F : Type) where
  | mk (Condition : Condition F) (Body : List (Statement F))
/-- Go `WhileStatement`. -/
inductive WhileStatement (F : Type) where
  | mk (Condition : Condition F) (Body : List (Statement F))
/-- Go `UntilStatement`. -/
inductive UntilStatement (F : Type) where
  | mk (Condition : Condition F) (Body : List (Statement F))
/-- Go `FunctionStatement`: `Ident`, `Parameters.Params`, `Body`. -/
inductive FunctionStatement (F : Type) where
  | mk (Ident : String) (Params : List String) (Body : List (Statement F))
end

/-- Go `StatementList`. -/
abbrev StatementList (F : Type) := List (Statement F)

/-- Parameter names of a function definition. -/
def FunctionStatement.params {F : Type} : FunctionStatement F → List String
  | .mk _ ps _ => ps

/-- Body of a function definition. -/
def FunctionStatement.body {F : Type} : FunctionStatement F → StatementList F
  | .mk _ _ b => b

/-! ## Host arithmetic, stores and machine state -/

/-- The operations of the host on `float64` that the evaluator uses. -/
structure Arith (F : Type) where
  /-- The constant `0` of `var n float64 = 0`. -/
  zero : F
  add : F → F → F
  sub : F → F → F
  mul : F → F → F
  div : F → F → F
  /-- Go `math.Pow`. -/
  pow : F → F → F
  neg : F → F
  /-- Go `==` -/
  eq : F → F → Bool
  /-- Go `<` -/
  lt : F → F → Bool
  /-- Go `<=` -/
  le : F → F → Bool
  /-- The text `fmt.Print` writes for a `float64`. -/
  fmt : F → String
  /-- Go `strconv.ParseFloat(strings.TrimSpace(line), 64)`, `none` on error. -/
  parseFloat : String → Option F

/-- Go `map[string]float64`. -/
abbrev Store (F : Type) := String → Option F

/-- Go `map[string]*FunctionStatement`. -/
abbrev FunTable (F : Type) := String → Option (FunctionStatement F)

/-- Go `m[k] = v` on a map. -/
def mapSet {V : Type} (m : String → Option V) (k : String) (v : V) : String → Option V :=
  fun x => if x = k then some v else m x

/-- Go `Vars` after `Create()` fills it. -/
structure Vars (F : Type) where
  Vars : Store F
  Functions : FunTable F

/-- Go `(*Vars).Create`: both maps empty. -/
def Vars.Create (F : Type) : Ulang.Vars F := ⟨fun _ => none, fun _ => none⟩

/-- The panics of the evaluator, and `OutOfFuel` for a run cut by the fuel bound. -/
inductive Err where
  /-- Go panic `Name ... not in variables`. -/
  | UndefinedVariable (name : String)
  /-- Go panic `Name ... not a function`. -/
  | UndefinedFunction (name : String)
  /-- Go panic `Number of arguments does not match number of parameters of
  function ... Wanted %d, got %d`. -/
  | ArityMismatch (name : String) (wanted got : Nat)
  /-- Go panic `Return cannot be used outside of a function`. -/
  | ReturnOutsideFunction
  /-- The `panic(err)` of `evalInputStatement`. -/
  | InputError
  /-- Go run-time panic: index out of range. -/
  | IndexOutOfRange
  /-- Go run-time panic: nil dereference. -/
  | NilDeref
  /-- The fuel bound of the embedding was reached. -/
  | OutOfFuel
  deriving DecidableEq, Repr

/-- The process state: the globals `vars` and `inFunction`, the text written to
standard output so far, and what the successive `ReadString('\n')` calls on
standard input will deliver (a complete line each; an empty list is a read error). -/
structure State (F : Type) where
  vars : Vars F
  inFunction : Bool
  stdout : String
  stdin : List String

/-- The `scope *Vars` argument of the evaluator: either the pointer `vars`
itself (top level) or a `Vars` allocated by `evalFunctionCall`, which no other
frame can reach. -/
inductive Scope (F : Type) where
  | glob
  | loc (v : Vars F)

/-- The map `scope.Vars`. -/
def Scope.Vars {F : Type} (sc : Scope F) (w : State F) : Store F :=
  match sc with
  | .glob => w.vars.Vars
  | .loc v => v.Vars

/-- Go `scope.Vars[k] = v`. -/
def Scope.set {F : Type} (sc : Scope F) (w : State F) (k : String) (v : F) : Scope F × State F :=
  match sc with
  | .glob => (.glob, { w with vars := { w.vars with Vars := mapSet w.vars.Vars k v } })
  | .loc l => (.loc { l with Vars := mapSet l.Vars k v }, w)

/-- Outcome of an evaluator: a value and the state after it, or a panic with
the state in which it was raised. -/
abbrev Res (F : Type) (α : Type) := Except (Err × State F) (α × State F)

/-! ## The evaluator -/

section Eval

variable {F : Type} (A : Arith F)

/-- Go `evalInputStatement`. -/
def evalInputStatement (iStmt : InputStatement) (scope : Scope F) (w : State F) :
    Res F (Scope F) :=
  match w.stdin with
  | [] => .error (.InputError, w)
  | line :: rest =>
    let w1 := { w with stdin := rest }
    match A.parseFloat line with
    | none => .error (.InputError, w1)
    | some floatVal =>
      let (sc, w2) := scope.set w1 iStmt.Ident floatVal
      .ok (sc, w2)

/-- Go `evalFunctionStatement`: `vars.Functions[*fStmt.Ident] = fStmt`. -/
def evalFunctionStatement (fStmt : FunctionStatement F) (w : State F) : State F :=
  match fStmt with
  | .mk ident _ _ =>
    { w with vars := { w.vars with Functions := mapSet w.vars.Functions ident fStmt } }

/-- The comparison chain of `evalCondition`; an unknown operator leaves `val` false. -/
def compare (cond : String) (add1 add2 : F) : Bool :=
  if cond = "==" then A.eq add1 add2
  else if cond = "!=" then !(A.eq add1 add2)
  else if cond = ">" then A.lt add2 add1
  else if cond = "<" then A.lt add1 add2
  else if cond = ">=" then A.le add2 add1
  else if cond = "<=" then A.le add1 add2
  else false

mutual

/-- Go `evalStatementList`: the first statement that yields a value ends the
list; a list that yields none gives `0`. -/
def evalStatementList (fuel : Nat) (list : StatementList F) (scope : Scope F) (w : State F) :
    Res F (F × Scope F) :=
  match fuel with
  | 0 => .error (.OutOfFuel, w)
  | fuel + 1 =>
    match list with
    | [] => .ok ((A.zero, scope), w)
    | stmt :: rest =>
      match evalStatement fuel stmt scope w with
      | .error e => .error e
      | .ok ((some val, sc), w1) => .ok ((val, sc), w1)
      | .ok ((none, sc), w1) => evalStatementList fuel rest sc w1

/-- Go `evalStatement`: only `Return` sets `val`. -/
def evalStatement (fuel : Nat) (stmt : Statement F) (scope : Scope F) (w : State F) :
    Res F (Option F × Scope F) :=
  match fuel with
  | 0 => .error (.OutOfFuel, w)
  | fuel + 1 =>
    match stmt with
    | .Assign s =>
      match evalAssignStatement fuel s scope w with
      | .error e => .error e
      | .ok (sc, w1) => .ok ((none, sc), w1)
    | .If s =>
      match evalIfStatement fuel s scope w with
      | .error e => .error e
      | .ok (sc, w1) => .ok ((none, sc), w1)
    | .While s =>
      match evalWhileStatement fuel s scope w with
      | .error e => .error e
      | .ok (sc, w1) => .ok ((none, sc), w1)
    | .Until s =>
      match evalUntilStatement fuel s scope w with
      | .error e => .error e
      | .ok (sc, w1) => .ok ((none, sc), w1)
    | .Print s =>
      match evalPrintStatement fuel s scope w with
      | .error e => .error e
      | .ok (_, w1) => .ok ((none, scope), w1)
    | .Input s =>
      match evalInputStatement A s scope w with
      | .error e => .error e
      | .ok (sc, w1) => .ok ((none, sc), w1)
    | .Function s => .ok ((none, scope), evalFunctionStatement s w)
    | .FunCall s =>
      match evalFunctionCall fuel s w with
      | .error e => .error e
      | .ok (_, w1) => .ok ((none, scope), w1)
    | .Return s =>
      match evalReturnStatement fuel s scope w with
      | .error e => .error e
      | .ok (a, w1) => .ok ((some a, scope), w1)

/-- Go `evalAssignStatement`. -/
def evalAssignStatement (fuel : Nat) (aStmt : AssignStatement F) (scope : Scope F)
    (w : State F) : Res F (Scope F) :=
  match fuel with
  | 0 => .error (.OutOfFuel, w)
  | fuel + 1 =>
    match evalAdd fuel aStmt.Expr scope w with
    | .error e => .error e
    | .ok (v, w1) => .ok (scope.set w1 aStmt.Ident v)

/-- Go `evalIfStatement`; the value of the executed body is dropped. -/
def evalIfStatement (fuel : Nat) (iStmt : IfStatement F) (scope : Scope F) (w : State F) :
    Res F (Scope F) :=
  match fuel with
  | 0 => .error (.OutOfFuel, w)
  | fuel + 1 =>
    match iStmt with
    | .mk condition body elseIfs els =>
      match evalCondition fuel condition scope w with
      | .error e => .error e
      | .ok (true, w1) =>
        match evalStatementList fuel body scope w1 with
        | .error e => .error e
        | .ok ((_, sc), w2) => .ok (sc, w2)
      | .ok (false, w1) =>
        match evalElseIfs fuel elseIfs scope w1 with
        | .error e => .error e
        | .ok ((true, sc), w2) => .ok (sc, w2)
        | .ok ((false, sc), w2) =>
          match els with
          | none => .ok (sc, w2)
          | some e => evalElse fuel e sc w2

/-- The `for` loop of `evalIfStatement` over `iStmt.ElseIf`: `true` when some
`evalElseIf` returned `true` (the `return` inside the loop). -/
def evalElseIfs (fuel : Nat) (elseIfs : List (ElseIf F)) (scope : Scope F) (w : State F) :
    Res F (Bool × Scope F) :=
  match fuel with
  | 0 => .error (.OutOfFuel, w)
  | fuel + 1 =>
    match elseIfs with
    | [] => .ok ((false, scope), w)
    | ei :: rest =>
      match evalElseIf fuel ei scope w with
      | .error e => .error e
      | .ok ((true, sc), w1) => .ok ((true, sc), w1)
      | .ok ((false, sc), w1) => evalElseIfs fuel rest sc w1

/-- Go `evalElseIf`. -/
def evalElseIf (fuel : Nat) (eiStmt : ElseIf F) (scope : Scope F) (w : State F) :
    Res F (Bool × Scope F) :=
  match fuel with
  | 0 => .error (.OutOfFuel, w)
  | fuel + 1 =>
    match eiStmt with
    | .mk condition body =>
      match evalCondition fuel condition scope w with
      | .error e => .error e
      | .ok (true, w1) =>
        match evalStatementList fuel body scope w1 with
        | .error e => .error e
        | .ok ((_, sc), w2) => .ok ((true, sc), w2)
      | .ok (false, w1) => .ok ((false, scope), w1)

/-- Go `evalElse`. -/
def evalElse (fuel : Nat) (body : StatementList F) (scope : Scope F) (w : State F) :
    Res F (Scope F) :=
  match fuel with
  | 0 => .error (.OutOfFuel, w)
  | fuel + 1 =>
    match evalStatementList fuel body scope w with
    | .error e => .error e
    | .ok ((_, sc), w1) => .ok (sc, w1)

/-- Go `evalWhileStatement`. -/
def evalWhileStatement (fuel : Nat) (wStmt : WhileStatement F) (scope : Scope F)
    (w : State F) : Res F (Scope F) :=
  match fuel with
  | 0 => .error (.OutOfFuel, w)
  | fuel + 1 =>
    match wStmt with
    | .mk condition body =>
      match evalCondition fuel condition scope w with
      | .error e => .error e
      | .ok (false, w1) => .ok (scope, w1)
      | .ok (true, w1) =>
        match evalStatementList fuel body scope w1 with
        | .error e => .error e
        | .ok ((_, sc), w2) => evalWhileStatement fuel wStmt sc w2

/-- Go `evalUntilStatement`. -/
def evalUntilStatement (fuel : Nat) (uStmt : UntilStatement F) (scope : Scope F)
    (w : State F) : Res F (Scope F) :=
  match fuel with
  | 0 => .error (.OutOfFuel, w)
  | fuel + 1 =>
    match uStmt with
    | .mk condition body =>
      match evalCondition fuel condition scope w with
      | .error e => .error e
      | .ok (true, w1) => .ok (scope, w1)
      | .ok (false, w1) =>
        match evalStatementList fuel body scope w1 with
        | .error e => .error e
        | .ok ((_, sc), w2) => evalUntilStatement fuel uStmt sc w2

/-- Go `evalPrintStatement`: with more than one expression each value is
printed by `fmt.Print(v, " ")`, a single one by `fmt.Print(v)`; then
`fmt.Println()`. -/
def evalPrintStatement (fuel : Nat) (pStmt : PrintStatement F) (scope : Scope F)
    (w : State F) : Res F Unit :=
  match fuel with
  | 0 => .error (.OutOfFuel, w)
  | fuel + 1 =>
    if 1 < pStmt.Expr1.length then
      match printLoop fuel pStmt.Expr1 scope w with
      | .error e => .error e
      | .ok (_, w1) => .ok ((), { w1 with stdout := w1.stdout ++ "\n" })
    else
      match pStmt.Expr1 with
      | [] => .error (.IndexOutOfRange, w)
      | add :: _ =>
        match evalAdd fuel add scope w with
        | .error e => .error e
        | .ok (v, w1) => .ok ((), { w1 with stdout := w1.stdout ++ A.fmt v ++ "\n" })

/-- The `for` loop of `evalPrintStatement`: `fmt.Print(evalAdd(&add, scope), " ")`
for each element. -/
def printLoop (fuel : Nat) (list : List (Add F)) (scope : Scope F) (w : State F) :
    Res F Unit :=
  match fuel with
  | 0 => .error (.OutOfFuel, w)
  | fuel + 1 =>
    match list with
    | [] => .ok ((), w)
    | add :: rest =>
      match evalAdd fuel add scope w with
      | .error e => .error e
      | .ok (v, w1) => printLoop fuel rest scope { w1 with stdout := w1.stdout ++ A.fmt v ++ " " }

/-- Go `evalFunctionCall`: a fresh `scope`, the lookup and the arity check, the
argument loop, then the body between `inFunction = true` and
`inFunction = false`.  `evalStatementList` never returns nil, so neither does
this function. -/
def evalFunctionCall (fuel : Nat) (fCall : FunCallStatement F) (w : State F) : Res F F :=
  match fuel with
  | 0 => .error (.OutOfFuel, w)
  | fuel + 1 =>
    match fCall with
    | .mk ident args =>
      match w.vars.Functions ident with
      | none => .error (.UndefinedFunction ident, w)
      | some f =>
        if f.params.length ≠ args.length then
          .error (.ArityMismatch ident f.params.length args.length, w)
        else
          match bindArguments fuel ident args 0 (Vars.Create F) w with
          | .error e => .error e
          | .ok (scope, w1) =>
            match w1.vars.Functions ident with
            | none => .error (.NilDeref, w1)
            | some f1 =>
              match evalStatementList fuel f1.body (.loc scope) { w1 with inFunction := true } with
              | .error e => .error e
              | .ok ((returned, _), w2) => .ok (returned, { w2 with inFunction := false })

/-- The `for` loop of `evalFunctionCall` from index `i`.  Each pass reads
`vars.Functions[*fCall.Ident]` anew for the bound and for the parameter name,
and evaluates `Args[i]` against the callee's new `scope`. -/
def bindArguments (fuel : Nat) (ident : String) (args : List (Add F)) (i : Nat)
    (scope : Vars F) (w : State F) : Res F (Vars F) :=
  match fuel with
  | 0 => .error (.OutOfFuel, w)
  | fuel + 1 =>
    match w.vars.Functions ident with
    | none => .error (.NilDeref, w)
    | some f =>
      if i < f.params.length then
        match args.get? i with
        | none => .error (.IndexOutOfRange, w)
        | some add =>
          match evalAdd fuel add (.loc scope) w with
          | .error e => .error e
          | .ok (val, w1) =>
            match w1.vars.Functions ident with
            | none => .error (.NilDeref, w1)
            | some f1 =>
              match f1.params.get? i with
              | none => .error (.IndexOutOfRange, w1)
              | some p =>
                bindArguments fuel ident args (i + 1) { scope with Vars := mapSet scope.Vars p val } w1
      else .ok (scope, w)

/-- Go `evalReturnStatement`. -/
def evalReturnStatement (fuel : Nat) (rStmt : ReturnStatement F) (scope : Scope F)
    (w : State F) : Res F F :=
  match fuel with
  | 0 => .error (.OutOfFuel, w)
  | fuel + 1 =>
    if w.inFunction = true then evalAdd fuel rStmt.Expr scope w
    else .error (.ReturnOutsideFunction, w)

/-- Go `evalCondition`: both operands, the comparison, then the whole trailing
condition if there is one. -/
def evalCondition (fuel : Nat) (condition : Condition F) (scope : Scope F) (w : State F) :
    Res F Bool :=
  match fuel with
  | 0 => .error (.OutOfFuel, w)
  | fuel + 1 =>
    match condition with
    | .mk a1 cond a2 logic =>
      match evalAdd fuel a1 scope w with
      | .error e => .error e
      | .ok (add1, w1) =>
        match evalAdd fuel a2 scope w1 with
        | .error e => .error e
        | .ok (add2, w2) =>
          let val := compare A cond add1 add2
          match logic with
          | none => .ok (val, w2)
          | some (lg, moreCond) =>
            match evalCondition fuel moreCond scope w2 with
            | .error e => .error e
            | .ok (val2, w3) =>
              if lg = "and" then .ok (val2 && val, w3)
              else if lg = "or" then .ok (val2 || val, w3)
              else .ok (false, w3)

/-- Go `evalAdd`: the second branch tests the operator against `"/"`. -/
def evalAdd (fuel : Nat) (add : Add F) (scope : Scope F) (w : State F) : Res F F :=
  match fuel with
  | 0 => .error (.OutOfFuel, w)
  | fuel + 1 =>
    match add with
    | .mk m op =>
      match evalMul fuel m scope w with
      | .error e => .error e
      | .ok (mul, w1) =>
        match op with
        | none => .ok (mul, w1)
        | some (o, rhs) =>
          if o = "+" then
            match evalAdd fuel rhs scope w1 with
            | .error e => .error e
            | .ok (r, w2) => .ok (A.add mul r, w2)
          else if o = "/" then
            match evalAdd fuel rhs scope w1 with
            | .error e => .error e
            | .ok (r, w2) => .ok (A.sub mul r, w2)
          else .ok (mul, w1)

/-- Go `evalMul`. -/
def evalMul (fuel : Nat) (mul : Mul F) (scope : Scope F) (w : State F) : Res F F :=
  match fuel with
  | 0 => .error (.OutOfFuel, w)
  | fuel + 1 =>
    match mul with
    | .mk v op =>
      match evalValue fuel v scope w with
      | .error e => .error e
      | .ok (val, w1) =>
        match op with
        | none => .ok (val, w1)
        | some (o, rhs) =>
          if o = "*" then
            match evalMul fuel rhs scope w1 with
            | .error e => .error e
            | .ok (r, w2) => .ok (A.mul val r, w2)
          else if o = "/" then
            match evalMul fuel rhs scope w1 with
            | .error e => .error e
            | .ok (r, w2) => .ok (A.div val r, w2)
          else .ok (val, w1)

/-- Go `evalValue`: the alternative, then `math.Pow`, then the negation. -/
def evalValue (fuel : Nat) (value : Value F) (scope : Scope F) (w : State F) : Res F F :=
  match fuel with
  | 0 => .error (.OutOfFuel, w)
  | fuel + 1 =>
    match value with
    | .mk unary alt exp =>
      let base : Res F F :=
        match alt with
        | .Number n => .ok (n, w)
        | .Variable x =>
          match scope.Vars w x with
          | some v => .ok (v, w)
          | none =>
            match w.vars.Vars x with
            | some v => .ok (v, w)
            | none => .error (.UndefinedVariable x, w)
        | .Parens a => evalAdd fuel a scope w
        | .FunCallStatement f => evalFunctionCall fuel f w
      match base with
      | .error e => .error e
      | .ok (val, w1) =>
        let val1 := match exp with
          | none => val
          | some e => A.pow val e
        let val2 := match unary with
          | none => val1
          | some _ => A.neg val1
        .ok (val2, w1)

end

end Eval

/-! ## A concrete arithmetic

`Flt` is exact arithmetic on the rationals, extended with the two infinities
and NaN of IEEE-754.  It agrees with `float64` wherever the `float64` operation
is exact (no rounding, no overflow) and tells no sign of zero; it is what the
concrete runs below compute with. -/

/-- A number: a finite rational, `+Inf`, `-Inf` or `NaN`. -/
inductive Flt where
  | fin (q : ℚ)
  | pinf
  | ninf
  | nan
  deriving DecidableEq

namespace Flt

/-- Unary minus. -/
def neg : Flt → Flt
  | fin q => fin (-q)
  | pinf => ninf
  | ninf => pinf
  | nan => nan

/-- Addition. -/
def add : Flt → Flt → Flt
  | fin a, fin b => fin (a + b)
  | nan, _ => nan
  | _, nan => nan
  | pinf, ninf => nan
  | ninf, pinf => nan
  | pinf, _ => pinf
  | _, pinf => pinf
  | ninf, _ => ninf
  | _, ninf => ninf

/-- Subtraction. -/
def sub (a b : Flt) : Flt := add a (neg b)

/-- The infinity of the sign of `q`, NaN for `q = 0`. -/
def infOfSign (q : ℚ) : Flt :=
  if 0 < q then pinf else if q < 0 then ninf else nan

/-- Multiplication. -/
def mul : Flt → Flt → Flt
  | fin a, fin b => fin (a * b)
  | nan, _ => nan
  | _, nan => nan
  | pinf, fin b => infOfSign b
  | fin a, pinf => infOfSign a
  | ninf, fin b => infOfSign (-b)
  | fin a, ninf => infOfSign (-a)
  | pinf, pinf => pinf
  | ninf, ninf => pinf
  | pinf, ninf => ninf
  | ninf, pinf => ninf

/-- Division: a finite value over zero is an infinity (NaN for `0 / 0`), never
a failure. -/
def div : Flt → Flt → Flt
  | fin a, fin b => if b = 0 then infOfSign a else fin (a / b)
  | nan, _ => nan
  | _, nan => nan
  | fin _, pinf => fin 0
  | fin _, ninf => fin 0
  | pinf, fin b => if 0 ≤ b then pinf else ninf
  | ninf, fin b => if 0 ≤ b then ninf else pinf
  | pinf, pinf => nan
  | pinf, ninf => nan
  | ninf, pinf => nan
  | ninf, ninf => nan

/-- The power `x ^ y` for a finite base and an integer exponent, where it is
exact; `1` for the exponent `0`; NaN elsewhere (outside the exact fragment). -/
def pow : Flt → Flt → Flt
  | fin x, fin y =>
    if y = 0 then fin 1
    else if y.den = 1 then
      if 0 ≤ y.num then fin (x ^ y.num.toNat)
      else if x = 0 then pinf
      else fin ((x ^ (-y.num).toNat)⁻¹)
    else nan
  | _, fin y => if y = 0 then fin 1 else nan
  | _, _ => nan

/-- Go `==`. -/
def eq : Flt → Flt → Bool
  | fin a, fin b => decide (a = b)
  | pinf, pinf => true
  | ninf, ninf => true
  | _, _ => false

/-- Go `<`. -/
def lt : Flt → Flt → Bool
  | fin a, fin b => decide (a < b)
  | nan, _ => false
  | _, nan => false
  | ninf, ninf => false
  | ninf, _ => true
  | pinf, _ => false
  | _, pinf => true
  | _, ninf => false

/-- Go `<=`. -/
def le (a b : Flt) : Bool := lt a b || eq a b

/-- The text of `fmt.Print`: an integer below `10^6` in absolute value is its
decimal digits; the infinities and NaN are `+Inf`, `-Inf`, `NaN`.  Other
values are written as a fraction, which is not the text Go prints. -/
def fmt : Flt → String
  | fin q =>
    if q.den = 1 ∧ q.num.natAbs < 1000000 then toString q.num
    else toString q.num ++ "/" ++ toString q.den
  | pinf => "+Inf"
  | ninf => "-Inf"
  | nan => "NaN"

/-- Reading a number: only unsigned decimal integers are recognised. -/
def parseFloat (s : String) : Option Flt :=
  match s.trim.toNat? with
  | some n => some (fin n)
  | none => none

end Flt

/-- The arithmetic of `Flt`. -/
def fltArith : Arith Flt where
  zero := .fin 0
  add := Flt.add
  sub := Flt.sub
  mul := Flt.mul
  div := Flt.div
  pow := Flt.pow
  neg := Flt.neg
  eq := Flt.eq
  lt := Flt.lt
  le := Flt.le
  fmt := Flt.fmt
  parseFloat := Flt.parseFloat

/-! ## The arithmetic of `float64`

The same numbers with every result rounded as IEEE-754 binary64 rounds it.
It is the arithmetic in which a claim about the limits of exact counting is
settled; the concrete runs on small integers agree in both arithmetics. -/

/-- Rounding of a rational to the nearest integer, a tie going to the even
one. -/
def roundHalfEven (m : ℚ) : ℤ :=
  if m - ⌊m⌋ < 1 / 2 then ⌊m⌋
  else if 1 / 2 < m - ⌊m⌋ then ⌊m⌋ + 1
  else if ⌊m⌋ % 2 = 0 then ⌊m⌋ else ⌊m⌋ + 1

/-- The `float64` nearest to a number (IEEE-754 binary64, round to nearest,
ties to even): the significand has 53 bits, the exponent of the leading bit is
at least `-1022` (below it the numbers are subnormal), and a rounded magnitude
of `2 ^ 1024` or more is an infinity.  The sign of a zero is not told. -/
def Flt.round64 : Flt → Flt
  | .fin q =>
    if q = 0 then .fin 0
    else
      let e := max (Int.log 2 |q|) (-1022)
      let ulp : ℚ := 2 ^ (e - 52)
      let v := roundHalfEven (q / ulp) * ulp
      if 2 ^ 1024 ≤ |v| then Flt.infOfSign q else .fin v
  | x => x

/-- The arithmetic of `float64`: the exact result of `Flt`, rounded to the
nearest `float64`.  For `+ - * /` this is the IEEE-754 operation of Go up to
the sign of zero. -/
def f64Arith : Arith Flt where
  zero := .fin 0
  add a b := (Flt.add a b).round64
  sub a b := (Flt.sub a b).round64
  mul a b := (Flt.mul a b).round64
  div a b := (Flt.div a b).round64
  pow a b := (Flt.pow a b).round64
  neg := Flt.neg
  eq := Flt.eq
  lt := Flt.lt
  le := Flt.le
  fmt := Flt.fmt
  parseFloat s := (Flt.parseFloat s).map Flt.round64

/-! ## Building syntax trees -/

section Build

variable {F : Type}

/-- The value `n` with no sign and no exponent. -/
def Value.num (n : F) : Value F := .mk none (.Number n) none

/-- The value `x` (a variable) with no sign and no exponent. -/
def Value.var (x : String) : Value F := .mk none (.Variable x) none

/-- The value `f(args)` with no sign and no exponent. -/
def Value.call (f : String) (args : List (Add F)) : Value F :=
  .mk none (.FunCallStatement (.mk f args)) none

/-- A `Mul` that is a single value. -/
def Mul.one (v : Value F) : Mul F := .mk v none

/-- An `Add` that is a single value. -/
def Add.one (v : Value F) : Add F := .mk (.mk v none) none

/-- The expression `n`. -/
def Add.num (n : F) : Add F := Add.one (Value.num n)

/-- The expression `x`. -/
def Add.var (x : String) : Add F := Add.one (Value.var x)

/-- The expression `f(args)`. -/
def Add.call (f : String) (args : List (Add F)) : Add F := Add.one (Value.call f args)

/-- The expression `v op rhs`. -/
def Add.bin (v : Value F) (op : String) (rhs : Add F) : Add F := .mk (.mk v none) (some (op, rhs))

/-- The condition `a cond b` with no connective. -/
def Condition.cmp (a : Add F) (cond : String) (b : Add F) : Condition F := .mk a cond b none

/-- The state of `main` before the program runs: `vars.Create()`,
`inFunction = false`, nothing printed. -/
def State.init (F : Type) (stdin : List String) : State F :=
  { vars := Vars.Create F, inFunction := false, stdout := "", stdin := stdin }

/-- The call `evalStatementList(expr, vars)` of `main`. -/
def runMain (A : Arith F) (fuel : Nat) (prog : StatementList F) (stdin : List String) :
    Res F (F × Scope F) :=
  evalStatementList A fuel prog .glob (State.init F stdin)

/-- The standard output of an outcome, whether it ended or panicked. -/
def Res.stdout {α : Type} (r : Res F α) : String :=
  match r with
  | .ok (_, w) => w.stdout
  | .error (_, w) => w.stdout

/-- The panic of an outcome, if any. -/
def Res.err {α : Type} (r : Res F α) : Option Err :=
  match r with
  | .ok _ => none
  | .error (e, _) => some e

/-- The value of an outcome, if it ended. -/
def Res.val {α : Type} (r : Res F α) : Option α :=
  match r with
  | .ok (a, _) => some a
  | .error _ => none

end Build

/-! ## Outcomes that do not depend on the fuel -/

/-- The run was cut by the fuel bound. -/
def Err.isOOF : Err → Bool
  | .OutOfFuel => true
  | _ => false

/-- The outcome is the fuel bound being reached. -/
def Res.isOOF {F α : Type} (r : Res F α) : Bool :=
  match r with
  | .error e => e.1.isOOF
  | .ok _ => false

/-- The evaluator `f` (a function of the fuel) ends with outcome `r`: some
amount of fuel gives `r`, and `r` is not the fuel bound.  By `Evals.stable`
every larger amount of fuel gives `r` as well. -/
def Evals {F α : Type} (f : Nat → Res F α) (r : Res F α) : Prop :=
  ∃ n, f n = r ∧ r.isOOF = false

/-- The outcome of a block whose value is dropped by the statement around it
(`evalIfStatement`, `evalElse`). -/
def dropValue {F : Type} (r : Res F (F × Scope F)) : Res F (Scope F) :=
  match r with
  | .error e => .error e
  | .ok ((_, sc), w) => .ok (sc, w)

/-- The outcome of `evalElseIf` when its condition holds and its body ends
with `r`. -/
def takenValue {F : Type} (r : Res F (F × Scope F)) : Res F (Bool × Scope F) :=
  match r with
  | .error e => .error e
  | .ok ((_, sc), w) => .ok ((true, sc), w)

/-- The conditions of the `elseif` clauses in the list all evaluate to false,
one after the other, taking the state from the first to the second. -/
inductive ElseIfsFalse {F : Type} (A : Arith F) (sc : Scope F) :
    List (ElseIf F) → State F → State F → Prop
  | nil (w : State F) : ElseIfsFalse A sc [] w w
  | cons (c : Condition F) (body : StatementList F) (rest : List (ElseIf F))
      (w w1 w2 : State F)
      (hc : Evals (fun n => evalCondition A n c sc w) (.ok (false, w1)))
      (hrest : ElseIfsFalse A sc rest w1 w2) :
      ElseIfsFalse A sc (.mk c body :: rest) w w2

mutual
/-- No function call occurs in the expression. -/
def Add.noCalls {F : Type} : Add F → Bool
  | .mk m none => m.noCalls
  | .mk m (some (_, rhs)) => m.noCalls && rhs.noCalls
/-- No function call occurs in the product. -/
def Mul.noCalls {F : Type} : Mul F → Bool
  | .mk v none => v.noCalls
  | .mk v (some (_, rhs)) => v.noCalls && rhs.noCalls
/-- No function call occurs in the value. -/
def Value.noCalls {F : Type} : Value F → Bool
  | .mk _ (.Number _) _ => true
  | .mk _ (.Variable _) _ => true
  | .mk _ (.Parens a) _ => a.noCalls
  | .mk _ (.FunCallStatement _) _ => false
end

section Shapes

variable {F : Type}

/-- The last two steps of Go `evalValue` on the value `val` of the
alternative: `math.Pow` if there is an exponent, then the negation if there is
a unary minus. -/
def finishValue (A : Arith F) (unary : Option String) (exp : Option F) (val : F) : F :=
  let val1 := match exp with
    | none => val
    | some e => A.pow val e
  match unary with
  | none => val1
  | some _ => A.neg val1

/-- The truth value of `a lg b` for the connectives `and` and `or`, as the last
step of Go `evalCondition` combines the two values; with any other text it
returns `false`. -/
def connective (lg : String) (a b : Bool) : Bool :=
  if lg = "and" then a && b else if lg = "or" then a || b else false

/-- The chain `c1 L1 c2 L2 c3` grouped to the right, `c1 L1 (c2 L2 c3)`, on the
truth values of the comparisons. -/
def groupRight (l1 l2 : String) (v1 v2 v3 : Bool) : Bool :=
  connective l1 v1 (connective l2 v2 v3)

/-- The chain `c1 L1 c2 L2 c3` grouped to the left, `(c1 L1 c2) L2 c3`, on the
truth values of the comparisons: the grouping the code does not make, which
the chain is compared with. -/
def groupLeft (l1 l2 : String) (v1 v2 v3 : Bool) : Bool :=
  connective l2 (connective l1 v1 v2) v3

/-- The chain `a1 op1 b1  l1  a2 op2 b2  l2  a3 op3 b3` as the grammar builds it. -/
def condChain (a1 : Add F) (op1 : String) (b1 : Add F) (l1 : String)
    (a2 : Add F) (op2 : String) (b2 : Add F) (l2 : String)
    (a3 : Add F) (op3 : String) (b3 : Add F) : Condition F :=
  .mk a1 op1 b1 (some (l1, .mk a2 op2 b2 (some (l2, .mk a3 op3 b3 none))))

/-- The statement is a `Return`. -/
def Statement.isReturn : Statement F → Bool
  | .Return _ => true
  | _ => false

/-- The statement `until x == vn do x = x + one end`. -/
def untilCount (x : String) (vn one : F) : UntilStatement F :=
  .mk (Condition.cmp (Add.var x) "==" (Add.num vn))
    [ .Assign ⟨x, Add.bin (Value.var x) "+" (Add.num one)⟩ ]

/-- The scope is a local store, not the pointer `vars`. -/
def Scope.isLoc : Scope F → Bool
  | .glob => false
  | .loc _ => true

end Shapes

/-! ## The grammar rule of `Condition`

The struct tags of `Condition` are a grammar for the parser library
`participle`, which the source imports and builds its parser with; the code of
the library is not part of the source.  The rule of the tags is embedded over
a list of tokens, under the reading the library gives a tag: a sequence
matches its items in turn, and of the alternatives of a group the first that
matches, in the order written, is taken for good.  The lexer delivers
punctuation one character at a time, which is why the tag spells the operator
`<=` as the two literals `"<" "="`. -/

section Grammar

variable {F : Type}

/-- A token: a number, an identifier (keywords are identifiers) or one
punctuation character, as the lexer of the grammar library delivers them. -/
inductive Token (F : Type) where
  | Number (n : F)
  | Ident (s : String)
  | Punct (s : String)

/-- The token has the text of the grammar literal. -/
def Token.isLit : Token F → String → Bool
  | .Number _, _ => false
  | .Ident x, s => x == s
  | .Punct x, s => x == s

/-- Outcome of a parser: a tree and the tokens left, a failure at the tokens
where it occurred, or the fuel bound. -/
inductive ParseRes (F : Type) (α : Type) where
  | ok (a : α) (rest : List (Token F))
  | fail (at_ : List (Token F))
  | outOfFuel

/-- Matching a sequence of grammar literals such as `"<" "="`. -/
def matchLits : List String → List (Token F) → Option (List (Token F))
  | [], ts => some ts
  | _ :: _, [] => none
  | l :: ls, t :: ts => if t.isLit l then matchLits ls ts else none

/-- A captured group of alternatives `@(alt | alt | ...)` as the library reads
it: the alternatives are tried in the order written and the first that matches
is taken; the capture is the text of the matched tokens. -/
def matchAlternatives : List (List String) → List (Token F) → Option (String × List (Token F))
  | [], _ => none
  | alt :: alts, ts =>
    match matchLits alt ts with
    | some rest => some (String.join alt, rest)
    | none => matchAlternatives alts ts

/-- The alternatives of the tag of `Cond`, in the order of the source:
`@("=" "="|">"|"<"|"!" "="|"<" "="|">" "=")`. -/
def condAlternatives : List (List String) :=
  [["=", "="], [">"], ["<"], ["!", "="], ["<", "="], [">", "="]]

/-- The alternatives of the tag of `Logic`: `@("and"|"or")`. -/
def logicAlternatives : List (List String) := [["and"], ["or"]]

/-- The rule of Go `Condition`: `Add1`, the group of `Cond`, `Add2`, then the
optional group of `Logic` and `MoreCond`.  A choice once taken is not reopened
when a later part of the rule fails.  The parser of `Add` is a parameter. -/
def parseCondition (parseAdd : List (Token F) → ParseRes F (Add F)) :
    Nat → List (Token F) → ParseRes F (Condition F)
  | 0, _ => .outOfFuel
  | fuel + 1, ts =>
    match parseAdd ts with
    | .outOfFuel => .outOfFuel
    | .fail p => .fail p
    | .ok add1 t1 =>
      match matchAlternatives condAlternatives t1 with
      | none => .fail t1
      | some (cond, t2) =>
        match parseAdd t2 with
        | .outOfFuel => .outOfFuel
        | .fail p => .fail p
        | .ok add2 t3 =>
          match matchAlternatives logicAlternatives t3 with
          | none => .ok (.mk add1 cond add2 none) t3
          | some (lg, t4) =>
            match parseCondition parseAdd fuel t4 with
            | .outOfFuel => .outOfFuel
            | .fail p => .fail p
            | .ok more t5 => .ok (.mk add1 cond add2 (some (lg, more))) t5

/-- A parser of the operands that are one number or one identifier. -/
def parseOperand : List (Token F) → ParseRes F (Add F)
  | .Number n :: ts => .ok (Add.num n) ts
  | .Ident x :: ts => .ok (Add.var x) ts
  | ts => .fail ts

end Grammar

/-! ## The programs run below -/

/-- The expression `5 - 3`. -/
def exprFiveMinusThree : Add Flt := Add.bin (Value.num (.fin 5)) "-" (Add.num (.fin 3))

/-- The condition `1 > 2 and 3 < 4` of the program of `main`. -/
def condMain : Condition Flt :=
  .mk (Add.num (.fin 1)) ">" (Add.num (.fin 2))
    (some ("and", Condition.cmp (Add.num (.fin 3)) "<" (Add.num (.fin 4))))

/-- The clause `elseif 2 < 2 then print 2` of the program of `main`. -/
def elseIfMain : ElseIf Flt :=
  .mk (Condition.cmp (Add.num (.fin 2)) "<" (Add.num (.fin 2))) [ .Print ⟨[Add.num (.fin 2)]⟩ ]

/-- The program of `main`:
`if 1 > 2 and 3 < 4 then print 4 elseif 2 < 2 then print 2 else print 1 end`. -/
def progMain : StatementList Flt :=
  [ .If (.mk condMain [ .Print ⟨[Add.num (.fin 4)]⟩ ] [ elseIfMain ]
      (some [ .Print ⟨[Add.num (.fin 1)]⟩ ])) ]

/-- The program
`a = 1  b = 2  func f(a, b) return b end  print f(b, a)`. -/
def progArgsSwapped : StatementList Flt :=
  [ .Assign ⟨"a", Add.num (.fin 1)⟩,
    .Assign ⟨"b", Add.num (.fin 2)⟩,
    .Function (.mk "f" ["a", "b"] [ .Return ⟨Add.var "b"⟩ ]),
    .Print ⟨[Add.call "f" [Add.var "b", Add.var "a"]]⟩ ]

/-- The program
`func g(y) return y end  func f(x) return g(x) end  print f(7)`. -/
def progArgCallerLocal : StatementList Flt :=
  [ .Function (.mk "g" ["y"] [ .Return ⟨Add.var "y"⟩ ]),
    .Function (.mk "f" ["x"] [ .Return ⟨Add.call "g" [Add.var "x"]⟩ ]),
    .Print ⟨[Add.call "f" [Add.num (.fin 7)]]⟩ ]

/-- The program
`func f() if 1 < 2 then return 5 end return 7 end  print f()`. -/
def progNestedReturn : StatementList Flt :=
  [ .Function (.mk "f" []
      [ .If (.mk (Condition.cmp (Add.num (.fin 1)) "<" (Add.num (.fin 2)))
          [ .Return ⟨Add.num (.fin 5)⟩ ] [] none),
        .Return ⟨Add.num (.fin 7)⟩ ]),
    .Print ⟨[Add.call "f" []]⟩ ]

/-- The program
`func g() return 1 end  func f() g() return 2 end  print f()`. -/
def progCallThenReturn : StatementList Flt :=
  [ .Function (.mk "g" [] [ .Return ⟨Add.num (.fin 1)⟩ ]),
    .Function (.mk "f" [] [ .FunCall (.mk "g" []), .Return ⟨Add.num (.fin 2)⟩ ]),
    .Print ⟨[Add.call "f" []]⟩ ]

/-- The program `a = 1  b = 2  c = 3  print a, b, c`. -/
def progPrintThree : StatementList Flt :=
  [ .Assign ⟨"a", Add.num (.fin 1)⟩,
    .Assign ⟨"b", Add.num (.fin 2)⟩,
    .Assign ⟨"c", Add.num (.fin 3)⟩,
    .Print ⟨[Add.var "a", Add.var "b", Add.var "c"]⟩ ]

/-- The chain `va / vb / rest`, as the grammar groups it. -/
def divChain {F : Type} (va vb : Value F) (rest : Mul F) : Mul F :=
  .mk va (some ("/", .mk vb (some ("/", rest))))

/-- The expression `8 / 4 / 2`. -/
def exprEightFourTwo : Mul Flt :=
  divChain (Value.num (.fin 8)) (Value.num (.fin 4)) (Mul.one (Value.num (.fin 2)))

/-- The function `func add(a, b) return a + b end`. -/
def fnAdd : FunctionStatement Flt :=
  .mk "add" ["a", "b"] [ .Return ⟨Add.bin (Value.var "a") "+" (Add.var "b")⟩ ]

/-- The state of `main` after `func add(a, b) return a + b end` is defined. -/
def stateWithAdd : State Flt := evalFunctionStatement fnAdd (State.init Flt [])

/-- The local store of the call `add(2, 3)`. -/
def storeAddTwoThree : Vars Flt :=
  { Vars := mapSet (mapSet (fun _ => none) "a" (Flt.fin 2)) "b" (Flt.fin 3),
    Functions := fun _ => none }

/-- The program `a = 1  return a`. -/
def progTopReturn : StatementList Flt :=
  [ .Assign ⟨"a", Add.num (.fin 1)⟩ ] ++ [ .Return ⟨Add.var "a"⟩ ]

/-- The expression `5 - y`. -/
def exprFiveMinusY : Add Flt := Add.bin (Value.num (.fin 5)) "-" (Add.var "y")

/-- The product `1 / 0`. -/
def exprOneOverZero : Mul Flt := .mk (Value.num (.fin 1)) (some ("/", Mul.one (Value.num (.fin 0))))

/-- The value `2 ^ 3`. -/
def valueTwoCubed : Value Flt := .mk none (.Number (.fin 2)) (some (.fin 3))

/-- The value `-2 ^ 2`. -/
def valueMinusTwoSquared : Value Flt := .mk (some "-") (.Number (.fin 2)) (some (.fin 2))

/-- The state of `main` after `x = 1` at top level. -/
def stateXOne : State Flt := (Scope.set .glob (State.init Flt []) "x" (Flt.fin 1)).2

/-- A local store in which `x` is 2. -/
def storeXTwo : Vars Flt := { Vars := mapSet (fun _ => none) "x" (Flt.fin 2), Functions := fun _ => none }

/-- The condition `1 < 2 or 1 < 2 and 2 < 1`. -/
def condMixed : Condition Flt :=
  condChain (Add.num (.fin 1)) "<" (Add.num (.fin 2)) "or"
    (Add.num (.fin 1)) "<" (Add.num (.fin 2)) "and"
    (Add.num (.fin 2)) "<" (Add.num (.fin 1))

/-- The condition `1 < 0 and y == 1`. -/
def condFalseAndUndefined : Condition Flt :=
  .mk (Add.num (.fin 1)) "<" (Add.num (.fin 0))
    (some ("and", Condition.cmp (Add.var "y") "==" (Add.num (.fin 1))))

/-- The program `func p() print 7 end  if 1 < 2 or p() == 0 then print 1 end`. -/
def progOrWithCall : StatementList Flt :=
  [ .Function (.mk "p" [] [ .Print ⟨[Add.num (.fin 7)]⟩ ]),
    .If (.mk (.mk (Add.num (.fin 1)) "<" (Add.num (.fin 2))
          (some ("or", Condition.cmp (Add.call "p" []) "==" (Add.num (.fin 0)))))
        [ .Print ⟨[Add.num (.fin 1)]⟩ ] [] none) ]

/-- The function `func f() x = 1 end`. -/
def fnNoReturn : FunctionStatement Flt := .mk "f" [] [ .Assign ⟨"x", Add.num (.fin 1)⟩ ]

/-- The program `func f() x = 1 end  f()  print f() + 2`. -/
def progNoReturn : StatementList Flt :=
  [ .Function fnNoReturn,
    .FunCall (.mk "f" []),
    .Print ⟨[Add.bin (Value.call "f" []) "+" (Add.num (.fin 2))]⟩ ]

/-- The state of `main` after `func f() x = 1 end` is defined. -/
def stateWithNoReturn : State Flt := evalFunctionStatement fnNoReturn (State.init Flt [])

/-- The program `x = 0  until x == 3 do x = x + 1 end  print x`. -/
def progUntilThree : StatementList Flt :=
  [ .Assign ⟨"x", Add.num (.fin 0)⟩,
    .Until (untilCount "x" (.fin 3) (.fin 1)),
    .Print ⟨[Add.var "x"]⟩ ]

/-- The program `x = 0  until x == 3 do print x  x = x + 1 end`, whose body
prints the counter at each pass. -/
def progUntilTraced : StatementList Flt :=
  [ .Assign ⟨"x", Add.num (.fin 0)⟩,
    .Until (.mk (Condition.cmp (Add.var "x") "==" (Add.num (.fin 3)))
      [ .Print ⟨[Add.var "x"]⟩,
        .Assign ⟨"x", Add.bin (Value.var "x") "+" (Add.num (.fin 1))⟩ ]) ]

/-- The natural number `k` as a number of `Flt`. -/
def fltOfNat (k : Nat) : Flt := .fin (k : ℚ)

/-- The state of `main` after `x = 0` at top level. -/
def stateXZero : State Flt := (Scope.set .glob (State.init Flt []) "x" (fltOfNat 0)).2

/-- The function `func f() x = 2 return x end`. -/
def fnShadow : FunctionStatement Flt :=
  .mk "f" [] [ .Assign ⟨"x", Add.num (.fin 2)⟩, .Return ⟨Add.var "x"⟩ ]

/-- The program `x = 1  func f() x = 2 return x end  print f()  print x`. -/
def progShadow : StatementList Flt :=
  [ .Assign ⟨"x", Add.num (.fin 1)⟩,
    .Function fnShadow,
    .Print ⟨[Add.call "f" []]⟩,
    .Print ⟨[Add.var "x"]⟩ ]

/-- The state of `main` after `x = 1  func f() x = 2 return x end`. -/
def stateShadow : State Flt :=
  evalFunctionStatement fnShadow (Scope.set .glob (State.init Flt []) "x" (Flt.fin 1)).2

/-- The tokens of `1 <= 2`. -/
def tokensLessEq : List (Token Flt) := [.Number (.fin 1), .Punct "<", .Punct "=", .Number (.fin 2)]

/-- The tokens of `1 >= 2`. -/
def tokensGreaterEq : List (Token Flt) :=
  [.Number (.fin 1), .Punct ">", .Punct "=", .Number (.fin 2)]

/-- The tokens of `1 == 2`. -/
def tokensEqEq : List (Token Flt) := [.Number (.fin 1), .Punct "=", .Punct "=", .Number (.fin 2)]

/-- The tokens of `1 < 2`. -/
def tokensLess : List (Token Flt) := [.Number (.fin 1), .Punct "<", .Number (.fin 2)]

/-- The counter of `until x == 2 ^ 53 + 2 do x = x + 1 end` after `k` passes in
`float64`: `k` up to `2 ^ 53`, where it stays. -/
def f64Count (k : Nat) : Flt := fltOfNat (min k (2 ^ 53))

/-! ## Fuel: an outcome that is not the fuel bound is stable -/

section Fuel

variable {F : Type}

@[simp] theorem Res.isOOF_ok {α : Type} (x : α × State F) :
    Res.isOOF (Except.ok x : Res F α) = false := rfl

@[simp] theorem Res.isOOF_error {α : Type} (e : Err × State F) :
    Res.isOOF (Except.error e : Res F α) = e.1.isOOF := rfl

/-- One more unit of fuel does not change an outcome that did not run out of fuel,
for each evaluator at fuel `n`. -/
structure Mono (A : Arith F) (n : Nat) : Prop where
  stmtList : ∀ (l : StatementList F) (sc : Scope F) (w : State F),
    (evalStatementList A n l sc w).isOOF = false → evalStatementList A (n + 1) l sc w = evalStatementList A n l sc w
  stmt : ∀ (s : Statement F) (sc : Scope F) (w : State F),
    (evalStatement A n s sc w).isOOF = false → evalStatement A (n + 1) s sc w = evalStatement A n s sc w
  assign : ∀ (s : AssignStatement F) (sc : Scope F) (w : State F),
    (evalAssignStatement A n s sc w).isOOF = false → evalAssignStatement A (n + 1) s sc w = evalAssignStatement A n s sc w
  ifStmt : ∀ (s : IfStatement F) (sc : Scope F) (w : State F),
    (evalIfStatement A n s sc w).isOOF = false → evalIfStatement A (n + 1) s sc w = evalIfStatement A n s sc w
  elseIfs : ∀ (l : List (ElseIf F)) (sc : Scope F) (w : State F),
    (evalElseIfs A n l sc w).isOOF = false → evalElseIfs A (n + 1) l sc w = evalElseIfs A n l sc w
  elseIf : ∀ (s : ElseIf F) (sc : Scope F) (w : State F),
    (evalElseIf A n s sc w).isOOF = false → evalElseIf A (n + 1) s sc w = evalElseIf A n s sc w
  els : ∀ (l : StatementList F) (sc : Scope F) (w : State F),
    (evalElse A n l sc w).isOOF = false → evalElse A (n + 1) l sc w = evalElse A n l sc w
  whileS : ∀ (s : WhileStatement F) (sc : Scope F) (w : State F),
    (evalWhileStatement A n s sc w).isOOF = false → evalWhileStatement A (n + 1) s sc w = evalWhileStatement A n s sc w
  untilS : ∀ (s : UntilStatement F) (sc : Scope F) (w : State F),
    (evalUntilStatement A n s sc w).isOOF = false → evalUntilStatement A (n + 1) s sc w = evalUntilStatement A n s sc w
  print : ∀ (s : PrintStatement F) (sc : Scope F) (w : State F),
    (evalPrintStatement A n s sc w).isOOF = false → evalPrintStatement A (n + 1) s sc w = evalPrintStatement A n s sc w
  ploop : ∀ (l : List (Add F)) (sc : Scope F) (w : State F),
    (printLoop A n l sc w).isOOF = false → printLoop A (n + 1) l sc w = printLoop A n l sc w
  call : ∀ (c : FunCallStatement F) (w : State F),
    (evalFunctionCall A n c w).isOOF = false → evalFunctionCall A (n + 1) c w = evalFunctionCall A n c w
  bind : ∀ (ident : String) (args : List (Add F)) (i : Nat) (scope : Vars F) (w : State F),
    (bindArguments A n ident args i scope w).isOOF = false → bindArguments A (n + 1) ident args i scope w = bindArguments A n ident args i scope w
  ret : ∀ (s : ReturnStatement F) (sc : Scope F) (w : State F),
    (evalReturnStatement A n s sc w).isOOF = false → evalReturnStatement A (n + 1) s sc w = evalReturnStatement A n s sc w
  cond : ∀ (c : Condition F) (sc : Scope F) (w : State F),
    (evalCondition A n c sc w).isOOF = false → evalCondition A (n + 1) c sc w = evalCondition A n c sc w
  add : ∀ (a : Add F) (sc : Scope F) (w : State F),
    (evalAdd A n a sc w).isOOF = false → evalAdd A (n + 1) a sc w = evalAdd A n a sc w
  mul : ∀ (m : Mul F) (sc : Scope F) (w : State F),
    (evalMul A n m sc w).isOOF = false → evalMul A (n + 1) m sc w = evalMul A n m sc w
  value : ∀ (v : Value F) (sc : Scope F) (w : State F),
    (evalValue A n v sc w).isOOF = false → evalValue A (n + 1) v sc w = evalValue A n v sc w

theorem mono_zero (A : Arith F) : Mono A 0 := by
  constructor <;> intros <;> rename_i h <;> simp [Err.isOOF, evalStatementList, evalStatement, evalAssignStatement, evalIfStatement, evalElseIfs, evalElseIf, evalElse, evalWhileStatement, evalUntilStatement, evalPrintStatement, printLoop, evalFunctionCall, bindArguments, evalReturnStatement, evalCondition, evalAdd, evalMul, evalValue] at h

theorem mono_step_stmtList (A : Arith F) (n : Nat) (ih : Mono A n) (l : StatementList F) (sc : Scope F) (w : State F)
    (h : (evalStatementList A (n + 1) l sc w).isOOF = false) :
    evalStatementList A (n + 1 + 1) l sc w = evalStatementList A (n + 1) l sc w := by
  have ih_stmt := ih.stmt
  have ih_stmtList := ih.stmtList
  clear ih
  cases l <;>
  · rw [evalStatementList] at h
    conv => lhs; rw [evalStatementList]
    conv => rhs; rw [evalStatementList]
    repeat' split at h
    all_goals first | rfl | (simp_all only [Res.isOOF_ok, Res.isOOF_error, if_true, if_false]; done) | (simp_all; done)

theorem mono_step_stmt (A : Arith F) (n : Nat) (ih : Mono A n) (s : Statement F) (sc : Scope F) (w : State F)
    (h : (evalStatement A (n + 1) s sc w).isOOF = false) :
    evalStatement A (n + 1 + 1) s sc w = evalStatement A (n + 1) s sc w := by
  have ih_assign := ih.assign
  have ih_ifStmt := ih.ifStmt
  have ih_whileS := ih.whileS
  have ih_untilS := ih.untilS
  have ih_print := ih.print
  have ih_call := ih.call
  have ih_ret := ih.ret
  clear ih
  cases s <;>
  · rw [evalStatement] at h
    conv => lhs; rw [evalStatement]
    conv => rhs; rw [evalStatement]
    repeat' split at h
    all_goals first | rfl | (simp_all only [Res.isOOF_ok, Res.isOOF_error, if_true, if_false]; done) | (simp_all; done)

theorem mono_step_assign (A : Arith F) (n : Nat) (ih : Mono A n) (s : AssignStatement F) (sc : Scope F) (w : State F)
    (h : (evalAssignStatement A (n + 1) s sc w).isOOF = false) :
    evalAssignStatement A (n + 1 + 1) s sc w = evalAssignStatement A (n + 1) s sc w := by
  have ih_add := ih.add
  clear ih
  rw [evalAssignStatement] at h
  conv => lhs; rw [evalAssignStatement]
  conv => rhs; rw [evalAssignStatement]
  repeat' split at h
  all_goals first | rfl | (simp_all only [Res.isOOF_ok, Res.isOOF_error, if_true, if_false]; done) | (simp_all; done)

theorem mono_step_ifStmt (A : Arith F) (n : Nat) (ih : Mono A n) (s : IfStatement F) (sc : Scope F) (w : State F)
    (h : (evalIfStatement A (n + 1) s sc w).isOOF = false) :
    evalIfStatement A (n + 1 + 1) s sc w = evalIfStatement A (n + 1) s sc w := by
  have ih_cond := ih.cond
  have ih_stmtList := ih.stmtList
  have ih_elseIfs := ih.elseIfs
  have ih_els := ih.els
  clear ih
  cases s <;>
  · rw [evalIfStatement] at h
    conv => lhs; rw [evalIfStatement]
    conv => rhs; rw [evalIfStatement]
    repeat' split at h
    all_goals first | rfl | (simp_all only [Res.isOOF_ok, Res.isOOF_error, if_true, if_false]; done) | (simp_all; done)

theorem mono_step_elseIfs (A : Arith F) (n : Nat) (ih : Mono A n) (l : List (ElseIf F)) (sc : Scope F) (w : State F)
    (h : (evalElseIfs A (n + 1) l sc w).isOOF = false) :
    evalElseIfs A (n + 1 + 1) l sc w = evalElseIfs A (n + 1) l sc w := by
  have ih_elseIf := ih.elseIf
  have ih_elseIfs := ih.elseIfs
  clear ih
  cases l <;>
  · rw [evalElseIfs] at h
    conv => lhs; rw [evalElseIfs]
    conv => rhs; rw [evalElseIfs]
    repeat' split at h
    all_goals first | rfl | (simp_all only [Res.isOOF_ok, Res.isOOF_error, if_true, if_false]; done) | (simp_all; done)

theorem mono_step_elseIf (A : Arith F) (n : Nat) (ih : Mono A n) (s : ElseIf F) (sc : Scope F) (w : State F)
    (h : (evalElseIf A (n + 1) s sc w).isOOF = false) :
    evalElseIf A (n + 1 + 1) s sc w = evalElseIf A (n + 1) s sc w := by
  have ih_cond := ih.cond
  have ih_stmtList := ih.stmtList
  clear ih
  cases s <;>
  · rw [evalElseIf] at h
    conv => lhs; rw [evalElseIf]
    conv => rhs; rw [evalElseIf]
    repeat' split at h
    all_goals first | rfl | (simp_all only [Res.isOOF_ok, Res.isOOF_error, if_true, if_false]; done) | (simp_all; done)

theorem mono_step_els (A : Arith F) (n : Nat) (ih : Mono A n) (l : StatementList F) (sc : Scope F) (w : State F)
    (h : (evalElse A (n + 1) l sc w).isOOF = false) :
    evalElse A (n + 1 + 1) l sc w = evalElse A (n + 1) l sc w := by
  have ih_stmtList := ih.stmtList
  clear ih
  rw [evalElse] at h
  conv => lhs; rw [evalElse]
  conv => rhs; rw [evalElse]
  repeat' split at h
  all_goals first | rfl | (simp_all only [Res.isOOF_ok, Res.isOOF_error, if_true, if_false]; done) | (simp_all; done)

theorem mono_step_whileS (A : Arith F) (n : Nat) (ih : Mono A n) (s : WhileStatement F) (sc : Scope F) (w : State F)
    (h : (evalWhileStatement A (n + 1) s sc w).isOOF = false) :
    evalWhileStatement A (n + 1 + 1) s sc w = evalWhileStatement A (n + 1) s sc w := by
  have ih_cond := ih.cond
  have ih_stmtList := ih.stmtList
  have ih_whileS := ih.whileS
  clear ih
  cases s <;>
  · rw [evalWhileStatement] at h
    conv => lhs; rw [evalWhileStatement]
    conv => rhs; rw [evalWhileStatement]
    repeat' split at h
    all_goals first | rfl | (simp_all only [Res.isOOF_ok, Res.isOOF_error, if_true, if_false]; done) | (simp_all; done)

theorem mono_step_untilS (A : Arith F) (n : Nat) (ih : Mono A n) (s : UntilStatement F) (sc : Scope F) (w : State F)
    (h : (evalUntilStatement A (n + 1) s sc w).isOOF = false) :
    evalUntilStatement A (n + 1 + 1) s sc w = evalUntilStatement A (n + 1) s sc w := by
  have ih_cond := ih.cond
  have ih_stmtList := ih.stmtList
  have ih_untilS := ih.untilS
  clear ih
  cases s <;>
  · rw [evalUntilStatement] at h
    conv => lhs; rw [evalUntilStatement]
    conv => rhs; rw [evalUntilStatement]
    repeat' split at h
    all_goals first | rfl | (simp_all only [Res.isOOF_ok, Res.isOOF_error, if_true, if_false]; done) | (simp_all; done)

theorem mono_step_print (A : Arith F) (n : Nat) (ih : Mono A n) (s : PrintStatement F) (sc : Scope F) (w : State F)
    (h : (evalPrintStatement A (n + 1) s sc w).isOOF = false) :
    evalPrintStatement A (n + 1 + 1) s sc w = evalPrintStatement A (n + 1) s sc w := by
  have ih_ploop := ih.ploop
  have ih_add := ih.add
  clear ih
  rw [evalPrintStatement] at h
  conv => lhs; rw [evalPrintStatement]
  conv => rhs; rw [evalPrintStatement]
  repeat' split at h
  all_goals first | rfl | (simp_all only [Res.isOOF_ok, Res.isOOF_error, if_true, if_false]; done) | (simp_all; done)

theorem mono_step_ploop (A : Arith F) (n : Nat) (ih : Mono A n) (l : List (Add F)) (sc : Scope F) (w : State F)
    (h : (printLoop A (n + 1) l sc w).isOOF = false) :
    printLoop A (n + 1 + 1) l sc w = printLoop A (n + 1) l sc w := by
  have ih_add := ih.add
  have ih_ploop := ih.ploop
  clear ih
  cases l <;>
  · rw [printLoop] at h
    conv => lhs; rw [printLoop]
    conv => rhs; rw [printLoop]
    repeat' split at h
    all_goals first | rfl | (simp_all only [Res.isOOF_ok, Res.isOOF_error, if_true, if_false]; done) | (simp_all; done)

theorem mono_step_call (A : Arith F) (n : Nat) (ih : Mono A n) (c : FunCallStatement F) (w : State F)
    (h : (evalFunctionCall A (n + 1) c w).isOOF = false) :
    evalFunctionCall A (n + 1 + 1) c w = evalFunctionCall A (n + 1) c w := by
  have ih_bind := ih.bind
  have ih_stmtList := ih.stmtList
  clear ih
  cases c <;>
  · rw [evalFunctionCall] at h
    conv => lhs; rw [evalFunctionCall]
    conv => rhs; rw [evalFunctionCall]
    repeat' split at h
    all_goals first | rfl | (simp_all only [Res.isOOF_ok, Res.isOOF_error, if_true, if_false]; done) | (simp_all; done)

theorem mono_step_bind (A : Arith F) (n : Nat) (ih : Mono A n) (ident : String) (args : List (Add F)) (i : Nat) (scope : Vars F) (w : State F)
    (h : (bindArguments A (n + 1) ident args i scope w).isOOF = false) :
    bindArguments A (n + 1 + 1) ident args i scope w = bindArguments A (n + 1) ident args i scope w := by
  have ih_add := ih.add
  have ih_bind := ih.bind
  clear ih
  rw [bindArguments] at h
  conv => lhs; rw [bindArguments]
  conv => rhs; rw [bindArguments]
  repeat' split at h
  all_goals first | rfl | (simp_all only [Res.isOOF_ok, Res.isOOF_error, if_true, if_false]; done) | (simp_all; done)

theorem mono_step_ret (A : Arith F) (n : Nat) (ih : Mono A n) (s : ReturnStatement F) (sc : Scope F) (w : State F)
    (h : (evalReturnStatement A (n + 1) s sc w).isOOF = false) :
    evalReturnStatement A (n + 1 + 1) s sc w = evalReturnStatement A (n + 1) s sc w := by
  have ih_add := ih.add
  clear ih
  rw [evalReturnStatement] at h
  conv => lhs; rw [evalReturnStatement]
  conv => rhs; rw [evalReturnStatement]
  repeat' split at h
  all_goals first | rfl | (simp_all only [Res.isOOF_ok, Res.isOOF_error, if_true, if_false]; done) | (simp_all; done)

theorem mono_step_cond (A : Arith F) (n : Nat) (ih : Mono A n) (c : Condition F) (sc : Scope F) (w : State F)
    (h : (evalCondition A (n + 1) c sc w).isOOF = false) :
    evalCondition A (n + 1 + 1) c sc w = evalCondition A (n + 1) c sc w := by
  have ih_add := ih.add
  have ih_cond := ih.cond
  clear ih
  cases c <;>
  · rw [evalCondition] at h
    conv => lhs; rw [evalCondition]
    conv => rhs; rw [evalCondition]
    repeat' split at h
    all_goals first | rfl | (simp_all only [Res.isOOF_ok, Res.isOOF_error, if_true, if_false]; done) | (simp_all; done)

theorem mono_step_add (A : Arith F) (n : Nat) (ih : Mono A n) (a : Add F) (sc : Scope F) (w : State F)
    (h : (evalAdd A (n + 1) a sc w).isOOF = false) :
    evalAdd A (n + 1 + 1) a sc w = evalAdd A (n + 1) a sc w := by
  have ih_mul := ih.mul
  have ih_add := ih.add
  clear ih
  cases a <;>
  · rw [evalAdd] at h
    conv => lhs; rw [evalAdd]
    conv => rhs; rw [evalAdd]
    repeat' split at h
    all_goals first | rfl | (simp_all only [Res.isOOF_ok, Res.isOOF_error, if_true, if_false]; done) | (simp_all; done)

theorem mono_step_mul (A : Arith F) (n : Nat) (ih : Mono A n) (m : Mul F) (sc : Scope F) (w : State F)
    (h : (evalMul A (n + 1) m sc w).isOOF = false) :
    evalMul A (n + 1 + 1) m sc w = evalMul A (n + 1) m sc w := by
  have ih_value := ih.value
  have ih_mul := ih.mul
  clear ih
  cases m <;>
  · rw [evalMul] at h
    conv => lhs; rw [evalMul]
    conv => rhs; rw [evalMul]
    repeat' split at h
    all_goals first | rfl | (simp_all only [Res.isOOF_ok, Res.isOOF_error, if_true, if_false]; done) | (simp_all; done)

theorem mono_step_value (A : Arith F) (n : Nat) (ih : Mono A n) (v : Value F) (sc : Scope F) (w : State F)
    (h : (evalValue A (n + 1) v sc w).isOOF = false) :
    evalValue A (n + 1 + 1) v sc w = evalValue A (n + 1) v sc w := by
  have ih_add := ih.add
  have ih_call := ih.call
  clear ih
  obtain ⟨unary, alt, exp⟩ := v
  rw [evalValue.eq_def] at h
  conv => lhs; rw [evalValue.eq_def]
  conv => rhs; rw [evalValue.eq_def]
  simp only at h ⊢
  cases alt <;> simp only at h ⊢ <;> repeat' split at h
  all_goals first | rfl | (simp_all only [Res.isOOF_ok, Res.isOOF_error, if_true, if_false]; done) | (simp_all; done)

theorem mono_succ (A : Arith F) (n : Nat) (ih : Mono A n) : Mono A (n + 1) :=
  ⟨mono_step_stmtList A n ih, mono_step_stmt A n ih, mono_step_assign A n ih, mono_step_ifStmt A n ih, mono_step_elseIfs A n ih, mono_step_elseIf A n ih, mono_step_els A n ih, mono_step_whileS A n ih, mono_step_untilS A n ih, mono_step_print A n ih, mono_step_ploop A n ih, mono_step_call A n ih, mono_step_bind A n ih, mono_step_ret A n ih, mono_step_cond A n ih, mono_step_add A n ih, mono_step_mul A n ih, mono_step_value A n ih⟩

theorem mono_all (A : Arith F) : ∀ n, Mono A n
  | 0 => mono_zero A
  | n + 1 => mono_succ A n (mono_all A n)

/-- A family that is stable from one fuel to the next is stable at every larger fuel. -/
theorem stable_of_step {α : Type} (g : Nat → Res F α)
    (step : ∀ n, (g n).isOOF = false → g (n + 1) = g n) :
    ∀ (n m : Nat), n ≤ m → (g n).isOOF = false → g m = g n := by
  intro n m hnm h
  induction m with
  | zero =>
    have : n = 0 := by omega
    subst this; rfl
  | succ k ih =>
    by_cases hk : n = k + 1
    · subst hk; rfl
    · have hle : n ≤ k := by omega
      have h1 := ih hle
      rw [← h1] at h
      rw [step k h, h1]

/-- An outcome reached by `Evals` is reached at every larger fuel. -/
theorem Evals.stable {α : Type} {g : Nat → Res F α} {r : Res F α}
    (step : ∀ n, (g n).isOOF = false → g (n + 1) = g n) (h : Evals g r) :
    ∃ N, ∀ m, N ≤ m → g m = r := by
  obtain ⟨n, hn, hr⟩ := h
  refine ⟨n, fun m hm => ?_⟩
  rw [← hn] at hr
  rw [stable_of_step g step n m hm hr, hn]

/-! ### Stability of each evaluator under more fuel -/

theorem evalStatementList_fuel (A : Arith F) (l : StatementList F) (sc : Scope F) (w : State F) (r : Res F (F × Scope F))
    (h : Evals (fun n => evalStatementList A n l sc w) r) :
    ∃ N, ∀ k, N ≤ k → evalStatementList A k l sc w = r :=
  Evals.stable (fun n hn => (mono_all A n).stmtList l sc w hn) h

theorem evalStatement_fuel (A : Arith F) (s : Statement F) (sc : Scope F) (w : State F) (r : Res F (Option F × Scope F))
    (h : Evals (fun n => evalStatement A n s sc w) r) :
    ∃ N, ∀ k, N ≤ k → evalStatement A k s sc w = r :=
  Evals.stable (fun n hn => (mono_all A n).stmt s sc w hn) h

theorem evalAssignStatement_fuel (A : Arith F) (s : AssignStatement F) (sc : Scope F) (w : State F) (r : Res F (Scope F))
    (h : Evals (fun n => evalAssignStatement A n s sc w) r) :
    ∃ N, ∀ k, N ≤ k → evalAssignStatement A k s sc w = r :=
  Evals.stable (fun n hn => (mono_all A n).assign s sc w hn) h

theorem evalIfStatement_fuel (A : Arith F) (s : IfStatement F) (sc : Scope F) (w : State F) (r : Res F (Scope F))
    (h : Evals (fun n => evalIfStatement A n s sc w) r) :
    ∃ N, ∀ k, N ≤ k → evalIfStatement A k s sc w = r :=
  Evals.stable (fun n hn => (mono_all A n).ifStmt s sc w hn) h

theorem evalElseIfs_fuel (A : Arith F) (l : List (ElseIf F)) (sc : Scope F) (w : State F) (r : Res F (Bool × Scope F))
    (h : Evals (fun n => evalElseIfs A n l sc w) r) :
    ∃ N, ∀ k, N ≤ k → evalElseIfs A k l sc w = r :=
  Evals.stable (fun n hn => (mono_all A n).elseIfs l sc w hn) h

theorem evalElseIf_fuel (A : Arith F) (s : ElseIf F) (sc : Scope F) (w : State F) (r : Res F (Bool × Scope F))
    (h : Evals (fun n => evalElseIf A n s sc w) r) :
    ∃ N, ∀ k, N ≤ k → evalElseIf A k s sc w = r :=
  Evals.stable (fun n hn => (mono_all A n).elseIf s sc w hn) h

theorem evalElse_fuel (A : Arith F) (l : StatementList F) (sc : Scope F) (w : State F) (r : Res F (Scope F))
    (h : Evals (fun n => evalElse A n l sc w) r) :
    ∃ N, ∀ k, N ≤ k → evalElse A k l sc w = r :=
  Evals.stable (fun n hn => (mono_all A n).els l sc w hn) h

theorem evalWhileStatement_fuel (A : Arith F) (s : WhileStatement F) (sc : Scope F) (w : State F) (r : Res F (Scope F))
    (h : Evals (fun n => evalWhileStatement A n s sc w) r) :
    ∃ N, ∀ k, N ≤ k → evalWhileStatement A k s sc w = r :=
  Evals.stable (fun n hn => (mono_all A n).whileS s sc w hn) h

theorem evalUntilStatement_fuel (A : Arith F) (s : UntilStatement F) (sc : Scope F) (w : State F) (r : Res F (Scope F))
    (h : Evals (fun n => evalUntilStatement A n s sc w) r) :
    ∃ N, ∀ k, N ≤ k → evalUntilStatement A k s sc w = r :=
  Evals.stable (fun n hn => (mono_all A n).untilS s sc w hn) h

theorem evalPrintStatement_fuel (A : Arith F) (s : PrintStatement F) (sc : Scope F) (w : State F) (r : Res F (Unit))
    (h : Evals (fun n => evalPrintStatement A n s sc w) r) :
    ∃ N, ∀ k, N ≤ k → evalPrintStatement A k s sc w = r :=
  Evals.stable (fun n hn => (mono_all A n).print s sc w hn) h

theorem printLoop_fuel (A : Arith F) (l : List (Add F)) (sc : Scope F) (w : State F) (r : Res F (Unit))
    (h : Evals (fun n => printLoop A n l sc w) r) :
    ∃ N, ∀ k, N ≤ k → printLoop A k l sc w = r :=
  Evals.stable (fun n hn => (mono_all A n).ploop l sc w hn) h

theorem evalFunctionCall_fuel (A : Arith F) (c : FunCallStatement F) (w : State F) (r : Res F (F))
    (h : Evals (fun n => evalFunctionCall A n c w) r) :
    ∃ N, ∀ k, N ≤ k → evalFunctionCall A k c w = r :=
  Evals.stable (fun n hn => (mono_all A n).call c w hn) h

theorem bindArguments_fuel (A : Arith F) (ident : String) (args : List (Add F)) (i : Nat) (scope : Vars F) (w : State F) (r : Res F (Vars F))
    (h : Evals (fun n => bindArguments A n ident args i scope w) r) :
    ∃ N, ∀ k, N ≤ k → bindArguments A k ident args i scope w = r :=
  Evals.stable (fun n hn => (mono_all A n).bind ident args i scope w hn) h

theorem evalReturnStatement_fuel (A : Arith F) (s : ReturnStatement F) (sc : Scope F) (w : State F) (r : Res F (F))
    (h : Evals (fun n => evalReturnStatement A n s sc w) r) :
    ∃ N, ∀ k, N ≤ k → evalReturnStatement A k s sc w = r :=
  Evals.stable (fun n hn => (mono_all A n).ret s sc w hn) h

theorem evalCondition_fuel (A : Arith F) (c : Condition F) (sc : Scope F) (w : State F) (r : Res F (Bool))
    (h : Evals (fun n => evalCondition A n c sc w) r) :
    ∃ N, ∀ k, N ≤ k → evalCondition A k c sc w = r :=
  Evals.stable (fun n hn => (mono_all A n).cond c sc w hn) h

theorem evalAdd_fuel (A : Arith F) (a : Add F) (sc : Scope F) (w : State F) (r : Res F (F))
    (h : Evals (fun n => evalAdd A n a sc w) r) :
    ∃ N, ∀ k, N ≤ k → evalAdd A k a sc w = r :=
  Evals.stable (fun n hn => (mono_all A n).add a sc w hn) h

theorem evalMul_fuel (A : Arith F) (m : Mul F) (sc : Scope F) (w : State F) (r : Res F (F))
    (h : Evals (fun n => evalMul A n m sc w) r) :
    ∃ N, ∀ k, N ≤ k → evalMul A k m sc w = r :=
  Evals.stable (fun n hn => (mono_all A n).mul m sc w hn) h

theorem evalValue_fuel (A : Arith F) (v : Value F) (sc : Scope F) (w : State F) (r : Res F (F))
    (h : Evals (fun n => evalValue A n v sc w) r) :
    ∃ N, ∀ k, N ≤ k → evalValue A k v sc w = r :=
  Evals.stable (fun n hn => (mono_all A n).value v sc w hn) h

/-! ### Two invariants of every evaluator -/

/-- Every `ArityMismatch` panic raised at fuel `n` carries two different counts. -/
structure ArityInv (A : Arith F) (n : Nat) : Prop where
  stmtList : ∀ (l : StatementList F) (sc : Scope F) (w : State F) (nm : String) (pc ac : Nat) (w' : State F),
    evalStatementList A n l sc w = .error (.ArityMismatch nm pc ac, w') → pc ≠ ac
  stmt : ∀ (s : Statement F) (sc : Scope F) (w : State F) (nm : String) (pc ac : Nat) (w' : State F),
    evalStatement A n s sc w = .error (.ArityMismatch nm pc ac, w') → pc ≠ ac
  assign : ∀ (s : AssignStatement F) (sc : Scope F) (w : State F) (nm : String) (pc ac : Nat) (w' : State F),
    evalAssignStatement A n s sc w = .error (.ArityMismatch nm pc ac, w') → pc ≠ ac
  ifStmt : ∀ (s : IfStatement F) (sc : Scope F) (w : State F) (nm : String) (pc ac : Nat) (w' : State F),
    evalIfStatement A n s sc w = .error (.ArityMismatch nm pc ac, w') → pc ≠ ac
  elseIfs : ∀ (l : List (ElseIf F)) (sc : Scope F) (w : State F) (nm : String) (pc ac : Nat) (w' : State F),
    evalElseIfs A n l sc w = .error (.ArityMismatch nm pc ac, w') → pc ≠ ac
  elseIf : ∀ (s : ElseIf F) (sc : Scope F) (w : State F) (nm : String) (pc ac : Nat) (w' : State F),
    evalElseIf A n s sc w = .error (.ArityMismatch nm pc ac, w') → pc ≠ ac
  els : ∀ (l : StatementList F) (sc : Scope F) (w : State F) (nm : String) (pc ac : Nat) (w' : State F),
    evalElse A n l sc w = .error (.ArityMismatch nm pc ac, w') → pc ≠ ac
  whileS : ∀ (s : WhileStatement F) (sc : Scope F) (w : State F) (nm : String) (pc ac : Nat) (w' : State F),
    evalWhileStatement A n s sc w = .error (.ArityMismatch nm pc ac, w') → pc ≠ ac
  untilS : ∀ (s : UntilStatement F) (sc : Scope F) (w : State F) (nm : String) (pc ac : Nat) (w' : State F),
    evalUntilStatement A n s sc w = .error (.ArityMismatch nm pc ac, w') → pc ≠ ac
  print : ∀ (s : PrintStatement F) (sc : Scope F) (w : State F) (nm : String) (pc ac : Nat) (w' : State F),
    evalPrintStatement A n s sc w = .error (.ArityMismatch nm pc ac, w') → pc ≠ ac
  ploop : ∀ (l : List (Add F)) (sc : Scope F) (w : State F) (nm : String) (pc ac : Nat) (w' : State F),
    printLoop A n l sc w = .error (.ArityMismatch nm pc ac, w') → pc ≠ ac
  call : ∀ (c : FunCallStatement F) (w : State F) (nm : String) (pc ac : Nat) (w' : State F),
    evalFunctionCall A n c w = .error (.ArityMismatch nm pc ac, w') → pc ≠ ac
  bind : ∀ (ident : String) (args : List (Add F)) (i : Nat) (scope : Vars F) (w : State F) (nm : String) (pc ac : Nat) (w' : State F),
    bindArguments A n ident args i scope w = .error (.ArityMismatch nm pc ac, w') → pc ≠ ac
  ret : ∀ (s : ReturnStatement F) (sc : Scope F) (w : State F) (nm : String) (pc ac : Nat) (w' : State F),
    evalReturnStatement A n s sc w = .error (.ArityMismatch nm pc ac, w') → pc ≠ ac
  cond : ∀ (c : Condition F) (sc : Scope F) (w : State F) (nm : String) (pc ac : Nat) (w' : State F),
    evalCondition A n c sc w = .error (.ArityMismatch nm pc ac, w') → pc ≠ ac
  add : ∀ (a : Add F) (sc : Scope F) (w : State F) (nm : String) (pc ac : Nat) (w' : State F),
    evalAdd A n a sc w = .error (.ArityMismatch nm pc ac, w') → pc ≠ ac
  mul : ∀ (m : Mul F) (sc : Scope F) (w : State F) (nm : String) (pc ac : Nat) (w' : State F),
    evalMul A n m sc w = .error (.ArityMismatch nm pc ac, w') → pc ≠ ac
  value : ∀ (v : Value F) (sc : Scope F) (w : State F) (nm : String) (pc ac : Nat) (w' : State F),
    evalValue A n v sc w = .error (.ArityMismatch nm pc ac, w') → pc ≠ ac

theorem evalInputStatement_arity (A : Arith F) (s : InputStatement) (sc : Scope F) (w : State F)
    (nm : String) (pc ac : Nat) (w' : State F) :
    evalInputStatement A s sc w = .error (.ArityMismatch nm pc ac, w') → pc ≠ ac := by
  intro h
  unfold evalInputStatement at h
  repeat' split at h
  all_goals cases h

theorem arityInv_zero (A : Arith F) : ArityInv A 0 := by
  constructor <;> intros <;> rename_i h <;> simp [evalStatementList, evalStatement, evalAssignStatement, evalIfStatement, evalElseIfs, evalElseIf, evalElse, evalWhileStatement, evalUntilStatement, evalPrintStatement, printLoop, evalFunctionCall, bindArguments, evalReturnStatement, evalCondition, evalAdd, evalMul, evalValue] at h

theorem arityInv_step_stmtList (A : Arith F) (n : Nat) (ih : ArityInv A n) (l : StatementList F) (sc : Scope F) (w : State F) (nm : String) (pc ac : Nat) (w' : State F) :
    evalStatementList A (n + 1) l sc w = .error (.ArityMismatch nm pc ac, w') → pc ≠ ac := by
  intro h
  have ih_stmt := ih.stmt
  have ih_stmtList := ih.stmtList
  clear ih
  cases l <;>
  · rw [evalStatementList] at h
    repeat' split at h
    all_goals first | solve_by_elim [evalInputStatement_arity] | (cases h <;> first | assumption | solve_by_elim [evalInputStatement_arity])

theorem arityInv_step_stmt (A : Arith F) (n : Nat) (ih : ArityInv A n) (s : Statement F) (sc : Scope F) (w : State F) (nm : String) (pc ac : Nat) (w' : State F) :
    evalStatement A (n + 1) s sc w = .error (.ArityMismatch nm pc ac, w') → pc ≠ ac := by
  intro h
  have ih_assign := ih.assign
  have ih_ifStmt := ih.ifStmt
  have ih_whileS := ih.whileS
  have ih_untilS := ih.untilS
  have ih_print := ih.print
  have ih_call := ih.call
  have ih_ret := ih.ret
  clear ih
  cases s <;>
  · rw [evalStatement] at h
    repeat' split at h
    all_goals first | solve_by_elim [evalInputStatement_arity] | (cases h <;> first | assumption | solve_by_elim [evalInputStatement_arity])

theorem arityInv_step_assign (A : Arith F) (n : Nat) (ih : ArityInv A n) (s : AssignStatement F) (sc : Scope F) (w : State F) (nm : String) (pc ac : Nat) (w' : State F) :
    evalAssignStatement A (n + 1) s sc w = .error (.ArityMismatch nm pc ac, w') → pc ≠ ac := by
  intro h
  have ih_add := ih.add
  clear ih
  rw [evalAssignStatement] at h
  repeat' split at h
  all_goals first | solve_by_elim [evalInputStatement_arity] | (cases h <;> first | assumption | solve_by_elim [evalInputStatement_arity])

theorem arityInv_step_ifStmt (A : Arith F) (n : Nat) (ih : ArityInv A n) (s : IfStatement F) (sc : Scope F) (w : State F) (nm : String) (pc ac : Nat) (w' : State F) :
    evalIfStatement A (n + 1) s sc w = .error (.ArityMismatch nm pc ac, w') → pc ≠ ac := by
  intro h
  have ih_cond := ih.cond
  have ih_stmtList := ih.stmtList
  have ih_elseIfs := ih.elseIfs
  have ih_els := ih.els
  clear ih
  cases s <;>
  · rw [evalIfStatement] at h
    repeat' split at h
    all_goals first | solve_by_elim [evalInputStatement_arity] | (cases h <;> first | assumption | solve_by_elim [evalInputStatement_arity])

theorem arityInv_step_elseIfs (A : Arith F) (n : Nat) (ih : ArityInv A n) (l : List (ElseIf F)) (sc : Scope F) (w : State F) (nm : String) (pc ac : Nat) (w' : State F) :
    evalElseIfs A (n + 1) l sc w = .error (.ArityMismatch nm pc ac, w') → pc ≠ ac := by
  intro h
  have ih_elseIf := ih.elseIf
  have ih_elseIfs := ih.elseIfs
  clear ih
  cases l <;>
  · rw [evalElseIfs] at h
    repeat' split at h
    all_goals first | solve_by_elim [evalInputStatement_arity] | (cases h <;> first | assumption | solve_by_elim [evalInputStatement_arity])

theorem arityInv_step_elseIf (A : Arith F) (n : Nat) (ih : ArityInv A n) (s : ElseIf F) (sc : Scope F) (w : State F) (nm : String) (pc ac : Nat) (w' : State F) :
    evalElseIf A (n + 1) s sc w = .error (.ArityMismatch nm pc ac, w') → pc ≠ ac := by
  intro h
  have ih_cond := ih.cond
  have ih_stmtList := ih.stmtList
  clear ih
  cases s <;>
  · rw [evalElseIf] at h
    repeat' split at h
    all_goals first | solve_by_elim [evalInputStatement_arity] | (cases h <;> first | assumption | solve_by_elim [evalInputStatement_arity])

theorem arityInv_step_els (A : Arith F) (n : Nat) (ih : ArityInv A n) (l : StatementList F) (sc : Scope F) (w : State F) (nm : String) (pc ac : Nat) (w' : State F) :
    evalElse A (n + 1) l sc w = .error (.ArityMismatch nm pc ac, w') → pc ≠ ac := by
  intro h
  have ih_stmtList := ih.stmtList
  clear ih
  rw [evalElse] at h
  repeat' split at h
  all_goals first | solve_by_elim [evalInputStatement_arity] | (cases h <;> first | assumption | solve_by_elim [evalInputStatement_arity])

theorem arityInv_step_whileS (A : Arith F) (n : Nat) (ih : ArityInv A n) (s : WhileStatement F) (sc : Scope F) (w : State F) (nm : String) (pc ac : Nat) (w' : State F) :
    evalWhileStatement A (n + 1) s sc w = .error (.ArityMismatch nm pc ac, w') → pc ≠ ac := by
  intro h
  have ih_cond := ih.cond
  have ih_stmtList := ih.stmtList
  have ih_whileS := ih.whileS
  clear ih
  cases s <;>
  · rw [evalWhileStatement] at h
    repeat' split at h
    all_goals first | solve_by_elim [evalInputStatement_arity] | (cases h <;> first | assumption | solve_by_elim [evalInputStatement_arity])

theorem arityInv_step_untilS (A : Arith F) (n : Nat) (ih : ArityInv A n) (s : UntilStatement F) (sc : Scope F) (w : State F) (nm : String) (pc ac : Nat) (w' : State F) :
    evalUntilStatement A (n + 1) s sc w = .error (.ArityMismatch nm pc ac, w') → pc ≠ ac := by
  intro h
  have ih_cond := ih.cond
  have ih_stmtList := ih.stmtList
  have ih_untilS := ih.untilS
  clear ih
  cases s <;>
  · rw [evalUntilStatement] at h
    repeat' split at h
    all_goals first | solve_by_elim [evalInputStatement_arity] | (cases h <;> first | assumption | solve_by_elim [evalInputStatement_arity])

theorem arityInv_step_print (A : Arith F) (n : Nat) (ih : ArityInv A n) (s : PrintStatement F) (sc : Scope F) (w : State F) (nm : String) (pc ac : Nat) (w' : State F) :
    evalPrintStatement A (n + 1) s sc w = .error (.ArityMismatch nm pc ac, w') → pc ≠ ac := by
  intro h
  have ih_ploop := ih.ploop
  have ih_add := ih.add
  clear ih
  rw [evalPrintStatement] at h
  repeat' split at h
  all_goals first | solve_by_elim [evalInputStatement_arity] | (cases h <;> first | assumption | solve_by_elim [evalInputStatement_arity])

theorem arityInv_step_ploop (A : Arith F) (n : Nat) (ih : ArityInv A n) (l : List (Add F)) (sc : Scope F) (w : State F) (nm : String) (pc ac : Nat) (w' : State F) :
    printLoop A (n + 1) l sc w = .error (.ArityMismatch nm pc ac, w') → pc ≠ ac := by
  intro h
  have ih_add := ih.add
  have ih_ploop := ih.ploop
  clear ih
  cases l <;>
  · rw [printLoop] at h
    repeat' split at h
    all_goals first | solve_by_elim [evalInputStatement_arity] | (cases h <;> first | assumption | solve_by_elim [evalInputStatement_arity])

theorem arityInv_step_call (A : Arith F) (n : Nat) (ih : ArityInv A n) (c : FunCallStatement F) (w : State F) (nm : String) (pc ac : Nat) (w' : State F) :
    evalFunctionCall A (n + 1) c w = .error (.ArityMismatch nm pc ac, w') → pc ≠ ac := by
  intro h
  have ih_bind := ih.bind
  have ih_stmtList := ih.stmtList
  clear ih
  cases c <;>
  · rw [evalFunctionCall] at h
    repeat' split at h
    all_goals first | solve_by_elim [evalInputStatement_arity] | (cases h <;> first | assumption | solve_by_elim [evalInputStatement_arity])

theorem arityInv_step_bind (A : Arith F) (n : Nat) (ih : ArityInv A n) (ident : String) (args : List (Add F)) (i : Nat) (scope : Vars F) (w : State F) (nm : String) (pc ac : Nat) (w' : State F) :
    bindArguments A (n + 1) ident args i scope w = .error (.ArityMismatch nm pc ac, w') → pc ≠ ac := by
  intro h
  have ih_add := ih.add
  have ih_bind := ih.bind
  clear ih
  rw [bindArguments] at h
  repeat' split at h
  all_goals first | solve_by_elim [evalInputStatement_arity] | (cases h <;> first | assumption | solve_by_elim [evalInputStatement_arity])

theorem arityInv_step_ret (A : Arith F) (n : Nat) (ih : ArityInv A n) (s : ReturnStatement F) (sc : Scope F) (w : State F) (nm : String) (pc ac : Nat) (w' : State F) :
    evalReturnStatement A (n + 1) s sc w = .error (.ArityMismatch nm pc ac, w') → pc ≠ ac := by
  intro h
  have ih_add := ih.add
  clear ih
  rw [evalReturnStatement] at h
  repeat' split at h
  all_goals first | solve_by_elim [evalInputStatement_arity] | (cases h <;> first | assumption | solve_by_elim [evalInputStatement_arity])

theorem arityInv_step_cond (A : Arith F) (n : Nat) (ih : ArityInv A n) (c : Condition F) (sc : Scope F) (w : State F) (nm : String) (pc ac : Nat) (w' : State F) :
    evalCondition A (n + 1) c sc w = .error (.ArityMismatch nm pc ac, w') → pc ≠ ac := by
  intro h
  have ih_add := ih.add
  have ih_cond := ih.cond
  clear ih
  cases c <;>
  · rw [evalCondition] at h
    repeat' split at h
    all_goals first | solve_by_elim [evalInputStatement_arity] | (cases h <;> first | assumption | solve_by_elim [evalInputStatement_arity])

theorem arityInv_step_add (A : Arith F) (n : Nat) (ih : ArityInv A n) (a : Add F) (sc : Scope F) (w : State F) (nm : String) (pc ac : Nat) (w' : State F) :
    evalAdd A (n + 1) a sc w = .error (.ArityMismatch nm pc ac, w') → pc ≠ ac := by
  intro h
  have ih_mul := ih.mul
  have ih_add := ih.add
  clear ih
  cases a <;>
  · rw [evalAdd] at h
    repeat' split at h
    all_goals first | solve_by_elim [evalInputStatement_arity] | (cases h <;> first | assumption | solve_by_elim [evalInputStatement_arity])

theorem arityInv_step_mul (A : Arith F) (n : Nat) (ih : ArityInv A n) (m : Mul F) (sc : Scope F) (w : State F) (nm : String) (pc ac : Nat) (w' : State F) :
    evalMul A (n + 1) m sc w = .error (.ArityMismatch nm pc ac, w') → pc ≠ ac := by
  intro h
  have ih_value := ih.value
  have ih_mul := ih.mul
  clear ih
  cases m <;>
  · rw [evalMul] at h
    repeat' split at h
    all_goals first | solve_by_elim [evalInputStatement_arity] | (cases h <;> first | assumption | solve_by_elim [evalInputStatement_arity])

theorem arityInv_step_value (A : Arith F) (n : Nat) (ih : ArityInv A n) (v : Value F) (sc : Scope F) (w : State F) (nm : String) (pc ac : Nat) (w' : State F) :
    evalValue A (n + 1) v sc w = .error (.ArityMismatch nm pc ac, w') → pc ≠ ac := by
  intro h
  have ih_add := ih.add
  have ih_call := ih.call
  clear ih
  obtain ⟨unary, alt, exp⟩ := v
  rw [evalValue.eq_def] at h
  simp only at h
  split at h
  · rename_i hb
    cases h
    cases alt <;> simp only at hb <;> (repeat' split at hb) <;>
      first | solve_by_elim | (cases hb; done)
  · cases h

theorem arityInv_succ (A : Arith F) (n : Nat) (ih : ArityInv A n) : ArityInv A (n + 1) :=
  ⟨arityInv_step_stmtList A n ih, arityInv_step_stmt A n ih, arityInv_step_assign A n ih, arityInv_step_ifStmt A n ih, arityInv_step_elseIfs A n ih, arityInv_step_elseIf A n ih, arityInv_step_els A n ih, arityInv_step_whileS A n ih, arityInv_step_untilS A n ih, arityInv_step_print A n ih, arityInv_step_ploop A n ih, arityInv_step_call A n ih, arityInv_step_bind A n ih, arityInv_step_ret A n ih, arityInv_step_cond A n ih, arityInv_step_add A n ih, arityInv_step_mul A n ih, arityInv_step_value A n ih⟩

theorem arityInv_all (A : Arith F) : ∀ n, ArityInv A n
  | 0 => arityInv_zero A
  | n + 1 => arityInv_succ A n (arityInv_all A n)

/-- An evaluator entered at fuel `n` with `inFunction` false ends, if it ends, with `inFunction` false. -/
structure FlagInv (A : Arith F) (n : Nat) : Prop where
  stmtList : ∀ (l : StatementList F) (sc : Scope F) (w : State F) (x : F × Scope F) (w' : State F),
    evalStatementList A n l sc w = .ok (x, w') → w.inFunction = false → w'.inFunction = false
  stmt : ∀ (s : Statement F) (sc : Scope F) (w : State F) (x : Option F × Scope F) (w' : State F),
    evalStatement A n s sc w = .ok (x, w') → w.inFunction = false → w'.inFunction = false
  assign : ∀ (s : AssignStatement F) (sc : Scope F) (w : State F) (x : Scope F) (w' : State F),
    evalAssignStatement A n s sc w = .ok (x, w') → w.inFunction = false → w'.inFunction = false
  ifStmt : ∀ (s : IfStatement F) (sc : Scope F) (w : State F) (x : Scope F) (w' : State F),
    evalIfStatement A n s sc w = .ok (x, w') → w.inFunction = false → w'.inFunction = false
  elseIfs : ∀ (l : List (ElseIf F)) (sc : Scope F) (w : State F) (x : Bool × Scope F) (w' : State F),
    evalElseIfs A n l sc w = .ok (x, w') → w.inFunction = false → w'.inFunction = false
  elseIf : ∀ (s : ElseIf F) (sc : Scope F) (w : State F) (x : Bool × Scope F) (w' : State F),
    evalElseIf A n s sc w = .ok (x, w') → w.inFunction = false → w'.inFunction = false
  els : ∀ (l : StatementList F) (sc : Scope F) (w : State F) (x : Scope F) (w' : State F),
    evalElse A n l sc w = .ok (x, w') → w.inFunction = false → w'.inFunction = false
  whileS : ∀ (s : WhileStatement F) (sc : Scope F) (w : State F) (x : Scope F) (w' : State F),
    evalWhileStatement A n s sc w = .ok (x, w') → w.inFunction = false → w'.inFunction = false
  untilS : ∀ (s : UntilStatement F) (sc : Scope F) (w : State F) (x : Scope F) (w' : State F),
    evalUntilStatement A n s sc w = .ok (x, w') → w.inFunction = false → w'.inFunction = false
  print : ∀ (s : PrintStatement F) (sc : Scope F) (w : State F) (x : Unit) (w' : State F),
    evalPrintStatement A n s sc w = .ok (x, w') → w.inFunction = false → w'.inFunction = false
  ploop : ∀ (l : List (Add F)) (sc : Scope F) (w : State F) (x : Unit) (w' : State F),
    printLoop A n l sc w = .ok (x, w') → w.inFunction = false → w'.inFunction = false
  call : ∀ (c : FunCallStatement F) (w : State F) (x : F) (w' : State F),
    evalFunctionCall A n c w = .ok (x, w') → w.inFunction = false → w'.inFunction = false
  bind : ∀ (ident : String) (args : List (Add F)) (i : Nat) (scope : Vars F) (w : State F) (x : Vars F) (w' : State F),
    bindArguments A n ident args i scope w = .ok (x, w') → w.inFunction = false → w'.inFunction = false
  ret : ∀ (s : ReturnStatement F) (sc : Scope F) (w : State F) (x : F) (w' : State F),
    evalReturnStatement A n s sc w = .ok (x, w') → w.inFunction = false → w'.inFunction = false
  cond : ∀ (c : Condition F) (sc : Scope F) (w : State F) (x : Bool) (w' : State F),
    evalCondition A n c sc w = .ok (x, w') → w.inFunction = false → w'.inFunction = false
  add : ∀ (a : Add F) (sc : Scope F) (w : State F) (x : F) (w' : State F),
    evalAdd A n a sc w = .ok (x, w') → w.inFunction = false → w'.inFunction = false
  mul : ∀ (m : Mul F) (sc : Scope F) (w : State F) (x : F) (w' : State F),
    evalMul A n m sc w = .ok (x, w') → w.inFunction = false → w'.inFunction = false
  value : ∀ (v : Value F) (sc : Scope F) (w : State F) (x : F) (w' : State F),
    evalValue A n v sc w = .ok (x, w') → w.inFunction = false → w'.inFunction = false

theorem Scope.set_flag (sc : Scope F) (w : State F) (k : String) (v : F) :
    (sc.set w k v).2.inFunction = w.inFunction := by
  cases sc <;> rfl

theorem evalFunctionStatement_flag (s : FunctionStatement F) (w : State F) :
    (evalFunctionStatement s w).inFunction = w.inFunction := by
  cases s; rfl

theorem evalInputStatement_flag (A : Arith F) (s : InputStatement) (sc : Scope F) (w : State F)
    (x : Scope F) (w' : State F) :
    evalInputStatement A s sc w = .ok (x, w') → w.inFunction = false → w'.inFunction = false := by
  intro h hw
  unfold evalInputStatement at h
  repeat' split at h
  all_goals first | (cases h; done) | skip
  cases h
  cases sc <;> exact hw

theorem flagInv_zero (A : Arith F) : FlagInv A 0 := by
  constructor <;> intros <;> simp_all [evalStatementList, evalStatement, evalAssignStatement, evalIfStatement, evalElseIfs, evalElseIf, evalElse, evalWhileStatement, evalUntilStatement, evalPrintStatement, printLoop, evalFunctionCall, bindArguments, evalReturnStatement, evalCondition, evalAdd, evalMul, evalValue]

theorem flagInv_step_stmtList (A : Arith F) (n : Nat) (ih : FlagInv A n) (l : StatementList F) (sc : Scope F) (w : State F) (x : F × Scope F) (w' : State F) :
    evalStatementList A (n + 1) l sc w = .ok (x, w') → w.inFunction = false → w'.inFunction = false := by
  intro h hw
  have ih_stmt := ih.stmt
  have ih_stmtList := ih.stmtList
  clear ih
  cases l <;>
  · rw [evalStatementList] at h
    repeat' (split at h <;> try (rename_i heq; first | (have hw := ih_stmt _ _ _ _ _ heq hw) | (have hw := ih_stmtList _ _ _ _ _ heq hw)))
    all_goals first | (cases h <;> first | exact hw | rfl) | solve_by_elim

theorem flagInv_step_stmt (A : Arith F) (n : Nat) (ih : FlagInv A n) (s : Statement F) (sc : Scope F) (w : State F) (x : Option F × Scope F) (w' : State F) :
    evalStatement A (n + 1) s sc w = .ok (x, w') → w.inFunction = false → w'.inFunction = false := by
  intro h hw
  have ih_assign := ih.assign
  have ih_ifStmt := ih.ifStmt
  have ih_whileS := ih.whileS
  have ih_untilS := ih.untilS
  have ih_print := ih.print
  have ih_call := ih.call
  have ih_ret := ih.ret
  clear ih
  cases s <;>
  · rw [evalStatement] at h
    repeat' (split at h <;> try (rename_i heq; first | (have hw := ih_assign _ _ _ _ _ heq hw) | (have hw := ih_ifStmt _ _ _ _ _ heq hw) | (have hw := ih_whileS _ _ _ _ _ heq hw) | (have hw := ih_untilS _ _ _ _ _ heq hw) | (have hw := ih_print _ _ _ _ _ heq hw) | (have hw := ih_ret _ _ _ _ _ heq hw) | (have hw := ih_call _ _ _ _ heq hw) | (have hw := evalInputStatement_flag _ _ _ _ _ _ heq hw)))
    all_goals first | (cases h <;> first | exact hw | rfl) | solve_by_elim |
        (cases h; rw [evalFunctionStatement_flag]; exact hw)

theorem flagInv_step_assign (A : Arith F) (n : Nat) (ih : FlagInv A n) (s : AssignStatement F) (sc : Scope F) (w : State F) (x : Scope F) (w' : State F) :
    evalAssignStatement A (n + 1) s sc w = .ok (x, w') → w.inFunction = false → w'.inFunction = false := by
  intro h hw
  have ih_add := ih.add
  clear ih
  rw [evalAssignStatement] at h
  split at h
  · cases h
  · rename_i heq
    have hw := ih_add _ _ _ _ _ heq hw
    simp only [Except.ok.injEq] at h
    have := Scope.set_flag sc ‹State F› s.Ident ‹F›
    rw [h] at this
    rw [this, hw]

theorem flagInv_step_ifStmt (A : Arith F) (n : Nat) (ih : FlagInv A n) (s : IfStatement F) (sc : Scope F) (w : State F) (x : Scope F) (w' : State F) :
    evalIfStatement A (n + 1) s sc w = .ok (x, w') → w.inFunction = false → w'.inFunction = false := by
  intro h hw
  have ih_cond := ih.cond
  have ih_stmtList := ih.stmtList
  have ih_elseIfs := ih.elseIfs
  have ih_els := ih.els
  clear ih
  cases s <;>
  · rw [evalIfStatement] at h
    repeat' (split at h <;> try (rename_i heq; first | (have hw := ih_cond _ _ _ _ _ heq hw) | (have hw := ih_stmtList _ _ _ _ _ heq hw) | (have hw := ih_elseIfs _ _ _ _ _ heq hw) | (have hw := ih_els _ _ _ _ _ heq hw)))
    all_goals first | (cases h <;> first | exact hw | rfl) | solve_by_elim

theorem flagInv_step_elseIfs (A : Arith F) (n : Nat) (ih : FlagInv A n) (l : List (ElseIf F)) (sc : Scope F) (w : State F) (x : Bool × Scope F) (w' : State F) :
    evalElseIfs A (n + 1) l sc w = .ok (x, w') → w.inFunction = false → w'.inFunction = false := by
  intro h hw
  have ih_elseIf := ih.elseIf
  have ih_elseIfs := ih.elseIfs
  clear ih
  cases l <;>
  · rw [evalElseIfs] at h
    repeat' (split at h <;> try (rename_i heq; first | (have hw := ih_elseIf _ _ _ _ _ heq hw) | (have hw := ih_elseIfs _ _ _ _ _ heq hw)))
    all_goals first | (cases h <;> first | exact hw | rfl) | solve_by_elim

theorem flagInv_step_elseIf (A : Arith F) (n : Nat) (ih : FlagInv A n) (s : ElseIf F) (sc : Scope F) (w : State F) (x : Bool × Scope F) (w' : State F) :
    evalElseIf A (n + 1) s sc w = .ok (x, w') → w.inFunction = false → w'.inFunction = false := by
  intro h hw
  have ih_cond := ih.cond
  have ih_stmtList := ih.stmtList
  clear ih
  cases s <;>
  · rw [evalElseIf] at h
    repeat' (split at h <;> try (rename_i heq; first | (have hw := ih_cond _ _ _ _ _ heq hw) | (have hw := ih_stmtList _ _ _ _ _ heq hw)))
    all_goals first | (cases h <;> first | exact hw | rfl) | solve_by_elim

theorem flagInv_step_els (A : Arith F) (n : Nat) (ih : FlagInv A n) (l : StatementList F) (sc : Scope F) (w : State F) (x : Scope F) (w' : State F) :
    evalElse A (n + 1) l sc w = .ok (x, w') → w.inFunction = false → w'.inFunction = false := by
  intro h hw
  have ih_stmtList := ih.stmtList
  clear ih
  rw [evalElse] at h
  repeat' (split at h <;> try (rename_i heq; first | (have hw := ih_stmtList _ _ _ _ _ heq hw)))
  all_goals first | (cases h <;> first | exact hw | rfl) | solve_by_elim

theorem flagInv_step_whileS (A : Arith F) (n : Nat) (ih : FlagInv A n) (s : WhileStatement F) (sc : Scope F) (w : State F) (x : Scope F) (w' : State F) :
    evalWhileStatement A (n + 1) s sc w = .ok (x, w') → w.inFunction = false → w'.inFunction = false := by
  intro h hw
  have ih_cond := ih.cond
  have ih_stmtList := ih.stmtList
  have ih_whileS := ih.whileS
  clear ih
  cases s <;>
  · rw [evalWhileStatement] at h
    repeat' (split at h <;> try (rename_i heq; first | (have hw := ih_cond _ _ _ _ _ heq hw) | (have hw := ih_stmtList _ _ _ _ _ heq hw) | (have hw := ih_whileS _ _ _ _ _ heq hw)))
    all_goals first | (cases h <;> first | exact hw | rfl) | solve_by_elim

theorem flagInv_step_untilS (A : Arith F) (n : Nat) (ih : FlagInv A n) (s : UntilStatement F) (sc : Scope F) (w : State F) (x : Scope F) (w' : State F) :
    evalUntilStatement A (n + 1) s sc w = .ok (x, w') → w.inFunction = false → w'.inFunction = false := by
  intro h hw
  have ih_cond := ih.cond
  have ih_stmtList := ih.stmtList
  have ih_untilS := ih.untilS
  clear ih
  cases s <;>
  · rw [evalUntilStatement] at h
    repeat' (split at h <;> try (rename_i heq; first | (have hw := ih_cond _ _ _ _ _ heq hw) | (have hw := ih_stmtList _ _ _ _ _ heq hw) | (have hw := ih_untilS _ _ _ _ _ heq hw)))
    all_goals first | (cases h <;> first | exact hw | rfl) | solve_by_elim

theorem flagInv_step_print (A : Arith F) (n : Nat) (ih : FlagInv A n) (s : PrintStatement F) (sc : Scope F) (w : State F) (x : Unit) (w' : State F) :
    evalPrintStatement A (n + 1) s sc w = .ok (x, w') → w.inFunction = false → w'.inFunction = false := by
  intro h hw
  have ih_ploop := ih.ploop
  have ih_add := ih.add
  clear ih
  rw [evalPrintStatement] at h
  repeat' (split at h <;> try (rename_i heq; first | (have hw := ih_ploop _ _ _ _ _ heq hw) | (have hw := ih_add _ _ _ _ _ heq hw)))
  all_goals first | (cases h <;> first | exact hw | rfl) | solve_by_elim

theorem flagInv_step_ploop (A : Arith F) (n : Nat) (ih : FlagInv A n) (l : List (Add F)) (sc : Scope F) (w : State F) (x : Unit) (w' : State F) :
    printLoop A (n + 1) l sc w = .ok (x, w') → w.inFunction = false → w'.inFunction = false := by
  intro h hw
  have ih_add := ih.add
  have ih_ploop := ih.ploop
  clear ih
  cases l <;>
  · rw [printLoop] at h
    repeat' (split at h <;> try (rename_i heq; first | (have hw := ih_add _ _ _ _ _ heq hw) | (have hw := ih_ploop _ _ _ _ _ heq hw)))
    all_goals first | (cases h <;> first | exact hw | rfl) | solve_by_elim

theorem flagInv_step_call (A : Arith F) (n : Nat) (ih : FlagInv A n) (c : FunCallStatement F) (w : State F) (x : F) (w' : State F) :
    evalFunctionCall A (n + 1) c w = .ok (x, w') → w.inFunction = false → w'.inFunction = false := by
  intro h hw
  have ih_bind := ih.bind
  have ih_stmtList := ih.stmtList
  clear ih
  cases c <;>
  · rw [evalFunctionCall] at h
    repeat' (split at h <;> try (rename_i heq; first | (have hw := ih_stmtList _ _ _ _ _ heq hw) | (have hw := ih_bind _ _ _ _ _ _ _ heq hw)))
    all_goals first | (cases h <;> first | exact hw | rfl) | solve_by_elim

theorem flagInv_step_bind (A : Arith F) (n : Nat) (ih : FlagInv A n) (ident : String) (args : List (Add F)) (i : Nat) (scope : Vars F) (w : State F) (x : Vars F) (w' : State F) :
    bindArguments A (n + 1) ident args i scope w = .ok (x, w') → w.inFunction = false → w'.inFunction = false := by
  intro h hw
  have ih_add := ih.add
  have ih_bind := ih.bind
  clear ih
  rw [bindArguments] at h
  repeat' (split at h <;> try (rename_i heq; first | (have hw := ih_add _ _ _ _ _ heq hw) | (have hw := ih_bind _ _ _ _ _ _ _ heq hw)))
  all_goals first | (cases h <;> first | exact hw | rfl) | solve_by_elim

theorem flagInv_step_ret (A : Arith F) (n : Nat) (ih : FlagInv A n) (s : ReturnStatement F) (sc : Scope F) (w : State F) (x : F) (w' : State F) :
    evalReturnStatement A (n + 1) s sc w = .ok (x, w') → w.inFunction = false → w'.inFunction = false := by
  intro h hw
  have ih_add := ih.add
  clear ih
  rw [evalReturnStatement] at h
  repeat' (split at h <;> try (rename_i heq; first | (have hw := ih_add _ _ _ _ _ heq hw)))
  all_goals first | (cases h <;> first | exact hw | rfl) | solve_by_elim

theorem flagInv_step_cond (A : Arith F) (n : Nat) (ih : FlagInv A n) (c : Condition F) (sc : Scope F) (w : State F) (x : Bool) (w' : State F) :
    evalCondition A (n + 1) c sc w = .ok (x, w') → w.inFunction = false → w'.inFunction = false := by
  intro h hw
  have ih_add := ih.add
  have ih_cond := ih.cond
  clear ih
  cases c <;>
  · rw [evalCondition] at h
    repeat' (split at h <;> try (rename_i heq; first | (have hw := ih_add _ _ _ _ _ heq hw) | (have hw := ih_cond _ _ _ _ _ heq hw)))
    all_goals first | (cases h <;> first | exact hw | rfl) | solve_by_elim

theorem flagInv_step_add (A : Arith F) (n : Nat) (ih : FlagInv A n) (a : Add F) (sc : Scope F) (w : State F) (x : F) (w' : State F) :
    evalAdd A (n + 1) a sc w = .ok (x, w') → w.inFunction = false → w'.inFunction = false := by
  intro h hw
  have ih_mul := ih.mul
  have ih_add := ih.add
  clear ih
  cases a <;>
  · rw [evalAdd] at h
    repeat' (split at h <;> try (rename_i heq; first | (have hw := ih_mul _ _ _ _ _ heq hw) | (have hw := ih_add _ _ _ _ _ heq hw)))
    all_goals first | (cases h <;> first | exact hw | rfl) | solve_by_elim

theorem flagInv_step_mul (A : Arith F) (n : Nat) (ih : FlagInv A n) (m : Mul F) (sc : Scope F) (w : State F) (x : F) (w' : State F) :
    evalMul A (n + 1) m sc w = .ok (x, w') → w.inFunction = false → w'.inFunction = false := by
  intro h hw
  have ih_value := ih.value
  have ih_mul := ih.mul
  clear ih
  cases m <;>
  · rw [evalMul] at h
    repeat' (split at h <;> try (rename_i heq; first | (have hw := ih_value _ _ _ _ _ heq hw) | (have hw := ih_mul _ _ _ _ _ heq hw)))
    all_goals first | (cases h <;> first | exact hw | rfl) | solve_by_elim

theorem flagInv_step_value (A : Arith F) (n : Nat) (ih : FlagInv A n) (v : Value F) (sc : Scope F) (w : State F) (x : F) (w' : State F) :
    evalValue A (n + 1) v sc w = .ok (x, w') → w.inFunction = false → w'.inFunction = false := by
  intro h hw
  have ih_add := ih.add
  have ih_call := ih.call
  clear ih
  obtain ⟨unary, alt, exp⟩ := v
  rw [evalValue.eq_def] at h
  simp only at h
  split at h
  · cases h
  · rename_i hb
    cases h
    cases alt <;> simp only at hb <;> (repeat' split at hb) <;>
      first | (cases hb <;> first | exact hw | rfl) | solve_by_elim

theorem flagInv_succ (A : Arith F) (n : Nat) (ih : FlagInv A n) : FlagInv A (n + 1) :=
  ⟨flagInv_step_stmtList A n ih, flagInv_step_stmt A n ih, flagInv_step_assign A n ih, flagInv_step_ifStmt A n ih, flagInv_step_elseIfs A n ih, flagInv_step_elseIf A n ih, flagInv_step_els A n ih, flagInv_step_whileS A n ih, flagInv_step_untilS A n ih, flagInv_step_print A n ih, flagInv_step_ploop A n ih, flagInv_step_call A n ih, flagInv_step_bind A n ih, flagInv_step_ret A n ih, flagInv_step_cond A n ih, flagInv_step_add A n ih, flagInv_step_mul A n ih, flagInv_step_value A n ih⟩

theorem flagInv_all (A : Arith F) : ∀ n, FlagInv A n
  | 0 => flagInv_zero A
  | n + 1 => flagInv_succ A n (flagInv_all A n)

/-! ### Evaluation rules: how the outcome of a statement follows from the outcomes of its parts -/

theorem dropValue_isOOF (r : Res F (F × Scope F)) : (dropValue r).isOOF = r.isOOF := by
  rcases r with e | ⟨⟨v, sc⟩, w⟩ <;> rfl

theorem Evals.not_isOOF {α : Type} {g : Nat → Res F α} {r : Res F α} (h : Evals g r) :
    r.isOOF = false := by
  obtain ⟨_, _, h2⟩ := h
  exact h2

theorem evalStatementList_cons_none (A : Arith F) (s : Statement F) (rest : StatementList F)
    (sc sc1 : Scope F) (w w1 : State F) (r : Res F (F × Scope F))
    (hs : Evals (fun n => evalStatement A n s sc w) (.ok ((none, sc1), w1)))
    (hr : Evals (fun n => evalStatementList A n rest sc1 w1) r) :
    Evals (fun n => evalStatementList A n (s :: rest) sc w) r := by
  obtain ⟨N1, h1⟩ := evalStatement_fuel A s sc w _ hs
  obtain ⟨N2, h2⟩ := evalStatementList_fuel A rest sc1 w1 _ hr
  refine ⟨N1 + N2 + 1, ?_, hr.not_isOOF⟩
  simp only
  rw [evalStatementList, h1 _ (by omega)]
  simp only
  rw [h2 _ (by omega)]

theorem evalStatementList_cons_error (A : Arith F) (s : Statement F) (rest : StatementList F)
    (sc : Scope F) (w : State F) (e : Err × State F)
    (hs : Evals (fun n => evalStatement A n s sc w) (.error e)) :
    Evals (fun n => evalStatementList A n (s :: rest) sc w) (.error e) := by
  obtain ⟨N1, h1⟩ := evalStatement_fuel A s sc w _ hs
  refine ⟨N1 + 1, ?_, hs.not_isOOF⟩
  simp only
  rw [evalStatementList, h1 _ (by omega)]

/-- Running `s :: rest` to an end runs `s` to an end first. -/
theorem evalStatementList_cons_inv (A : Arith F) (s : Statement F) (rest : StatementList F)
    (sc sc1 : Scope F) (w w1 : State F) (v : F)
    (h : Evals (fun n => evalStatementList A n (s :: rest) sc w) (.ok ((v, sc1), w1))) :
    Evals (fun n => evalStatement A n s sc w) (.ok ((some v, sc1), w1)) ∨
    ∃ sc' w', Evals (fun n => evalStatement A n s sc w) (.ok ((none, sc'), w')) ∧
      Evals (fun n => evalStatementList A n rest sc' w') (.ok ((v, sc1), w1)) := by
  obtain ⟨n, hn, -⟩ := h
  cases n with
  | zero => simp [evalStatementList] at hn
  | succ n =>
    simp only at hn
    rw [evalStatementList] at hn
    split at hn
    · cases hn
    · rename_i heq
      cases hn
      exact Or.inl ⟨n, heq, rfl⟩
    · rename_i heq
      exact Or.inr ⟨_, _, ⟨n, heq, rfl⟩, ⟨n, hn, rfl⟩⟩

/-- A prefix whose statements yield no value hands over to the rest of the
list.  `I` is any property of the scope and state that the statements of the
prefix keep and under which they yield no value. -/
theorem evalStatementList_append (A : Arith F) (I : Scope F → State F → Prop)
    (pre rest : StatementList F)
    (hI : ∀ s, s ∈ pre → ∀ n sc w o sc' w', I sc w →
      evalStatement A n s sc w = .ok ((o, sc'), w') → o = none ∧ I sc' w')
    (sc sc1 : Scope F) (w w1 : State F) (v : F) (r : Res F (F × Scope F))
    (h0 : I sc w)
    (hpre : Evals (fun n => evalStatementList A n pre sc w) (.ok ((v, sc1), w1)))
    (hrest : Evals (fun n => evalStatementList A n rest sc1 w1) r) :
    Evals (fun n => evalStatementList A n (pre ++ rest) sc w) r ∧ I sc1 w1 := by
  induction pre generalizing sc w with
  | nil =>
    obtain ⟨n, hn, -⟩ := hpre
    cases n with
    | zero => simp [evalStatementList] at hn
    | succ n =>
      simp only at hn
      rw [evalStatementList] at hn
      cases hn
      exact ⟨hrest, h0⟩
  | cons s pre ih =>
    have hI' : ∀ s', s' ∈ pre → ∀ n sc w o sc' w', I sc w →
        evalStatement A n s' sc w = .ok ((o, sc'), w') → o = none ∧ I sc' w' :=
      fun s' hs' => hI s' (List.mem_cons_of_mem _ hs')
    rcases evalStatementList_cons_inv A s pre sc sc1 w w1 v hpre with hs | ⟨sc', w', hs, hl⟩
    · obtain ⟨n, hn, -⟩ := hs
      have := (hI s (List.mem_cons_self _ _) n sc w _ _ _ h0 hn).1
      cases this
    · obtain ⟨n, hn, -⟩ := id hs
      have h1 := (hI s (List.mem_cons_self _ _) n sc w _ _ _ h0 hn).2
      obtain ⟨h2, h3⟩ := ih hI' sc' w' h1 hl
      exact ⟨evalStatementList_cons_none A s (pre ++ rest) sc sc' w w' r hs h2, h3⟩

/-- With `inFunction` false, `evalReturnStatement` panics at once. -/
theorem evalReturnStatement_outside (A : Arith F) (n : Nat) (s : ReturnStatement F)
    (sc : Scope F) (w : State F) (hw : w.inFunction = false) :
    evalReturnStatement A (n + 1) s sc w = .error (.ReturnOutsideFunction, w) := by
  rw [evalReturnStatement, hw]
  rfl

/-- With `inFunction` false, a statement that ends yields no value and leaves
`inFunction` false. -/
theorem evalStatement_none_of_flag (A : Arith F) (s : Statement F) (n : Nat) (sc : Scope F)
    (w : State F) (o : Option F) (sc' : Scope F) (w' : State F) (hw : w.inFunction = false)
    (h : evalStatement A n s sc w = .ok ((o, sc'), w')) : o = none ∧ w'.inFunction = false := by
  refine ⟨?_, (flagInv_all A n).stmt s sc w _ _ h hw⟩
  cases n with
  | zero => simp [evalStatement] at h
  | succ n =>
    cases s <;> rw [evalStatement] at h <;> (try split at h) <;>
      first | (cases h; done) | (cases h; rfl) | skip
    rename_i s _ a w1 heq
    cases n with
    | zero => simp [evalReturnStatement] at heq
    | succ n =>
      rw [evalReturnStatement_outside A n s sc w hw] at heq
      cases heq

theorem evalStatement_return_outside (A : Arith F) (s : ReturnStatement F)
    (sc : Scope F) (w : State F) (hw : w.inFunction = false) :
    Evals (fun n => evalStatement A n (.Return s) sc w) (.error (.ReturnOutsideFunction, w)) := by
  refine ⟨2, ?_, rfl⟩
  simp only
  rw [evalStatement, evalReturnStatement_outside A 0 s sc w hw]

theorem evalIfStatement_true (A : Arith F) (c : Condition F) (body : StatementList F)
    (eis : List (ElseIf F)) (els : Option (StatementList F)) (sc : Scope F) (w w1 : State F)
    (r : Res F (F × Scope F))
    (hc : Evals (fun n => evalCondition A n c sc w) (.ok (true, w1)))
    (hb : Evals (fun n => evalStatementList A n body sc w1) r) :
    Evals (fun n => evalIfStatement A n (.mk c body eis els) sc w) (dropValue r) := by
  obtain ⟨N1, h1⟩ := evalCondition_fuel A c sc w _ hc
  obtain ⟨N2, h2⟩ := evalStatementList_fuel A body sc w1 _ hb
  refine ⟨N1 + N2 + 1, ?_, by rw [dropValue_isOOF]; exact hb.not_isOOF⟩
  simp only
  rw [evalIfStatement, h1 _ (by omega)]
  simp only
  rw [h2 _ (by omega)]
  rcases r with e | ⟨⟨v, sc'⟩, w'⟩ <;> rfl

theorem evalWhileStatement_body_error (A : Arith F) (c : Condition F) (body : StatementList F)
    (sc : Scope F) (w w1 : State F) (e : Err × State F)
    (hc : Evals (fun n => evalCondition A n c sc w) (.ok (true, w1)))
    (hb : Evals (fun n => evalStatementList A n body sc w1) (.error e)) :
    Evals (fun n => evalWhileStatement A n (.mk c body) sc w) (.error e) := by
  obtain ⟨N1, h1⟩ := evalCondition_fuel A c sc w _ hc
  obtain ⟨N2, h2⟩ := evalStatementList_fuel A body sc w1 _ hb
  refine ⟨N1 + N2 + 1, ?_, hb.not_isOOF⟩
  simp only
  rw [evalWhileStatement, h1 _ (by omega)]
  simp only
  rw [h2 _ (by omega)]

theorem evalUntilStatement_body_error (A : Arith F) (c : Condition F) (body : StatementList F)
    (sc : Scope F) (w w1 : State F) (e : Err × State F)
    (hc : Evals (fun n => evalCondition A n c sc w) (.ok (false, w1)))
    (hb : Evals (fun n => evalStatementList A n body sc w1) (.error e)) :
    Evals (fun n => evalUntilStatement A n (.mk c body) sc w) (.error e) := by
  obtain ⟨N1, h1⟩ := evalCondition_fuel A c sc w _ hc
  obtain ⟨N2, h2⟩ := evalStatementList_fuel A body sc w1 _ hb
  refine ⟨N1 + N2 + 1, ?_, hb.not_isOOF⟩
  simp only
  rw [evalUntilStatement, h1 _ (by omega)]
  simp only
  rw [h2 _ (by omega)]

theorem takenValue_isOOF (r : Res F (F × Scope F)) : (takenValue r).isOOF = r.isOOF := by
  rcases r with e | ⟨⟨v, sc⟩, w⟩ <;> rfl

theorem evalElseIf_true (A : Arith F) (c : Condition F) (body : StatementList F)
    (sc : Scope F) (w w1 : State F) (r : Res F (F × Scope F))
    (hc : Evals (fun n => evalCondition A n c sc w) (.ok (true, w1)))
    (hb : Evals (fun n => evalStatementList A n body sc w1) r) :
    Evals (fun n => evalElseIf A n (.mk c body) sc w) (takenValue r) := by
  obtain ⟨N1, h1⟩ := evalCondition_fuel A c sc w _ hc
  obtain ⟨N2, h2⟩ := evalStatementList_fuel A body sc w1 _ hb
  refine ⟨N1 + N2 + 1, ?_, by rw [takenValue_isOOF]; exact hb.not_isOOF⟩
  simp only
  rw [evalElseIf, h1 _ (by omega)]
  simp only
  rw [h2 _ (by omega)]
  rcases r with e | ⟨⟨v, sc'⟩, w'⟩ <;> rfl

theorem evalElseIf_false (A : Arith F) (c : Condition F) (body : StatementList F)
    (sc : Scope F) (w w1 : State F)
    (hc : Evals (fun n => evalCondition A n c sc w) (.ok (false, w1))) :
    Evals (fun n => evalElseIf A n (.mk c body) sc w) (.ok ((false, sc), w1)) := by
  obtain ⟨N1, h1⟩ := evalCondition_fuel A c sc w _ hc
  refine ⟨N1 + 1, ?_, rfl⟩
  simp only
  rw [evalElseIf, h1 _ (by omega)]

theorem evalElseIfs_cons_false (A : Arith F) (ei : ElseIf F) (rest : List (ElseIf F))
    (sc sc1 : Scope F) (w w1 : State F) (r : Res F (Bool × Scope F))
    (h : Evals (fun n => evalElseIf A n ei sc w) (.ok ((false, sc1), w1)))
    (hr : Evals (fun n => evalElseIfs A n rest sc1 w1) r) :
    Evals (fun n => evalElseIfs A n (ei :: rest) sc w) r := by
  obtain ⟨N1, h1⟩ := evalElseIf_fuel A ei sc w _ h
  obtain ⟨N2, h2⟩ := evalElseIfs_fuel A rest sc1 w1 _ hr
  refine ⟨N1 + N2 + 1, ?_, hr.not_isOOF⟩
  simp only
  rw [evalElseIfs, h1 _ (by omega)]
  simp only
  rw [h2 _ (by omega)]

theorem evalElseIfs_cons_taken (A : Arith F) (ei : ElseIf F) (rest : List (ElseIf F))
    (sc : Scope F) (w : State F) (r : Res F (F × Scope F))
    (h : Evals (fun n => evalElseIf A n ei sc w) (takenValue r)) :
    Evals (fun n => evalElseIfs A n (ei :: rest) sc w) (takenValue r) := by
  obtain ⟨N1, h1⟩ := evalElseIf_fuel A ei sc w _ h
  refine ⟨N1 + 1, ?_, h.not_isOOF⟩
  simp only
  rw [evalElseIfs, h1 _ (by omega)]
  rcases r with e | ⟨⟨v, sc'⟩, w'⟩ <;> rfl

/-- When every condition is false the loop over the `elseif` clauses reports
that none was taken. -/
theorem evalElseIfs_all_false (A : Arith F) (sc : Scope F) (eis : List (ElseIf F))
    (w w2 : State F) (h : ElseIfsFalse A sc eis w w2) :
    Evals (fun n => evalElseIfs A n eis sc w) (.ok ((false, sc), w2)) := by
  induction h with
  | nil w => exact ⟨1, rfl, rfl⟩
  | cons c body rest w w1 w2 hc _ ih =>
    exact evalElseIfs_cons_false A _ rest sc sc w w1 _ (evalElseIf_false A c body sc w w1 hc) ih

/-- The first `elseif` whose condition holds is taken, whatever follows it. -/
theorem evalElseIfs_first_true (A : Arith F) (sc : Scope F) (pre post : List (ElseIf F))
    (c : Condition F) (body : StatementList F) (w w2 w3 : State F) (r : Res F (F × Scope F))
    (h : ElseIfsFalse A sc pre w w2)
    (hc : Evals (fun n => evalCondition A n c sc w2) (.ok (true, w3)))
    (hb : Evals (fun n => evalStatementList A n body sc w3) r) :
    Evals (fun n => evalElseIfs A n (pre ++ .mk c body :: post) sc w) (takenValue r) := by
  induction h with
  | nil w =>
    exact evalElseIfs_cons_taken A _ post sc w r (evalElseIf_true A c body sc w w3 r hc hb)
  | cons c' body' rest w w1 w2 hc' _ ih =>
    exact evalElseIfs_cons_false A _ _ sc sc w w1 _ (evalElseIf_false A c' body' sc w w1 hc')
      (ih hc)

theorem evalIfStatement_elseif_taken (A : Arith F) (c : Condition F) (body : StatementList F)
    (eis : List (ElseIf F)) (els : Option (StatementList F)) (sc : Scope F) (w w1 : State F)
    (r : Res F (F × Scope F))
    (hc : Evals (fun n => evalCondition A n c sc w) (.ok (false, w1)))
    (he : Evals (fun n => evalElseIfs A n eis sc w1) (takenValue r)) :
    Evals (fun n => evalIfStatement A n (.mk c body eis els) sc w) (dropValue r) := by
  obtain ⟨N1, h1⟩ := evalCondition_fuel A c sc w _ hc
  obtain ⟨N2, h2⟩ := evalElseIfs_fuel A eis sc w1 _ he
  refine ⟨N1 + N2 + 1, ?_, ?_⟩
  · simp only
    rw [evalIfStatement, h1 _ (by omega)]
    simp only
    rw [h2 _ (by omega)]
    rcases r with e | ⟨⟨v, sc'⟩, w'⟩ <;> rfl
  · rw [dropValue_isOOF, ← takenValue_isOOF]; exact he.not_isOOF

theorem evalIfStatement_else (A : Arith F) (c : Condition F) (body : StatementList F)
    (eis : List (ElseIf F)) (e : StatementList F) (sc sc' : Scope F) (w w1 w2 : State F)
    (r : Res F (F × Scope F))
    (hc : Evals (fun n => evalCondition A n c sc w) (.ok (false, w1)))
    (he : Evals (fun n => evalElseIfs A n eis sc w1) (.ok ((false, sc'), w2)))
    (hb : Evals (fun n => evalStatementList A n e sc' w2) r) :
    Evals (fun n => evalIfStatement A n (.mk c body eis (some e)) sc w) (dropValue r) := by
  obtain ⟨N1, h1⟩ := evalCondition_fuel A c sc w _ hc
  obtain ⟨N2, h2⟩ := evalElseIfs_fuel A eis sc w1 _ he
  obtain ⟨N3, h3⟩ := evalStatementList_fuel A e sc' w2 _ hb
  refine ⟨N1 + N2 + N3 + 2, ?_, by rw [dropValue_isOOF]; exact hb.not_isOOF⟩
  simp only
  rw [evalIfStatement, h1 _ (by omega)]
  simp only
  rw [h2 _ (by omega)]
  simp only
  rw [evalElse, h3 _ (by omega)]
  rcases r with e | ⟨⟨v, sc'⟩, w'⟩ <;> rfl

theorem evalIfStatement_no_else (A : Arith F) (c : Condition F) (body : StatementList F)
    (eis : List (ElseIf F)) (sc sc' : Scope F) (w w1 w2 : State F)
    (hc : Evals (fun n => evalCondition A n c sc w) (.ok (false, w1)))
    (he : Evals (fun n => evalElseIfs A n eis sc w1) (.ok ((false, sc'), w2))) :
    Evals (fun n => evalIfStatement A n (.mk c body eis none) sc w) (.ok (sc', w2)) := by
  obtain ⟨N1, h1⟩ := evalCondition_fuel A c sc w _ hc
  obtain ⟨N2, h2⟩ := evalElseIfs_fuel A eis sc w1 _ he
  refine ⟨N1 + N2 + 1, ?_, rfl⟩
  simp only
  rw [evalIfStatement, h1 _ (by omega)]
  simp only
  rw [h2 _ (by omega)]


/-- The steps of a call whose arity check passes: the arguments are bound, the
body read from the table runs with `inFunction` true, and its value is the
result, `inFunction` being false afterwards. -/
theorem evalFunctionCall_body (A : Arith F) (ident : String) (args : List (Add F))
    (w w1 w3 : State F) (f0 f1 : FunctionStatement F) (sc0 : Vars F) (sc' : Scope F) (v : F)
    (hf0 : w.vars.Functions ident = some f0) (hlen : f0.params.length = args.length)
    (hbind : Evals (fun n => bindArguments A n ident args 0 (Vars.Create F) w) (.ok (sc0, w1)))
    (hf1 : w1.vars.Functions ident = some f1)
    (hbody : Evals (fun n => evalStatementList A n f1.body (.loc sc0)
      { w1 with inFunction := true }) (.ok ((v, sc'), w3))) :
    Evals (fun n => evalFunctionCall A n (.mk ident args) w)
      (.ok (v, { w3 with inFunction := false })) := by
  obtain ⟨N1, h1⟩ := bindArguments_fuel A ident args 0 _ w _ hbind
  obtain ⟨N2, h2⟩ := evalStatementList_fuel A f1.body _ _ _ hbody
  refine ⟨N1 + N2 + 1, ?_, rfl⟩
  simp only
  rw [evalFunctionCall, hf0]
  simp only [hlen, ne_eq, not_true_eq_false, if_false]
  rw [h1 _ (by omega)]
  simp only [hf1]
  rw [h2 _ (by omega)]

/-! ### Values, conditions and calls without `Return` -/

/-- `evalValue` is the alternative alone followed by `finishValue`. -/
theorem evalValue_finish (A : Arith F) (n : Nat) (unary : Option String) (alt : ValueAlt F)
    (exp : Option F) (sc : Scope F) (w : State F) :
    evalValue A n (.mk unary alt exp) sc w =
      match evalValue A n (.mk none alt none) sc w with
      | .error e => .error e
      | .ok (b, w1) => .ok (finishValue A unary exp b, w1) := by
  cases n with
  | zero => rfl
  | succ n =>
    rw [evalValue.eq_def, evalValue.eq_def]
    simp only
    cases alt <;> simp only <;> (repeat' split) <;> simp_all [finishValue]

/-- A comparison that ends has evaluated its two operands in turn. -/
theorem evalCondition_cmp_inv (A : Arith F) (a : Add F) (op : String) (b : Add F)
    (sc : Scope F) (w w1 : State F) (v : Bool)
    (h : Evals (fun n => evalCondition A n (.mk a op b none) sc w) (.ok (v, w1))) :
    ∃ va vb wa, Evals (fun n => evalAdd A n a sc w) (.ok (va, wa)) ∧
      Evals (fun n => evalAdd A n b sc wa) (.ok (vb, w1)) ∧ v = compare A op va vb := by
  obtain ⟨n, hn, -⟩ := h
  cases n with
  | zero => simp [evalCondition] at hn
  | succ n =>
    simp only at hn
    rw [evalCondition] at hn
    split at hn
    · cases hn
    · rename_i va wa h1
      split at hn
      · cases hn
      · rename_i vb wb h2
        simp only [Except.ok.injEq, Prod.mk.injEq] at hn
        obtain ⟨rfl, rfl⟩ := hn
        exact ⟨va, vb, wa, ⟨n, h1, rfl⟩, ⟨n, h2, rfl⟩, rfl⟩

/-- A comparison followed by `and` or `or` and a trailing condition: both are
evaluated, and the values are combined by the connective. -/
theorem evalCondition_chain (A : Arith F) (a : Add F) (op : String) (b : Add F) (lg : String)
    (rest : Condition F) (sc : Scope F) (w w1 w2 : State F) (v1 v2 : Bool)
    (hlg : lg = "and" ∨ lg = "or")
    (h1 : Evals (fun n => evalCondition A n (.mk a op b none) sc w) (.ok (v1, w1)))
    (h2 : Evals (fun n => evalCondition A n rest sc w1) (.ok (v2, w2))) :
    Evals (fun n => evalCondition A n (.mk a op b (some (lg, rest))) sc w)
      (.ok (connective lg v1 v2, w2)) := by
  obtain ⟨va, vb, wa, ha, hb, rfl⟩ := evalCondition_cmp_inv A a op b sc w w1 v1 h1
  obtain ⟨N1, hN1⟩ := evalAdd_fuel A a sc w _ ha
  obtain ⟨N2, hN2⟩ := evalAdd_fuel A b sc wa _ hb
  obtain ⟨N3, hN3⟩ := evalCondition_fuel A rest sc w1 _ h2
  refine ⟨N1 + N2 + N3 + 1, ?_, rfl⟩
  simp only
  rw [evalCondition, hN1 _ (by omega)]
  simp only
  rw [hN2 _ (by omega)]
  simp only
  rw [hN3 _ (by omega)]
  rcases hlg with rfl | rfl
  · simp [connective, Bool.and_comm]
  · simp [connective, Bool.or_comm]

/-- A panic in the trailing condition is the outcome of the whole condition. -/
theorem evalCondition_chain_error (A : Arith F) (a : Add F) (op : String) (b : Add F)
    (lg : String) (rest : Condition F) (sc : Scope F) (w w1 : State F) (v1 : Bool)
    (e : Err × State F)
    (h1 : Evals (fun n => evalCondition A n (.mk a op b none) sc w) (.ok (v1, w1)))
    (h2 : Evals (fun n => evalCondition A n rest sc w1) (.error e)) :
    Evals (fun n => evalCondition A n (.mk a op b (some (lg, rest))) sc w) (.error e) := by
  obtain ⟨va, vb, wa, ha, hb, rfl⟩ := evalCondition_cmp_inv A a op b sc w w1 v1 h1
  obtain ⟨N1, hN1⟩ := evalAdd_fuel A a sc w _ ha
  obtain ⟨N2, hN2⟩ := evalAdd_fuel A b sc wa _ hb
  obtain ⟨N3, hN3⟩ := evalCondition_fuel A rest sc w1 _ h2
  refine ⟨N1 + N2 + N3 + 1, ?_, h2.not_isOOF⟩
  simp only
  rw [evalCondition, hN1 _ (by omega)]
  simp only
  rw [hN2 _ (by omega)]
  simp only
  rw [hN3 _ (by omega)]

/-- Only a `Return` statement yields a value. -/
theorem evalStatement_none_of_not_return (A : Arith F) (s : Statement F)
    (hs : s.isReturn = false) (n : Nat) (sc : Scope F) (w : State F) (o : Option F)
    (sc' : Scope F) (w' : State F) (h : evalStatement A n s sc w = .ok ((o, sc'), w')) :
    o = none := by
  cases n with
  | zero => simp [evalStatement] at h
  | succ n =>
    cases s <;> simp only [Statement.isReturn] at hs <;> rw [evalStatement] at h <;>
      (try split at h) <;> first | (cases h; done) | (cases h; rfl) | cases hs

/-- A statement list without a top-level `Return` that runs to its end gives
the default `0`. -/
theorem evalStatementList_zero_of_no_return (A : Arith F) :
    ∀ (n : Nat) (l : StatementList F) (sc : Scope F) (w : State F) (z : F) (sc1 : Scope F)
      (w1 : State F), (∀ s, s ∈ l → s.isReturn = false) →
      evalStatementList A n l sc w = .ok ((z, sc1), w1) → z = A.zero := by
  intro n
  induction n with
  | zero => intro l sc w z sc1 w1 _ h; simp [evalStatementList] at h
  | succ n ih =>
    intro l sc w z sc1 w1 hl h
    cases l with
    | nil =>
      rw [evalStatementList] at h
      cases h; rfl
    | cons s rest =>
      rw [evalStatementList] at h
      split at h
      · cases h
      · rename_i v sc' w' heq
        have := evalStatement_none_of_not_return A s (hl s (List.mem_cons_self _ _)) n sc w _ _ _ heq
        cases this
      · exact ih rest _ _ z sc1 w1 (fun s' hs' => hl s' (List.mem_cons_of_mem _ hs')) h

/-- A call used as a statement: its result is dropped. -/
theorem evalStatement_funCall (A : Arith F) (c : FunCallStatement F) (sc : Scope F)
    (w w' : State F) (v : F) (h : Evals (fun n => evalFunctionCall A n c w) (.ok (v, w'))) :
    Evals (fun n => evalStatement A n (.FunCall c) sc w) (.ok ((none, sc), w')) := by
  obtain ⟨N, hN⟩ := evalFunctionCall_fuel A c w _ h
  refine ⟨N + 1, ?_, rfl⟩
  simp only
  rw [evalStatement, hN _ (by omega)]

/-- A call used as a value: its result goes through `finishValue`. -/
theorem evalValue_funCall (A : Arith F) (c : FunCallStatement F) (unary : Option String)
    (exp : Option F) (sc : Scope F) (w w' : State F) (v : F)
    (h : Evals (fun n => evalFunctionCall A n c w) (.ok (v, w'))) :
    Evals (fun n => evalValue A n (.mk unary (.FunCallStatement c) exp) sc w)
      (.ok (finishValue A unary exp v, w')) := by
  obtain ⟨N, hN⟩ := evalFunctionCall_fuel A c w _ h
  refine ⟨N + 1, ?_, rfl⟩
  simp only
  rw [evalValue_finish, evalValue.eq_def]
  simp only
  rw [hN _ (by omega)]

/-! ### The counting loop -/

theorem mapSet_mapSet {V : Type} (m : String → Option V) (k : String) (a b : V) :
    mapSet (mapSet m k a) k b = mapSet m k b := by
  funext y
  simp only [mapSet]
  split <;> rfl

theorem mapSet_self {V : Type} (m : String → Option V) (k : String) (a : V) (h : m k = some a) :
    mapSet m k a = m := by
  funext y
  simp only [mapSet]
  split
  · rename_i hy; rw [hy, h]
  · rfl

/-- Assigning twice to the same name is assigning the second value. -/
theorem Scope.set_set (sc : Scope F) (w : State F) (k : String) (a b : F) :
    (sc.set w k a).1.set (sc.set w k a).2 k b = sc.set w k b := by
  cases sc with
  | glob => simp only [Scope.set, mapSet_mapSet]
  | loc l => simp only [Scope.set, mapSet_mapSet]

/-- After an assignment the name is bound in the scope. -/
theorem Scope.vars_set (sc : Scope F) (w : State F) (k : String) (a : F) :
    (sc.set w k a).1.Vars (sc.set w k a).2 k = some a := by
  cases sc <;> simp [Scope.set, Scope.Vars, mapSet]

/-- Assigning to a name the value it has changes nothing. -/
theorem Scope.set_self (sc : Scope F) (w : State F) (k : String) (a : F)
    (h : sc.Vars w k = some a) : sc.set w k a = (sc, w) := by
  cases sc with
  | glob =>
    simp only [Scope.Vars] at h
    simp only [Scope.set, mapSet_self _ _ _ h]
  | loc l =>
    simp only [Scope.Vars] at h
    simp only [Scope.set, mapSet_self _ _ _ h]

/-- The condition `x == vn` in a scope where `x` is `v`. -/
theorem evalCondition_var_eq (A : Arith F) (n : Nat) (x : String) (v vn : F) (sc : Scope F)
    (w : State F) (h : sc.Vars w x = some v) :
    evalCondition A (n + 4) (Condition.cmp (Add.var x) "==" (Add.num vn)) sc w =
      .ok (A.eq v vn, w) := by
  simp [Condition.cmp, Add.var, Add.num, Add.one, Value.var, Value.num, evalCondition, evalAdd,
    evalMul, evalValue, h, compare]

/-- The body `x = x + one` in a scope where `x` is `v`. -/
theorem evalStatementList_incr (A : Arith F) (n : Nat) (x : String) (v one : F) (sc : Scope F)
    (w : State F) (h : sc.Vars w x = some v) :
    evalStatementList A (n + 7) [ .Assign ⟨x, Add.bin (Value.var x) "+" (Add.num one)⟩ ] sc w =
      .ok ((A.zero, (sc.set w x (A.add v one)).1), (sc.set w x (A.add v one)).2) := by
  simp [Add.bin, Add.num, Add.one, Value.var, Value.num, evalStatementList, evalStatement,
    evalAssignStatement, evalAdd, evalMul, evalValue, h]

/-- The loop ends at once when its condition holds. -/
theorem evalUntilStatement_stop (A : Arith F) (c : Condition F) (body : StatementList F)
    (sc : Scope F) (w w1 : State F)
    (hc : Evals (fun n => evalCondition A n c sc w) (.ok (true, w1))) :
    Evals (fun n => evalUntilStatement A n (.mk c body) sc w) (.ok (sc, w1)) := by
  obtain ⟨N1, h1⟩ := evalCondition_fuel A c sc w _ hc
  refine ⟨N1 + 1, ?_, rfl⟩
  simp only
  rw [evalUntilStatement, h1 _ (by omega)]

/-- One pass of the loop: the condition is false, the body runs, the loop goes on. -/
theorem evalUntilStatement_step (A : Arith F) (c : Condition F) (body : StatementList F)
    (sc sc1 : Scope F) (w w1 w2 : State F) (z : F) (r : Res F (Scope F))
    (hc : Evals (fun n => evalCondition A n c sc w) (.ok (false, w1)))
    (hb : Evals (fun n => evalStatementList A n body sc w1) (.ok ((z, sc1), w2)))
    (hr : Evals (fun n => evalUntilStatement A n (.mk c body) sc1 w2) r) :
    Evals (fun n => evalUntilStatement A n (.mk c body) sc w) r := by
  obtain ⟨N1, h1⟩ := evalCondition_fuel A c sc w _ hc
  obtain ⟨N2, h2⟩ := evalStatementList_fuel A body sc w1 _ hb
  obtain ⟨N3, h3⟩ := evalUntilStatement_fuel A (.mk c body) sc1 w2 _ hr
  refine ⟨N1 + N2 + N3 + 1, ?_, hr.not_isOOF⟩
  simp only
  rw [evalUntilStatement, h1 _ (by omega)]
  simp only
  rw [h2 _ (by omega)]
  simp only
  rw [h3 _ (by omega)]

/-- The counting loop from `x = rep (n - j)` ends with `x = rep n`. -/
theorem evalUntilStatement_count (A : Arith F) (rep : Nat → F) (n : Nat) (x : String)
    (sc : Scope F) (w : State F)
    (hadd : ∀ k, k < n → A.add (rep k) (rep 1) = rep (k + 1))
    (heq : ∀ k, k ≤ n → A.eq (rep k) (rep n) = decide (k = n)) :
    ∀ j, j ≤ n →
      Evals (fun m => evalUntilStatement A m (untilCount x (rep n) (rep 1))
          (sc.set w x (rep (n - j))).1 (sc.set w x (rep (n - j))).2)
        (.ok (sc.set w x (rep n))) := by
  intro j
  induction j with
  | zero =>
    intro _
    have ht : A.eq (rep n) (rep n) = true := by
      rw [heq n (le_refl n)]; exact decide_eq_true rfl
    refine evalUntilStatement_stop A _ _ _ _ _ ⟨4, ?_, rfl⟩
    simp only [Nat.sub_zero]
    rw [evalCondition_var_eq A 0 x (rep n) (rep n) _ _ (Scope.vars_set sc w x (rep n)), ht]
    rfl
  | succ j ih =>
    intro hj
    have hk : n - (j + 1) < n := by omega
    have hne : n - (j + 1) ≠ n := by omega
    have hf : A.eq (rep (n - (j + 1))) (rep n) = false := by
      rw [heq _ (by omega)]; exact decide_eq_false hne
    refine evalUntilStatement_step A _ _ _ (sc.set w x (rep (n - j))).1 _
      (sc.set w x (rep (n - (j + 1)))).2 (sc.set w x (rep (n - j))).2 A.zero _
      ⟨4, ?_, rfl⟩ ⟨7, ?_, rfl⟩ (ih (by omega))
    · simp only
      rw [evalCondition_var_eq A 0 x (rep (n - (j + 1))) (rep n) _ _
        (Scope.vars_set sc w x _), hf]
    · simp only
      rw [evalStatementList_incr A 0 x (rep (n - (j + 1))) (rep 1) _ _ (Scope.vars_set sc w x _),
        hadd _ hk, Scope.set_set]
      have : n - (j + 1) + 1 = n - j := by omega
      rw [this]

/-! ### The global variable store is a frame of every call -/

/-- An evaluator run at fuel `n` in a local scope, an expression or a call
leaves the global variable store `vars.Vars` as it is. -/
structure GlobInv (A : Arith F) (n : Nat) : Prop where
  stmtList : ∀ (l : StatementList F) (sc : Scope F) (w : State F) (x : F × Scope F) (w' : State F),
    sc.isLoc = true → evalStatementList A n l sc w = .ok (x, w') →
      w'.vars.Vars = w.vars.Vars ∧ x.2.isLoc = true
  stmt : ∀ (s : Statement F) (sc : Scope F) (w : State F) (x : Option F × Scope F) (w' : State F),
    sc.isLoc = true → evalStatement A n s sc w = .ok (x, w') →
      w'.vars.Vars = w.vars.Vars ∧ x.2.isLoc = true
  assign : ∀ (s : AssignStatement F) (sc : Scope F) (w : State F) (x : Scope F) (w' : State F),
    sc.isLoc = true → evalAssignStatement A n s sc w = .ok (x, w') →
      w'.vars.Vars = w.vars.Vars ∧ x.isLoc = true
  ifStmt : ∀ (s : IfStatement F) (sc : Scope F) (w : State F) (x : Scope F) (w' : State F),
    sc.isLoc = true → evalIfStatement A n s sc w = .ok (x, w') →
      w'.vars.Vars = w.vars.Vars ∧ x.isLoc = true
  elseIfs : ∀ (l : List (ElseIf F)) (sc : Scope F) (w : State F) (x : Bool × Scope F) (w' : State F),
    sc.isLoc = true → evalElseIfs A n l sc w = .ok (x, w') →
      w'.vars.Vars = w.vars.Vars ∧ x.2.isLoc = true
  elseIf : ∀ (s : ElseIf F) (sc : Scope F) (w : State F) (x : Bool × Scope F) (w' : State F),
    sc.isLoc = true → evalElseIf A n s sc w = .ok (x, w') →
      w'.vars.Vars = w.vars.Vars ∧ x.2.isLoc = true
  els : ∀ (l : StatementList F) (sc : Scope F) (w : State F) (x : Scope F) (w' : State F),
    sc.isLoc = true → evalElse A n l sc w = .ok (x, w') →
      w'.vars.Vars = w.vars.Vars ∧ x.isLoc = true
  whileS : ∀ (s : WhileStatement F) (sc : Scope F) (w : State F) (x : Scope F) (w' : State F),
    sc.isLoc = true → evalWhileStatement A n s sc w = .ok (x, w') →
      w'.vars.Vars = w.vars.Vars ∧ x.isLoc = true
  untilS : ∀ (s : UntilStatement F) (sc : Scope F) (w : State F) (x : Scope F) (w' : State F),
    sc.isLoc = true → evalUntilStatement A n s sc w = .ok (x, w') →
      w'.vars.Vars = w.vars.Vars ∧ x.isLoc = true
  print : ∀ (s : PrintStatement F) (sc : Scope F) (w : State F) (x : Unit) (w' : State F),
    evalPrintStatement A n s sc w = .ok (x, w') → w'.vars.Vars = w.vars.Vars
  ploop : ∀ (l : List (Add F)) (sc : Scope F) (w : State F) (x : Unit) (w' : State F),
    printLoop A n l sc w = .ok (x, w') → w'.vars.Vars = w.vars.Vars
  call : ∀ (c : FunCallStatement F) (w : State F) (x : F) (w' : State F),
    evalFunctionCall A n c w = .ok (x, w') → w'.vars.Vars = w.vars.Vars
  bind : ∀ (ident : String) (args : List (Add F)) (i : Nat) (scope : Vars F) (w : State F) (x : Vars F) (w' : State F),
    bindArguments A n ident args i scope w = .ok (x, w') → w'.vars.Vars = w.vars.Vars
  ret : ∀ (s : ReturnStatement F) (sc : Scope F) (w : State F) (x : F) (w' : State F),
    evalReturnStatement A n s sc w = .ok (x, w') → w'.vars.Vars = w.vars.Vars
  cond : ∀ (c : Condition F) (sc : Scope F) (w : State F) (x : Bool) (w' : State F),
    evalCondition A n c sc w = .ok (x, w') → w'.vars.Vars = w.vars.Vars
  add : ∀ (a : Add F) (sc : Scope F) (w : State F) (x : F) (w' : State F),
    evalAdd A n a sc w = .ok (x, w') → w'.vars.Vars = w.vars.Vars
  mul : ∀ (m : Mul F) (sc : Scope F) (w : State F) (x : F) (w' : State F),
    evalMul A n m sc w = .ok (x, w') → w'.vars.Vars = w.vars.Vars
  value : ∀ (v : Value F) (sc : Scope F) (w : State F) (x : F) (w' : State F),
    evalValue A n v sc w = .ok (x, w') → w'.vars.Vars = w.vars.Vars

theorem Scope.set_loc (sc : Scope F) (w : State F) (k : String) (v : F)
    (h : sc.isLoc = true) : (sc.set w k v).2 = w ∧ (sc.set w k v).1.isLoc = true := by
  cases sc with
  | glob => cases h
  | loc l => exact ⟨rfl, rfl⟩

theorem evalFunctionStatement_vars (s : FunctionStatement F) (w : State F) :
    (evalFunctionStatement s w).vars.Vars = w.vars.Vars := by
  cases s; rfl

theorem evalInputStatement_loc (A : Arith F) (s : InputStatement) (sc : Scope F) (w : State F)
    (x : Scope F) (w' : State F) (hsc : sc.isLoc = true)
    (h : evalInputStatement A s sc w = .ok (x, w')) :
    w'.vars.Vars = w.vars.Vars ∧ x.isLoc = true := by
  unfold evalInputStatement at h
  repeat' split at h
  all_goals first | (cases h; done) | skip
  cases sc with
  | glob => cases hsc
  | loc l => cases h; exact ⟨rfl, rfl⟩

theorem globInv_zero (A : Arith F) : GlobInv A 0 := by
  constructor <;> intros <;> simp_all [evalStatementList, evalStatement, evalAssignStatement, evalIfStatement, evalElseIfs, evalElseIf, evalElse, evalWhileStatement, evalUntilStatement, evalPrintStatement, printLoop, evalFunctionCall, bindArguments, evalReturnStatement, evalCondition, evalAdd, evalMul, evalValue]

theorem globInv_step_stmtList (A : Arith F) (n : Nat) (ih : GlobInv A n) (l : StatementList F) (sc : Scope F) (w : State F) (x : F × Scope F) (w' : State F) :
    sc.isLoc = true → evalStatementList A (n + 1) l sc w = .ok (x, w') →
      w'.vars.Vars = w.vars.Vars ∧ x.2.isLoc = true := by
  intro hsc h
  have ih_stmt := ih.stmt
  have ih_stmtList := ih.stmtList
  clear ih
  have hv : w.vars.Vars = w.vars.Vars := rfl
  cases l <;>
  · rw [evalStatementList] at h
    repeat' (split at h <;> try (rename_i heq; first | (have hh := ih_stmt _ _ _ _ _ hsc heq; obtain ⟨hv1, hsc⟩ := hh; have hv := hv1.trans hv) | (have hh := ih_stmtList _ _ _ _ _ hsc heq; obtain ⟨hv1, hsc⟩ := hh; have hv := hv1.trans hv)))
    all_goals first | (cases h <;> exact ⟨hv, hsc⟩) | (have hh := ih_stmt _ _ _ _ _ hsc h; obtain ⟨hv1, hsc⟩ := hh; exact ⟨hv1.trans hv, hsc⟩) | (have hh := ih_stmtList _ _ _ _ _ hsc h; obtain ⟨hv1, hsc⟩ := hh; exact ⟨hv1.trans hv, hsc⟩)

theorem globInv_step_stmt (A : Arith F) (n : Nat) (ih : GlobInv A n) (s : Statement F) (sc : Scope F) (w : State F) (x : Option F × Scope F) (w' : State F) :
    sc.isLoc = true → evalStatement A (n + 1) s sc w = .ok (x, w') →
      w'.vars.Vars = w.vars.Vars ∧ x.2.isLoc = true := by
  intro hsc h
  have ih_assign := ih.assign
  have ih_ifStmt := ih.ifStmt
  have ih_whileS := ih.whileS
  have ih_untilS := ih.untilS
  have ih_print := ih.print
  have ih_call := ih.call
  have ih_ret := ih.ret
  clear ih
  have hv : w.vars.Vars = w.vars.Vars := rfl
  cases s <;> rw [evalStatement] at h <;> (try split at h) <;>
    first
    | (cases h; done)
    | (rename_i heq; cases h; first
        | exact ih_assign _ _ _ _ _ hsc heq
        | exact ih_ifStmt _ _ _ _ _ hsc heq
        | exact ih_whileS _ _ _ _ _ hsc heq
        | exact ih_untilS _ _ _ _ _ hsc heq
        | exact ⟨ih_print _ _ _ _ _ heq, hsc⟩
        | exact evalInputStatement_loc A _ _ _ _ _ hsc heq
        | exact ⟨ih_call _ _ _ _ heq, hsc⟩
        | exact ⟨ih_ret _ _ _ _ _ heq, hsc⟩)
    | (cases h; exact ⟨evalFunctionStatement_vars _ _, hsc⟩)

theorem globInv_step_assign (A : Arith F) (n : Nat) (ih : GlobInv A n) (s : AssignStatement F) (sc : Scope F) (w : State F) (x : Scope F) (w' : State F) :
    sc.isLoc = true → evalAssignStatement A (n + 1) s sc w = .ok (x, w') →
      w'.vars.Vars = w.vars.Vars ∧ x.isLoc = true := by
  intro hsc h
  have ih_add := ih.add
  clear ih
  rw [evalAssignStatement] at h
  split at h
  · cases h
  · rename_i heq
    have hv := ih_add _ _ _ _ _ heq
    simp only [Except.ok.injEq] at h
    obtain ⟨h1, h2⟩ := Scope.set_loc sc ‹State F› s.Ident ‹F› hsc
    rw [h] at h1 h2
    exact ⟨by rw [show w' = _ from h1]; exact hv, h2⟩

theorem globInv_step_ifStmt (A : Arith F) (n : Nat) (ih : GlobInv A n) (s : IfStatement F) (sc : Scope F) (w : State F) (x : Scope F) (w' : State F) :
    sc.isLoc = true → evalIfStatement A (n + 1) s sc w = .ok (x, w') →
      w'.vars.Vars = w.vars.Vars ∧ x.isLoc = true := by
  intro hsc h
  have ih_cond := ih.cond
  have ih_stmtList := ih.stmtList
  have ih_elseIfs := ih.elseIfs
  have ih_els := ih.els
  clear ih
  have hv : w.vars.Vars = w.vars.Vars := rfl
  cases s <;>
  · rw [evalIfStatement] at h
    repeat' (split at h <;> try (rename_i heq; first | (have hv := (ih_cond _ _ _ _ _ heq).trans hv) | (have hh := ih_stmtList _ _ _ _ _ hsc heq; obtain ⟨hv1, hsc⟩ := hh; have hv := hv1.trans hv) | (have hh := ih_elseIfs _ _ _ _ _ hsc heq; obtain ⟨hv1, hsc⟩ := hh; have hv := hv1.trans hv) | (have hh := ih_els _ _ _ _ _ hsc heq; obtain ⟨hv1, hsc⟩ := hh; have hv := hv1.trans hv)))
    all_goals first | (cases h <;> exact ⟨hv, hsc⟩) | (exact (ih_cond _ _ _ _ _ h).trans hv) | (have hh := ih_stmtList _ _ _ _ _ hsc h; obtain ⟨hv1, hsc⟩ := hh; exact ⟨hv1.trans hv, hsc⟩) | (have hh := ih_elseIfs _ _ _ _ _ hsc h; obtain ⟨hv1, hsc⟩ := hh; exact ⟨hv1.trans hv, hsc⟩) | (have hh := ih_els _ _ _ _ _ hsc h; obtain ⟨hv1, hsc⟩ := hh; exact ⟨hv1.trans hv, hsc⟩)

theorem globInv_step_elseIfs (A : Arith F) (n : Nat) (ih : GlobInv A n) (l : List (ElseIf F)) (sc : Scope F) (w : State F) (x : Bool × Scope F) (w' : State F) :
    sc.isLoc = true → evalElseIfs A (n + 1) l sc w = .ok (x, w') →
      w'.vars.Vars = w.vars.Vars ∧ x.2.isLoc = true := by
  intro hsc h
  have ih_elseIf := ih.elseIf
  have ih_elseIfs := ih.elseIfs
  clear ih
  have hv : w.vars.Vars = w.vars.Vars := rfl
  cases l <;>
  · rw [evalElseIfs] at h
    repeat' (split at h <;> try (rename_i heq; first | (have hh := ih_elseIf _ _ _ _ _ hsc heq; obtain ⟨hv1, hsc⟩ := hh; have hv := hv1.trans hv) | (have hh := ih_elseIfs _ _ _ _ _ hsc heq; obtain ⟨hv1, hsc⟩ := hh; have hv := hv1.trans hv)))
    all_goals first | (cases h <;> exact ⟨hv, hsc⟩) | (have hh := ih_elseIf _ _ _ _ _ hsc h; obtain ⟨hv1, hsc⟩ := hh; exact ⟨hv1.trans hv, hsc⟩) | (have hh := ih_elseIfs _ _ _ _ _ hsc h; obtain ⟨hv1, hsc⟩ := hh; exact ⟨hv1.trans hv, hsc⟩)

theorem globInv_step_elseIf (A : Arith F) (n : Nat) (ih : GlobInv A n) (s : ElseIf F) (sc : Scope F) (w : State F) (x : Bool × Scope F) (w' : State F) :
    sc.isLoc = true → evalElseIf A (n + 1) s sc w = .ok (x, w') →
      w'.vars.Vars = w.vars.Vars ∧ x.2.isLoc = true := by
  intro hsc h
  have ih_cond := ih.cond
  have ih_stmtList := ih.stmtList
  clear ih
  have hv : w.vars.Vars = w.vars.Vars := rfl
  cases s <;>
  · rw [evalElseIf] at h
    repeat' (split at h <;> try (rename_i heq; first | (have hv := (ih_cond _ _ _ _ _ heq).trans hv) | (have hh := ih_stmtList _ _ _ _ _ hsc heq; obtain ⟨hv1, hsc⟩ := hh; have hv := hv1.trans hv)))
    all_goals first | (cases h <;> exact ⟨hv, hsc⟩) | (exact (ih_cond _ _ _ _ _ h).trans hv) | (have hh := ih_stmtList _ _ _ _ _ hsc h; obtain ⟨hv1, hsc⟩ := hh; exact ⟨hv1.trans hv, hsc⟩)

theorem globInv_step_els (A : Arith F) (n : Nat) (ih : GlobInv A n) (l : StatementList F) (sc : Scope F) (w : State F) (x : Scope F) (w' : State F) :
    sc.isLoc = true → evalElse A (n + 1) l sc w = .ok (x, w') →
      w'.vars.Vars = w.vars.Vars ∧ x.isLoc = true := by
  intro hsc h
  have ih_stmtList := ih.stmtList
  clear ih
  have hv : w.vars.Vars = w.vars.Vars := rfl
  rw [evalElse] at h
  repeat' (split at h <;> try (rename_i heq; first | (have hh := ih_stmtList _ _ _ _ _ hsc heq; obtain ⟨hv1, hsc⟩ := hh; have hv := hv1.trans hv)))
  all_goals first | (cases h <;> exact ⟨hv, hsc⟩) | (have hh := ih_stmtList _ _ _ _ _ hsc h; obtain ⟨hv1, hsc⟩ := hh; exact ⟨hv1.trans hv, hsc⟩)

theorem globInv_step_whileS (A : Arith F) (n : Nat) (ih : GlobInv A n) (s : WhileStatement F) (sc : Scope F) (w : State F) (x : Scope F) (w' : State F) :
    sc.isLoc = true → evalWhileStatement A (n + 1) s sc w = .ok (x, w') →
      w'.vars.Vars = w.vars.Vars ∧ x.isLoc = true := by
  intro hsc h
  have ih_cond := ih.cond
  have ih_stmtList := ih.stmtList
  have ih_whileS := ih.whileS
  clear ih
  have hv : w.vars.Vars = w.vars.Vars := rfl
  cases s <;>
  · rw [evalWhileStatement] at h
    repeat' (split at h <;> try (rename_i heq; first | (have hv := (ih_cond _ _ _ _ _ heq).trans hv) | (have hh := ih_stmtList _ _ _ _ _ hsc heq; obtain ⟨hv1, hsc⟩ := hh; have hv := hv1.trans hv) | (have hh := ih_whileS _ _ _ _ _ hsc heq; obtain ⟨hv1, hsc⟩ := hh; have hv := hv1.trans hv)))
    all_goals first | (cases h <;> exact ⟨hv, hsc⟩) | (exact (ih_cond _ _ _ _ _ h).trans hv) | (have hh := ih_stmtList _ _ _ _ _ hsc h; obtain ⟨hv1, hsc⟩ := hh; exact ⟨hv1.trans hv, hsc⟩) | (have hh := ih_whileS _ _ _ _ _ hsc h; obtain ⟨hv1, hsc⟩ := hh; exact ⟨hv1.trans hv, hsc⟩)

theorem globInv_step_untilS (A : Arith F) (n : Nat) (ih : GlobInv A n) (s : UntilStatement F) (sc : Scope F) (w : State F) (x : Scope F) (w' : State F) :
    sc.isLoc = true → evalUntilStatement A (n + 1) s sc w = .ok (x, w') →
      w'.vars.Vars = w.vars.Vars ∧ x.isLoc = true := by
  intro hsc h
  have ih_cond := ih.cond
  have ih_stmtList := ih.stmtList
  have ih_untilS := ih.untilS
  clear ih
  have hv : w.vars.Vars = w.vars.Vars := rfl
  cases s <;>
  · rw [evalUntilStatement] at h
    repeat' (split at h <;> try (rename_i heq; first | (have hv := (ih_cond _ _ _ _ _ heq).trans hv) | (have hh := ih_stmtList _ _ _ _ _ hsc heq; obtain ⟨hv1, hsc⟩ := hh; have hv := hv1.trans hv) | (have hh := ih_untilS _ _ _ _ _ hsc heq; obtain ⟨hv1, hsc⟩ := hh; have hv := hv1.trans hv)))
    all_goals first | (cases h <;> exact ⟨hv, hsc⟩) | (exact (ih_cond _ _ _ _ _ h).trans hv) | (have hh := ih_stmtList _ _ _ _ _ hsc h; obtain ⟨hv1, hsc⟩ := hh; exact ⟨hv1.trans hv, hsc⟩) | (have hh := ih_untilS _ _ _ _ _ hsc h; obtain ⟨hv1, hsc⟩ := hh; exact ⟨hv1.trans hv, hsc⟩)

theorem globInv_step_print (A : Arith F) (n : Nat) (ih : GlobInv A n) (s : PrintStatement F) (sc : Scope F) (w : State F) (x : Unit) (w' : State F) :
    evalPrintStatement A (n + 1) s sc w = .ok (x, w') → w'.vars.Vars = w.vars.Vars := by
  intro h
  have ih_ploop := ih.ploop
  have ih_add := ih.add
  clear ih
  have hv : w.vars.Vars = w.vars.Vars := rfl
  rw [evalPrintStatement] at h
  repeat' (split at h <;> try (rename_i heq; first | (have hv := (ih_ploop _ _ _ _ _ heq).trans hv) | (have hv := (ih_add _ _ _ _ _ heq).trans hv)))
  all_goals first | (cases h <;> exact hv) | (exact (ih_ploop _ _ _ _ _ h).trans hv) | (exact (ih_add _ _ _ _ _ h).trans hv)

theorem globInv_step_ploop (A : Arith F) (n : Nat) (ih : GlobInv A n) (l : List (Add F)) (sc : Scope F) (w : State F) (x : Unit) (w' : State F) :
    printLoop A (n + 1) l sc w = .ok (x, w') → w'.vars.Vars = w.vars.Vars := by
  intro h
  have ih_add := ih.add
  have ih_ploop := ih.ploop
  clear ih
  have hv : w.vars.Vars = w.vars.Vars := rfl
  cases l <;>
  · rw [printLoop] at h
    repeat' (split at h <;> try (rename_i heq; first | (have hv := (ih_add _ _ _ _ _ heq).trans hv) | (have hv := (ih_ploop _ _ _ _ _ heq).trans hv)))
    all_goals first | (cases h <;> exact hv) | (exact (ih_add _ _ _ _ _ h).trans hv) | (exact (ih_ploop _ _ _ _ _ h).trans hv)

theorem globInv_step_call (A : Arith F) (n : Nat) (ih : GlobInv A n) (c : FunCallStatement F) (w : State F) (x : F) (w' : State F) :
    evalFunctionCall A (n + 1) c w = .ok (x, w') → w'.vars.Vars = w.vars.Vars := by
  intro h
  have ih_bind := ih.bind
  have ih_stmtList := ih.stmtList
  clear ih
  obtain ⟨ident, args⟩ := c
  rw [evalFunctionCall] at h
  split at h
  · cases h
  · split at h
    · cases h
    · split at h
      · cases h
      · rename_i hb
        split at h
        · cases h
        · split at h
          · cases h
          · rename_i hbody
            cases h
            have e1 := ih_bind _ _ _ _ _ _ _ hb
            have e2 := (ih_stmtList _ (Scope.loc _) _ _ _ rfl hbody).1
            exact e2.trans e1

theorem globInv_step_bind (A : Arith F) (n : Nat) (ih : GlobInv A n) (ident : String) (args : List (Add F)) (i : Nat) (scope : Vars F) (w : State F) (x : Vars F) (w' : State F) :
    bindArguments A (n + 1) ident args i scope w = .ok (x, w') → w'.vars.Vars = w.vars.Vars := by
  intro h
  have ih_add := ih.add
  have ih_bind := ih.bind
  clear ih
  have hv : w.vars.Vars = w.vars.Vars := rfl
  rw [bindArguments] at h
  repeat' (split at h <;> try (rename_i heq; first | (have hv := (ih_add _ _ _ _ _ heq).trans hv) | (have hv := (ih_bind _ _ _ _ _ _ _ heq).trans hv)))
  all_goals first | (cases h <;> exact hv) | (exact (ih_add _ _ _ _ _ h).trans hv) | (exact (ih_bind _ _ _ _ _ _ _ h).trans hv)

theorem globInv_step_ret (A : Arith F) (n : Nat) (ih : GlobInv A n) (s : ReturnStatement F) (sc : Scope F) (w : State F) (x : F) (w' : State F) :
    evalReturnStatement A (n + 1) s sc w = .ok (x, w') → w'.vars.Vars = w.vars.Vars := by
  intro h
  have ih_add := ih.add
  clear ih
  have hv : w.vars.Vars = w.vars.Vars := rfl
  rw [evalReturnStatement] at h
  repeat' (split at h <;> try (rename_i heq; first | (have hv := (ih_add _ _ _ _ _ heq).trans hv)))
  all_goals first | (cases h <;> exact hv) | (exact (ih_add _ _ _ _ _ h).trans hv)

theorem globInv_step_cond (A : Arith F) (n : Nat) (ih : GlobInv A n) (c : Condition F) (sc : Scope F) (w : State F) (x : Bool) (w' : State F) :
    evalCondition A (n + 1) c sc w = .ok (x, w') → w'.vars.Vars = w.vars.Vars := by
  intro h
  have ih_add := ih.add
  have ih_cond := ih.cond
  clear ih
  have hv : w.vars.Vars = w.vars.Vars := rfl
  cases c <;>
  · rw [evalCondition] at h
    repeat' (split at h <;> try (rename_i heq; first | (have hv := (ih_add _ _ _ _ _ heq).trans hv) | (have hv := (ih_cond _ _ _ _ _ heq).trans hv)))
    all_goals first | (cases h <;> exact hv) | (exact (ih_add _ _ _ _ _ h).trans hv) | (exact (ih_cond _ _ _ _ _ h).trans hv)

theorem globInv_step_add (A : Arith F) (n : Nat) (ih : GlobInv A n) (a : Add F) (sc : Scope F) (w : State F) (x : F) (w' : State F) :
    evalAdd A (n + 1) a sc w = .ok (x, w') → w'.vars.Vars = w.vars.Vars := by
  intro h
  have ih_mul := ih.mul
  have ih_add := ih.add
  clear ih
  have hv : w.vars.Vars = w.vars.Vars := rfl
  cases a <;>
  · rw [evalAdd] at h
    repeat' (split at h <;> try (rename_i heq; first | (have hv := (ih_mul _ _ _ _ _ heq).trans hv) | (have hv := (ih_add _ _ _ _ _ heq).trans hv)))
    all_goals first | (cases h <;> exact hv) | (exact (ih_mul _ _ _ _ _ h).trans hv) | (exact (ih_add _ _ _ _ _ h).trans hv)

theorem globInv_step_mul (A : Arith F) (n : Nat) (ih : GlobInv A n) (m : Mul F) (sc : Scope F) (w : State F) (x : F) (w' : State F) :
    evalMul A (n + 1) m sc w = .ok (x, w') → w'.vars.Vars = w.vars.Vars := by
  intro h
  have ih_value := ih.value
  have ih_mul := ih.mul
  clear ih
  have hv : w.vars.Vars = w.vars.Vars := rfl
  cases m <;>
  · rw [evalMul] at h
    repeat' (split at h <;> try (rename_i heq; first | (have hv := (ih_value _ _ _ _ _ heq).trans hv) | (have hv := (ih_mul _ _ _ _ _ heq).trans hv)))
    all_goals first | (cases h <;> exact hv) | (exact (ih_value _ _ _ _ _ h).trans hv) | (exact (ih_mul _ _ _ _ _ h).trans hv)

theorem globInv_step_value (A : Arith F) (n : Nat) (ih : GlobInv A n) (v : Value F) (sc : Scope F) (w : State F) (x : F) (w' : State F) :
    evalValue A (n + 1) v sc w = .ok (x, w') → w'.vars.Vars = w.vars.Vars := by
  intro h
  have ih_add := ih.add
  have ih_call := ih.call
  clear ih
  have hv : w.vars.Vars = w.vars.Vars := rfl
  obtain ⟨unary, alt, exp⟩ := v
  rw [evalValue.eq_def] at h
  simp only at h
  split at h
  · cases h
  · rename_i hb
    cases h
    cases alt <;> simp only at hb <;> (repeat' split at hb) <;>
      first | (cases hb <;> rfl) | (exact ih_add _ _ _ _ _ hb) | (exact ih_call _ _ _ _ hb)

theorem globInv_succ (A : Arith F) (n : Nat) (ih : GlobInv A n) : GlobInv A (n + 1) :=
  ⟨globInv_step_stmtList A n ih, globInv_step_stmt A n ih, globInv_step_assign A n ih, globInv_step_ifStmt A n ih, globInv_step_elseIfs A n ih, globInv_step_elseIf A n ih, globInv_step_els A n ih, globInv_step_whileS A n ih, globInv_step_untilS A n ih, globInv_step_print A n ih, globInv_step_ploop A n ih, globInv_step_call A n ih, globInv_step_bind A n ih, globInv_step_ret A n ih, globInv_step_cond A n ih, globInv_step_add A n ih, globInv_step_mul A n ih, globInv_step_value A n ih⟩

theorem globInv_all (A : Arith F) : ∀ n, GlobInv A n
  | 0 => globInv_zero A
  | n + 1 => globInv_succ A n (globInv_all A n)

/-! ### The grammar rule of `Condition` -/

/-- With any parser of `Add` that accepts the left operand and fails at `=`,
the rule fails on `a <= b` and on `a >= b` at the `=`. -/
theorem parseCondition_two_char_fails (parseAdd : List (Token F) → ParseRes F (Add F))
    (a : Add F) (ts rest : List (Token F)) (c : String) (hc : c = "<" ∨ c = ">")
    (h1 : parseAdd ts = .ok a (.Punct c :: .Punct "=" :: rest))
    (h2 : parseAdd (.Punct "=" :: rest) = .fail (.Punct "=" :: rest)) (n : Nat) :
    parseCondition parseAdd (n + 1) ts = .fail (.Punct "=" :: rest) := by
  rcases hc with rfl | rfl <;>
  · rw [parseCondition, h1]
    simp [matchAlternatives, condAlternatives, matchLits, Token.isLit, h2]

/-! ### The argument loop of a call -/

theorem roundHalfEven_intCast (z : ℤ) : roundHalfEven (z : ℚ) = z := by
  simp [roundHalfEven]

/-- A number that is an integer multiple of the unit of its binade and is
below `2 ^ 1024` in magnitude is a `float64`. -/
theorem round64_of_multiple (q : ℚ) (z : ℤ) (hq : q ≠ 0)
    (hz : q = z * 2 ^ (max (Int.log 2 |q|) (-1022) - 52)) (hlt : |q| < 2 ^ 1024) :
    Flt.round64 (.fin q) = .fin q := by
  have hu : (2 : ℚ) ^ (max (Int.log 2 |q|) (-1022) - 52) ≠ 0 := zpow_ne_zero _ two_ne_zero
  have hdiv : q / 2 ^ (max (Int.log 2 |q|) (-1022) - 52) = (z : ℚ) := by
    rw [div_eq_iff hu]; exact hz
  simp only [Flt.round64, hq, if_false]
  rw [hdiv, roundHalfEven_intCast, ← hz]
  simp [not_le.mpr hlt]

theorem round64_natCast (k : ℕ) (hk : k ≤ 2 ^ 53) : Flt.round64 (.fin (k : ℚ)) = .fin (k : ℚ) := by
  by_cases h0 : k = 0
  · subst h0; simp [Flt.round64]
  have hq : (k : ℚ) ≠ 0 := by exact_mod_cast h0
  have habs : |(k : ℚ)| = (k : ℚ) := abs_of_nonneg (Nat.cast_nonneg k)
  have hlog : Int.log 2 |(k : ℚ)| = (Nat.log 2 k : ℤ) := by
    rw [habs]; exact Int.log_natCast 2 k
  have hL : Nat.log 2 k ≤ 53 := by
    have := Nat.log_mono_right (b := 2) hk
    rwa [Nat.log_pow (by norm_num)] at this
  have hmax : max (Nat.log 2 k : ℤ) (-1022) = (Nat.log 2 k : ℤ) := by
    apply max_eq_left; omega
  have hlt : |(k : ℚ)| < 2 ^ 1024 := by
    rw [habs]
    have : (k : ℚ) ≤ 2 ^ 53 := by exact_mod_cast hk
    have h2 : (2 : ℚ) ^ 53 < 2 ^ 1024 := by norm_num
    linarith
  by_cases hL52 : Nat.log 2 k ≤ 52
  · apply round64_of_multiple (k : ℚ) ((k * 2 ^ (52 - Nat.log 2 k) : ℕ) : ℤ) hq _ hlt
    rw [hlog, hmax, zpow_sub₀ (two_ne_zero), zpow_natCast]
    have hp : (2 : ℚ) ^ (52 - Nat.log 2 k) * 2 ^ Nat.log 2 k = 2 ^ 52 := by
      rw [← pow_add, Nat.sub_add_cancel hL52]
    have h52 : ((2 : ℚ) ^ (52 : ℤ)) = 2 ^ 52 := by norm_num
    rw [h52]
    push_cast
    field_simp
    rw [mul_assoc, hp]
  · have hL53 : Nat.log 2 k = 53 := by omega
    have hge : 2 ^ 53 ≤ k := by
      have := Nat.pow_log_le_self 2 h0
      rwa [hL53] at this
    have hk53 : k = 2 ^ 53 := le_antisymm hk hge
    apply round64_of_multiple (k : ℚ) ((2 ^ 52 : ℕ) : ℤ) hq _ hlt
    rw [hlog, hmax, hL53, hk53]
    norm_num

/-- In `float64`, `k + 1` is exact for a natural number `k` below `2 ^ 53`. -/
theorem f64_add_one_exact (k : ℕ) (hk : k < 2 ^ 53) :
    f64Arith.add (.fin (k : ℚ)) (.fin 1) = .fin ((k + 1 : ℕ) : ℚ) := by
  have h := round64_natCast (k + 1) hk
  simp only [f64Arith, Flt.add]
  push_cast at h ⊢
  exact h

/-- In `float64`, `2 ^ 53 + 1` is `2 ^ 53`: the tie goes to the even
significand. -/
theorem f64_add_one_stuck : f64Arith.add (.fin (2 ^ 53)) (.fin 1) = .fin (2 ^ 53) := by
  have hlog : Int.log 2 |((2 : ℚ) ^ 53 + 1)| = 53 := by
    have habs : |((2 : ℚ) ^ 53 + 1)| = ((2 ^ 53 + 1 : ℕ) : ℚ) := by
      rw [abs_of_nonneg (by positivity)]; norm_num
    rw [habs, Int.log_natCast]
    have : Nat.log 2 (2 ^ 53 + 1) = 53 := by
      rw [Nat.log_eq_iff (Or.inl (by norm_num))]
      norm_num
    rw [this]; rfl
  have hfloor : ⌊((2 : ℚ) ^ 53 + 1) / 2⌋ = 2 ^ 52 := by
    rw [Int.floor_eq_iff]
    norm_num
  have hne : ((2 : ℚ) ^ 53 + 1) ≠ 0 := by positivity
  simp only [f64Arith, Flt.add, Flt.round64, hne, if_false, hlog]
  have hmax : max (53 : ℤ) (-1022) - 52 = 1 := by norm_num
  rw [hmax]
  have hr : roundHalfEven (((2 : ℚ) ^ 53 + 1) / 2 ^ (1 : ℤ)) = 2 ^ 52 := by
    have h1 : ((2 : ℚ) ^ 53 + 1) / 2 ^ (1 : ℤ) = ((2 : ℚ) ^ 53 + 1) / 2 := by norm_num
    rw [h1]
    simp only [roundHalfEven, hfloor]
    norm_num
  rw [hr]
  norm_num

/-- The number `2 ^ 53 + 2` is a `float64`. -/
theorem round64_two_pow_53_add_two :
    Flt.round64 (.fin (2 ^ 53 + 2)) = .fin (2 ^ 53 + 2) := by
  have hlog : Int.log 2 |((2 : ℚ) ^ 53 + 2)| = 53 := by
    have habs : |((2 : ℚ) ^ 53 + 2)| = ((2 ^ 53 + 2 : ℕ) : ℚ) := by
      rw [abs_of_nonneg (by positivity)]; norm_num
    rw [habs, Int.log_natCast]
    have : Nat.log 2 (2 ^ 53 + 2) = 53 := by
      rw [Nat.log_eq_iff (Or.inl (by norm_num))]
      norm_num
    rw [this]; rfl
  apply round64_of_multiple _ (2 ^ 52 + 1) (by positivity)
  · rw [hlog]; norm_num
  · rw [abs_of_nonneg (by positivity)]; norm_num

/-- The counting loop never ends when the counter never equals the bound: with
values `vals k` such that `vals k + one = vals (k + 1)` and `vals k == vn` is
false for every `k`, the loop started at `x = vals k` reaches the fuel bound
at every fuel. -/
theorem evalUntilStatement_never_ends (A : Arith F) (x : String) (vn one : F) (vals : Nat → F)
    (sc : Scope F) (w : State F)
    (hstep : ∀ k, A.add (vals k) one = vals (k + 1))
    (hne : ∀ k, A.eq (vals k) vn = false) :
    ∀ m k, (evalUntilStatement A m (untilCount x vn one) (sc.set w x (vals k)).1
      (sc.set w x (vals k)).2).isOOF = true := by
  intro m
  induction m with
  | zero => intro k; rfl
  | succ m ih =>
    intro k
    have hx := Scope.vars_set sc w x (vals k)
    rw [untilCount, evalUntilStatement]
    cases hco : (evalCondition A m (Condition.cmp (Add.var x) "==" (Add.num vn))
        (sc.set w x (vals k)).1 (sc.set w x (vals k)).2).isOOF with
    | true =>
      generalize evalCondition A m (Condition.cmp (Add.var x) "==" (Add.num vn))
        (sc.set w x (vals k)).1 (sc.set w x (vals k)).2 = r at hco
      cases r with
      | error e => exact hco
      | ok p => simp [Res.isOOF] at hco
    | false =>
      have hst := stable_of_step
        (fun n => evalCondition A n (Condition.cmp (Add.var x) "==" (Add.num vn))
          (sc.set w x (vals k)).1 (sc.set w x (vals k)).2)
        (fun n hn => (mono_all A n).cond _ _ _ hn) m (m + 4) (by omega) hco
      simp only at hst
      rw [evalCondition_var_eq A m x _ vn _ _ hx, hne k] at hst
      rw [← hst]
      simp only
      cases hbo : (evalStatementList A m
          [ .Assign ⟨x, Add.bin (Value.var x) "+" (Add.num one)⟩ ]
          (sc.set w x (vals k)).1 (sc.set w x (vals k)).2).isOOF with
      | true =>
        generalize evalStatementList A m
          [ .Assign ⟨x, Add.bin (Value.var x) "+" (Add.num one)⟩ ]
          (sc.set w x (vals k)).1 (sc.set w x (vals k)).2 = r at hbo
        cases r with
        | error e => exact hbo
        | ok p => simp [Res.isOOF] at hbo
      | false =>
        have hsb := stable_of_step
          (fun n => evalStatementList A n
            [ .Assign ⟨x, Add.bin (Value.var x) "+" (Add.num one)⟩ ]
            (sc.set w x (vals k)).1 (sc.set w x (vals k)).2)
          (fun n hn => (mono_all A n).stmtList _ _ _ hn) m (m + 7) (by omega) hbo
        simp only at hsb
        rw [evalStatementList_incr A m x _ one _ _ hx, hstep k, Scope.set_set] at hsb
        rw [← hsb]
        exact ih (k + 1)

theorem f64Count_step (k : Nat) : f64Arith.add (f64Count k) (.fin 1) = f64Count (k + 1) := by
  by_cases hk : k < 2 ^ 53
  · have h1 : min k (2 ^ 53) = k := min_eq_left (le_of_lt hk)
    have h2 : min (k + 1) (2 ^ 53) = k + 1 := min_eq_left hk
    rw [f64Count, f64Count, h1, h2, fltOfNat, fltOfNat]
    exact f64_add_one_exact k hk
  · have h1 : min k (2 ^ 53) = 2 ^ 53 := min_eq_right (by omega)
    have h2 : min (k + 1) (2 ^ 53) = 2 ^ 53 := min_eq_right (by omega)
    rw [f64Count, f64Count, h1, h2, fltOfNat]
    have := f64_add_one_stuck
    push_cast
    exact this

theorem f64Count_ne (k : Nat) : f64Arith.eq (f64Count k) (.fin (2 ^ 53 + 2)) = false := by
  simp only [f64Arith, f64Count, fltOfNat, Flt.eq, decide_eq_false_iff_not]
  intro h
  have h1 : ((min k (2 ^ 53) : ℕ) : ℚ) = ((2 ^ 53 + 2 : ℕ) : ℚ) := by
    rw [h]; norm_num
  have h2 : min k (2 ^ 53) = 2 ^ 53 + 2 := by exact_mod_cast h1
  have h3 : min k (2 ^ 53) ≤ 2 ^ 53 := min_le_right _ _
  omega

end Fuel

/-! ## The claims -/

section Claims

variable {F : Type}

/-- C1 (the code departs from the claim): `evalAdd` on `5 - 3` returns the left
operand `5` in every scope and state, with any fuel of at least 3; it does not
return `5 - 3 = 2`, because the branch that subtracts tests the operator
against `"/"`. -/
theorem C1_five_minus_three_evaluates_to_five :
    (∀ (n : Nat) (sc : Scope Flt) (w : State Flt),
      evalAdd fltArith (n + 3) exprFiveMinusThree sc w = .ok (.fin 5, w)) ∧
    fltArith.sub (.fin 5) (.fin 3) = .fin 2 ∧ Flt.fin 5 ≠ Flt.fin 2 := by
  refine ⟨fun n sc w => rfl, by decide!, by decide⟩

/-- C2 (the code departs from the claim): the arguments of a call are evaluated
against the new scope of the callee.  In `a = 1 b = 2 func f(a, b) return b end
print f(b, a)` the second argument `a` reads the parameter `a` bound just
before (2), not the caller's `a` (1), so `2` is printed; and in
`func g(y) return y end func f(x) return g(x) end print f(7)` the argument `x`
of the inner call does not see the local `x` of `f` and the run panics. -/
theorem C2_arguments_use_callee_scope :
    (∀ n, (runMain fltArith (n + 30) progArgsSwapped []).stdout = "2\n" ∧
          (runMain fltArith (n + 30) progArgsSwapped []).err = none) ∧
    (∀ n, (runMain fltArith (n + 30) progArgCallerLocal []).err =
          some (.UndefinedVariable "x")) := by
  refine ⟨fun n => ⟨rfl, rfl⟩, fun n => rfl⟩

/-- C3 (the code departs from the claim): in
`func f() if 1 < 2 then return 5 end return 7 end print f()` the `return 5`
inside the `if` is executed and its value dropped by `evalIfStatement`; the
body goes on to `return 7` and `7` is printed. -/
theorem C3_nested_return_does_not_end_call :
    ∀ n, (runMain fltArith (n + 30) progNestedReturn []).stdout = "7\n" ∧
         (runMain fltArith (n + 30) progNestedReturn []).err = none := by
  intro n; exact ⟨rfl, rfl⟩

/-- C4 (the code departs from the claim): in
`func g() return 1 end func f() g() return 2 end print f()` the call of `g`
resets `inFunction`, and the `return 2` of `f` panics with
`ReturnOutsideFunction`; nothing is printed. -/
theorem C4_return_after_inner_call_panics :
    ∀ n, (runMain fltArith (n + 30) progCallThenReturn []).err = some .ReturnOutsideFunction ∧
         (runMain fltArith (n + 30) progCallThenReturn []).stdout = "" := by
  intro n; exact ⟨rfl, rfl⟩

/-- C5 (the code departs from the claim): `a = 1 b = 2 c = 3 print a, b, c`
writes `"1 2 3 \n"`, with a space after the last value, not `"1 2 3\n"`. -/
theorem C5_print_three_has_trailing_space :
    (∀ n, (runMain fltArith (n + 30) progPrintThree []).stdout = "1 2 3 \n") ∧
    "1 2 3 \n" ≠ "1 2 3\n" := by
  refine ⟨fun n => rfl, by decide⟩

/-- C6: a chain `a / b / c` is evaluated as `a / (b / c)`.  For every
arithmetic, if the value `a` evaluates to `va`, then `b` to `vb`, then the
rest `c` to `vc` (each in the state left by the one before), `evalMul` on the
chain ends with `va / (vb / vc)`; and `8 / 4 / 2` evaluates to `4`, which is
not the left grouping `(8 / 4) / 2 = 1`. -/
theorem C6_division_chain_groups_to_the_right :
    (∀ {F : Type} (A : Arith F) (a b : Value F) (c : Mul F) (sc : Scope F)
        (w w1 w2 w3 : State F) (va vb vc : F),
      Evals (fun n => evalValue A n a sc w) (.ok (va, w1)) →
      Evals (fun n => evalValue A n b sc w1) (.ok (vb, w2)) →
      Evals (fun n => evalMul A n c sc w2) (.ok (vc, w3)) →
      Evals (fun n => evalMul A n (divChain a b c) sc w)
        (.ok (A.div va (A.div vb vc), w3))) ∧
    (∀ (n : Nat) (sc : Scope Flt) (w : State Flt),
      evalMul fltArith (n + 4) exprEightFourTwo sc w = .ok (.fin 4, w)) ∧
    fltArith.div (fltArith.div (.fin 8) (.fin 4)) (.fin 2) = .fin 1 := by
  refine ⟨?_, ?_, by decide!⟩
  · intro F A a b c sc w w1 w2 w3 va vb vc ha hb hc
    obtain ⟨Na, hNa⟩ := evalValue_fuel A a sc w _ ha
    obtain ⟨Nb, hNb⟩ := evalValue_fuel A b sc w1 _ hb
    obtain ⟨Nc, hNc⟩ := evalMul_fuel A c sc w2 _ hc
    refine ⟨Na + Nb + Nc + 2, ?_, rfl⟩
    simp only [divChain]
    rw [evalMul, hNa _ (by omega)]
    simp only [if_true, if_false]
    rw [evalMul, hNb _ (by omega)]
    simp only
    rw [hNc _ (by omega)]
    simp
  · intro n sc w
    have : evalMul fltArith (n + 4) exprEightFourTwo sc w
        = .ok (fltArith.div (.fin 8) (fltArith.div (.fin 4) (.fin 2)), w) := rfl
    rw [this]
    have : fltArith.div (.fin 8) (fltArith.div (.fin 4) (.fin 2)) = Flt.fin 4 := by decide!
    rw [this]

/-- Witness of C6 at the chain `8 / 4 / 2`. -/
theorem C6_division_chain_witness :
    Evals (fun n => evalValue fltArith n (Value.num (.fin 8)) .glob (State.init Flt []))
      (.ok (.fin 8, State.init Flt [])) ∧
    Evals (fun n => evalValue fltArith n (Value.num (.fin 4)) .glob (State.init Flt []))
      (.ok (.fin 4, State.init Flt [])) ∧
    Evals (fun n => evalMul fltArith n (Mul.one (Value.num (.fin 2))) .glob (State.init Flt []))
      (.ok (.fin 2, State.init Flt [])) ∧
    Evals (fun n => evalMul fltArith n exprEightFourTwo .glob (State.init Flt []))
      (.ok (fltArith.div (.fin 8) (fltArith.div (.fin 4) (.fin 2)), State.init Flt [])) :=
  ⟨⟨1, rfl, rfl⟩, ⟨1, rfl, rfl⟩, ⟨2, rfl, rfl⟩,
   C6_division_chain_groups_to_the_right.1 fltArith _ _ _ _ _ _ _ _ _ _ _
     ⟨1, rfl, rfl⟩ ⟨1, rfl, rfl⟩ ⟨2, rfl, rfl⟩⟩

/-- C7: a `Return` executed outside any active call panics with
`ReturnOutsideFunction` and yields no value.  For every arithmetic:
(1) with `inFunction` false a `Return` statement panics, its expression not
evaluated and the state untouched; (2) with `inFunction` false no statement
yields a value; (3) `main` starts with `inFunction` false, and a statement
list or a condition entered with `inFunction` false ends with it false, calls
included; (4) so a `Return` that follows a completed prefix of statements
panics, (5)-(7) also when it stands in the body of an `if`, `while` or `until`
that is entered. -/
theorem C7_return_outside_function_panics (A : Arith F) :
    (∀ (n : Nat) (s : ReturnStatement F) (sc : Scope F) (w : State F),
      w.inFunction = false →
      evalStatement A (n + 2) (.Return s) sc w = .error (.ReturnOutsideFunction, w)) ∧
    (∀ (n : Nat) (s : Statement F) (sc sc' : Scope F) (w w' : State F) (o : Option F),
      w.inFunction = false → evalStatement A n s sc w = .ok ((o, sc'), w') → o = none) ∧
    ((∀ stdin, (State.init F stdin).inFunction = false) ∧
      (∀ (n : Nat) (l : StatementList F) (sc : Scope F) (w w' : State F) (x : F × Scope F),
        w.inFunction = false → evalStatementList A n l sc w = .ok (x, w') →
        w'.inFunction = false) ∧
      (∀ (n : Nat) (c : Condition F) (sc : Scope F) (w w' : State F) (b : Bool),
        w.inFunction = false → evalCondition A n c sc w = .ok (b, w') →
        w'.inFunction = false)) ∧
    (∀ (pre post : StatementList F) (s : ReturnStatement F) (sc : Scope F) (w w1 : State F)
        (x : F × Scope F),
      w.inFunction = false →
      Evals (fun n => evalStatementList A n pre sc w) (.ok (x, w1)) →
      Evals (fun n => evalStatementList A n (pre ++ .Return s :: post) sc w)
        (.error (.ReturnOutsideFunction, w1))) ∧
    (∀ (c : Condition F) (pre post : StatementList F) (s : ReturnStatement F)
        (eis : List (ElseIf F)) (els : Option (StatementList F)) (sc : Scope F)
        (w w1 w2 : State F) (x : F × Scope F),
      w.inFunction = false →
      Evals (fun n => evalCondition A n c sc w) (.ok (true, w1)) →
      Evals (fun n => evalStatementList A n pre sc w1) (.ok (x, w2)) →
      Evals (fun n => evalIfStatement A n (.mk c (pre ++ .Return s :: post) eis els) sc w)
        (.error (.ReturnOutsideFunction, w2))) ∧
    (∀ (c : Condition F) (pre post : StatementList F) (s : ReturnStatement F) (sc : Scope F)
        (w w1 w2 : State F) (x : F × Scope F),
      w.inFunction = false →
      Evals (fun n => evalCondition A n c sc w) (.ok (true, w1)) →
      Evals (fun n => evalStatementList A n pre sc w1) (.ok (x, w2)) →
      Evals (fun n => evalWhileStatement A n (.mk c (pre ++ .Return s :: post)) sc w)
        (.error (.ReturnOutsideFunction, w2))) ∧
    (∀ (c : Condition F) (pre post : StatementList F) (s : ReturnStatement F) (sc : Scope F)
        (w w1 w2 : State F) (x : F × Scope F),
      w.inFunction = false →
      Evals (fun n => evalCondition A n c sc w) (.ok (false, w1)) →
      Evals (fun n => evalStatementList A n pre sc w1) (.ok (x, w2)) →
      Evals (fun n => evalUntilStatement A n (.mk c (pre ++ .Return s :: post)) sc w)
        (.error (.ReturnOutsideFunction, w2))) := by
  have key : ∀ (pre post : StatementList F) (s : ReturnStatement F) (sc : Scope F)
      (w w1 : State F) (x : F × Scope F), w.inFunction = false →
      Evals (fun n => evalStatementList A n pre sc w) (.ok (x, w1)) →
      Evals (fun n => evalStatementList A n (pre ++ .Return s :: post) sc w)
        (.error (.ReturnOutsideFunction, w1)) := by
    intro pre post s sc w w1 x hw hpre
    obtain ⟨v, sc1⟩ := x
    have happ := evalStatementList_append A (fun _ w => w.inFunction = false) pre
      (.Return s :: post)
      (fun st _ n sc w o sc' w' h0 h => evalStatement_none_of_flag A st n sc w o sc' w' h0 h)
      sc sc1 w w1 v (.error (.ReturnOutsideFunction, w1)) hw hpre
    have hw1 : w1.inFunction = false := by
      obtain ⟨n, hn, -⟩ := hpre
      exact (flagInv_all A n).stmtList pre sc w _ _ hn hw
    exact (happ (evalStatementList_cons_error A _ _ _ _ _
      (evalStatement_return_outside A s sc1 w1 hw1))).1
  have hcond : ∀ (n : Nat) (c : Condition F) (sc : Scope F) (w w' : State F) (b : Bool),
      w.inFunction = false → evalCondition A n c sc w = .ok (b, w') →
      w'.inFunction = false :=
    fun n c sc w w' b hw h => (flagInv_all A n).cond c sc w b w' h hw
  refine ⟨?_, ?_, ⟨fun _ => rfl, ?_, hcond⟩, key, ?_, ?_, ?_⟩
  · intro n s sc w hw
    rw [evalStatement, evalReturnStatement_outside A n s sc w hw]
  · intro n s sc sc' w w' o hw h
    exact (evalStatement_none_of_flag A s n sc w o sc' w' hw h).1
  · intro n l sc w w' x hw h
    exact (flagInv_all A n).stmtList l sc w x w' h hw
  · intro c pre post s eis els sc w w1 w2 x hw hc hpre
    have hw1 : w1.inFunction = false := by
      obtain ⟨n, hn, -⟩ := hc
      exact hcond n c sc w w1 true hw hn
    exact evalIfStatement_true A c _ eis els sc w w1 _ hc (key pre post s sc w1 w2 x hw1 hpre)
  · intro c pre post s sc w w1 w2 x hw hc hpre
    have hw1 : w1.inFunction = false := by
      obtain ⟨n, hn, -⟩ := hc
      exact hcond n c sc w w1 true hw hn
    exact evalWhileStatement_body_error A c _ sc w w1 _ hc (key pre post s sc w1 w2 x hw1 hpre)
  · intro c pre post s sc w w1 w2 x hw hc hpre
    have hw1 : w1.inFunction = false := by
      obtain ⟨n, hn, -⟩ := hc
      exact hcond n c sc w w1 false hw hn
    exact evalUntilStatement_body_error A c _ sc w w1 _ hc (key pre post s sc w1 w2 x hw1 hpre)

/-- Witness of C7 at the program `a = 1  return a` run by `main`: the
assignment completes and the `return` panics. -/
theorem C7_return_outside_function_witness :
    (State.init Flt []).inFunction = false ∧
    Evals (fun n => evalStatementList fltArith n [ .Assign ⟨"a", Add.num (.fin 1)⟩ ] .glob
        (State.init Flt []))
      (.ok ((Flt.fin 0, .glob), (Scope.set .glob (State.init Flt []) "a" (Flt.fin 1)).2)) ∧
    Evals (fun n => evalStatementList fltArith n progTopReturn .glob (State.init Flt []))
      (.error (.ReturnOutsideFunction, (Scope.set .glob (State.init Flt []) "a" (Flt.fin 1)).2)) :=
  ⟨rfl, ⟨7, rfl, rfl⟩,
   (C7_return_outside_function_panics fltArith).2.2.2.1 _ [] _ _ _ _ _ rfl ⟨7, rfl, rfl⟩⟩

/-- C8: at most one branch of an `if` statement runs.  For every arithmetic,
with `r` the outcome of the branch body (its value is dropped):
(1) condition true: the statement is the `if` body, whatever the `elseif` and
`else` clauses are; (2) condition false, the conditions of the clauses `pre`
false and that of the next clause true: the statement is the body of that
clause, whatever clauses `post` follow and whatever the `else` is, so no later
condition is evaluated; (3) all conditions false and an `else`: the statement
is the `else` body; (4) all conditions false and no `else`: nothing runs, the
state is the one left by the conditions.  (5) The program of `main` prints
exactly `1`. -/
theorem C8_if_runs_at_most_one_branch (A : Arith F) :
    (∀ (c : Condition F) (body : StatementList F) (eis : List (ElseIf F))
        (els : Option (StatementList F)) (sc : Scope F) (w w1 : State F)
        (r : Res F (F × Scope F)),
      Evals (fun n => evalCondition A n c sc w) (.ok (true, w1)) →
      Evals (fun n => evalStatementList A n body sc w1) r →
      Evals (fun n => evalIfStatement A n (.mk c body eis els) sc w) (dropValue r)) ∧
    (∀ (c ci : Condition F) (body bi : StatementList F) (pre post : List (ElseIf F))
        (els : Option (StatementList F)) (sc : Scope F) (w w1 w2 w3 : State F)
        (r : Res F (F × Scope F)),
      Evals (fun n => evalCondition A n c sc w) (.ok (false, w1)) →
      ElseIfsFalse A sc pre w1 w2 →
      Evals (fun n => evalCondition A n ci sc w2) (.ok (true, w3)) →
      Evals (fun n => evalStatementList A n bi sc w3) r →
      Evals (fun n => evalIfStatement A n (.mk c body (pre ++ .mk ci bi :: post) els) sc w)
        (dropValue r)) ∧
    (∀ (c : Condition F) (body e : StatementList F) (eis : List (ElseIf F)) (sc : Scope F)
        (w w1 w2 : State F) (r : Res F (F × Scope F)),
      Evals (fun n => evalCondition A n c sc w) (.ok (false, w1)) →
      ElseIfsFalse A sc eis w1 w2 →
      Evals (fun n => evalStatementList A n e sc w2) r →
      Evals (fun n => evalIfStatement A n (.mk c body eis (some e)) sc w) (dropValue r)) ∧
    (∀ (c : Condition F) (body : StatementList F) (eis : List (ElseIf F)) (sc : Scope F)
        (w w1 w2 : State F),
      Evals (fun n => evalCondition A n c sc w) (.ok (false, w1)) →
      ElseIfsFalse A sc eis w1 w2 →
      Evals (fun n => evalIfStatement A n (.mk c body eis none) sc w) (.ok (sc, w2))) ∧
    (∀ n, (runMain fltArith (n + 30) progMain []).stdout = "1\n" ∧
          (runMain fltArith (n + 30) progMain []).err = none) := by
  refine ⟨?_, ?_, ?_, ?_, fun n => ⟨rfl, rfl⟩⟩
  · intro c body eis els sc w w1 r hc hb
    exact evalIfStatement_true A c body eis els sc w w1 r hc hb
  · intro c ci body bi pre post els sc w w1 w2 w3 r hc hpre hci hb
    exact evalIfStatement_elseif_taken A c body _ els sc w w1 r hc
      (evalElseIfs_first_true A sc pre post ci bi w1 w2 w3 r hpre hci hb)
  · intro c body e eis sc w w1 w2 r hc hall hb
    exact evalIfStatement_else A c body eis e sc sc w w1 w2 r hc
      (evalElseIfs_all_false A sc eis w1 w2 hall) hb
  · intro c body eis sc w w1 w2 hc hall
    exact evalIfStatement_no_else A c body eis sc sc w w1 w2 hc
      (evalElseIfs_all_false A sc eis w1 w2 hall)

/-- Witness of C8 at the `if` statement of `main`: the condition and the
`elseif` condition are false, and the statement is the `else` body, which
prints `1`. -/
theorem C8_if_runs_at_most_one_branch_witness :
    Evals (fun n => evalCondition fltArith n condMain .glob (State.init Flt []))
      (.ok (false, State.init Flt [])) ∧
    ElseIfsFalse fltArith .glob [elseIfMain] (State.init Flt []) (State.init Flt []) ∧
    Evals (fun n => evalStatementList fltArith n [ .Print ⟨[Add.num (.fin 1)]⟩ ] .glob
        (State.init Flt []))
      (.ok ((Flt.fin 0, .glob), { State.init Flt [] with stdout := "1\n" })) ∧
    Evals (fun n => evalIfStatement fltArith n
        (.mk condMain [ .Print ⟨[Add.num (.fin 4)]⟩ ] [ elseIfMain ]
          (some [ .Print ⟨[Add.num (.fin 1)]⟩ ])) .glob (State.init Flt []))
      (dropValue (.ok ((Flt.fin 0, .glob), { State.init Flt [] with stdout := "1\n" }))) :=
  ⟨⟨8, rfl, rfl⟩, .cons _ _ _ _ _ _ ⟨8, rfl, rfl⟩ (.nil _), ⟨8, rfl, rfl⟩,
   (C8_if_runs_at_most_one_branch fltArith).2.2.1 _ _ _ _ _ _ _ _ _
     ⟨8, rfl, rfl⟩ (.cons _ _ _ _ _ _ ⟨8, rfl, rfl⟩ (.nil _)) ⟨8, rfl, rfl⟩⟩

/-- C10: the arity check of a call.  The panic `ArityMismatch` carries the
name of the function and the two counts, as the message of the Go panic does.
For a name bound in the function table to `f`, a call with arguments `args`
ends with `ArityMismatch ident #params #args` exactly when the two counts
differ; when they differ it does so with any fuel of at least 1 and in the
state of the call, so before any argument is evaluated and before any
statement of the body runs; a name that is not in the table gives
`UndefinedFunction` in the same way. -/
theorem C10_arity_mismatch_iff_counts_differ (A : Arith F) (ident : String)
    (args : List (Add F)) (w : State F) :
    (∀ f, w.vars.Functions ident = some f →
      ((∃ n w', evalFunctionCall A n (.mk ident args) w =
          .error (.ArityMismatch ident f.params.length args.length, w')) ↔
        f.params.length ≠ args.length) ∧
      (f.params.length ≠ args.length → ∀ n,
        evalFunctionCall A (n + 1) (.mk ident args) w =
          .error (.ArityMismatch ident f.params.length args.length, w))) ∧
    (w.vars.Functions ident = none → ∀ n,
      evalFunctionCall A (n + 1) (.mk ident args) w = .error (.UndefinedFunction ident, w)) := by
  refine ⟨fun f hf => ?_, fun hf n => ?_⟩
  · have hmis : f.params.length ≠ args.length → ∀ n,
        evalFunctionCall A (n + 1) (.mk ident args) w =
          .error (.ArityMismatch ident f.params.length args.length, w) := by
      intro hne n
      rw [evalFunctionCall, hf]
      simp only [hne, ne_eq, not_false_eq_true, if_true]
    refine ⟨⟨?_, fun hne => ⟨1, w, hmis hne 0⟩⟩, hmis⟩
    rintro ⟨n, w', h⟩
    exact (arityInv_all A n).call _ w ident _ _ w' h
  · rw [evalFunctionCall, hf]

/-- Witness of C10: `add(1)` against `func add(a, b) ... end`. -/
theorem C10_arity_mismatch_witness :
    stateWithAdd.vars.Functions "add" = some fnAdd ∧
    fnAdd.params.length ≠ [Add.num (Flt.fin 1)].length ∧
    (∀ n, evalFunctionCall fltArith (n + 1) (.mk "add" [Add.num (.fin 1)]) stateWithAdd =
      .error (.ArityMismatch "add" fnAdd.params.length [Add.num (Flt.fin 1)].length,
        stateWithAdd)) :=
  ⟨rfl, by decide,
   ((C10_arity_mismatch_iff_counts_differ fltArith "add" [Add.num (.fin 1)] stateWithAdd).1
      fnAdd rfl).2 (by decide)⟩

/-- C11: a call leaves the global variable store as it was.  For every
arithmetic and fuel: (1) if a call ends, `vars.Vars` after it is `vars.Vars`
before it, whatever the body does, nested and recursive calls included;
(2) so does a statement list run in a local scope, and the scope stays a local
one; (3) an assignment in a local scope writes the local store only: the state
after it is the state after its expression, also when the name is bound in
the global store.  `x = 1  func f() x = 2 return x end  print f()  print x`
prints `2` and then `1`. -/
theorem C11_call_leaves_global_store :
    (∀ {F : Type} (A : Arith F) (n : Nat) (c : FunCallStatement F) (w w' : State F) (v : F),
      evalFunctionCall A n c w = .ok (v, w') → w'.vars.Vars = w.vars.Vars) ∧
    (∀ {F : Type} (A : Arith F) (n : Nat) (l : StatementList F) (loc : Vars F) (w w' : State F)
        (x : F × Scope F),
      evalStatementList A n l (.loc loc) w = .ok (x, w') →
      w'.vars.Vars = w.vars.Vars ∧ x.2.isLoc = true) ∧
    (∀ {F : Type} (A : Arith F) (n : Nat) (s : AssignStatement F) (loc : Vars F)
        (w w1 : State F) (v : F),
      evalAdd A n s.Expr (.loc loc) w = .ok (v, w1) →
      evalAssignStatement A (n + 1) s (.loc loc) w =
        .ok (.loc { loc with Vars := mapSet loc.Vars s.Ident v }, w1) ∧
      w1.vars.Vars = w.vars.Vars) ∧
    (∀ n, (runMain fltArith (n + 30) progShadow []).stdout = "2\n1\n" ∧
          (runMain fltArith (n + 30) progShadow []).err = none) := by
  refine ⟨?_, ?_, ?_, fun n => ⟨rfl, rfl⟩⟩
  · intro F A n c w w' v h
    exact (globInv_all A n).call c w v w' h
  · intro F A n l loc w w' x h
    exact (globInv_all A n).stmtList l (.loc loc) w x w' rfl h
  · intro F A n s loc w w1 v h
    refine ⟨?_, (globInv_all A n).add _ _ _ _ _ h⟩
    rw [evalAssignStatement, h]
    rfl

/-- Witness of C11 at the call `f()` of `func f() x = 2 return x end` with the
global `x = 1`: the call yields 2 and the global `x` is still 1. -/
theorem C11_call_leaves_global_store_witness :
    evalFunctionCall fltArith 9 (.mk "f" []) stateShadow =
      .ok (Flt.fin 2, { { stateShadow with inFunction := true } with inFunction := false }) ∧
    stateShadow.vars.Vars "x" = some (Flt.fin 1) ∧
    ({ { stateShadow with inFunction := true } with inFunction := false } : State Flt).vars.Vars =
      stateShadow.vars.Vars :=
  ⟨rfl, rfl, C11_call_leaves_global_store.1 fltArith 9 (.mk "f" []) stateShadow _ _ rfl⟩

/-- C12: a variable reference reads the scope first and the global store
second.  For every arithmetic, value node `x` (with or without exponent and
unary minus), scope and state: if `x` is bound in the scope the outcome is that
binding (after `finishValue`, so the binding itself for a bare reference),
whatever the global store holds; if not and `x` is bound in the global store,
the global binding; otherwise the panic `UndefinedVariable x`, in the state of
the reference, with no exponent or negation applied. -/
theorem C12_variable_lookup_scope_then_global (A : Arith F) (n : Nat) (x : String)
    (unary : Option String) (exp : Option F) (sc : Scope F) (w : State F) :
    (∀ v, sc.Vars w x = some v →
      evalValue A (n + 1) (.mk unary (.Variable x) exp) sc w =
        .ok (finishValue A unary exp v, w) ∧
      evalValue A (n + 1) (Value.var x) sc w = .ok (v, w)) ∧
    (∀ v, sc.Vars w x = none → w.vars.Vars x = some v →
      evalValue A (n + 1) (.mk unary (.Variable x) exp) sc w =
        .ok (finishValue A unary exp v, w) ∧
      evalValue A (n + 1) (Value.var x) sc w = .ok (v, w)) ∧
    (sc.Vars w x = none → w.vars.Vars x = none →
      evalValue A (n + 1) (.mk unary (.Variable x) exp) sc w =
        .error (.UndefinedVariable x, w)) := by
  refine ⟨fun v h => ?_, fun v h hg => ?_, fun h hg => ?_⟩
  · constructor
    · rw [evalValue.eq_def]; simp only [h]
      cases unary <;> cases exp <;> rfl
    · rw [evalValue.eq_def]; simp only [Value.var, h]
  · constructor
    · rw [evalValue.eq_def]; simp only [h, hg]
      cases unary <;> cases exp <;> rfl
    · rw [evalValue.eq_def]; simp only [Value.var, h, hg]
  · rw [evalValue.eq_def]; simp only [h, hg]

/-- Witness of C12: in the local store `x = 2` with the global `x = 1`, the
reference `x` reads 2. -/
theorem C12_variable_lookup_witness :
    (Scope.loc storeXTwo).Vars stateXOne "x" = some (Flt.fin 2) ∧
    stateXOne.vars.Vars "x" = some (Flt.fin 1) ∧
    evalValue fltArith 1 (Value.var "x") (.loc storeXTwo) stateXOne =
      .ok (Flt.fin 2, stateXOne) :=
  ⟨rfl, rfl,
   ((C12_variable_lookup_scope_then_global fltArith 0 "x" none none (.loc storeXTwo)
      stateXOne).1 (Flt.fin 2) rfl).2⟩

/-- C13, as the code has it: the counting loop
`until x == n do x = x + 1 end` ends after `n` passes when the increments
below `n` are exact, which in `float64` is the case for `n ≤ 2 ^ 53`.  Let
`rep k` be the number that stands for `k`, exact up to `n`:
`rep k + rep 1 = rep (k + 1)` for `k < n` and `rep k == rep n` exactly when
`k = n`, for `k ≤ n`.  From any
scope and state in which `x` is `rep 0` the loop ends, in the scope and state
where `x` has been assigned `rep n` and nothing else has changed.  It gets
there by exactly `n` passes: for every `k < n`, with `x = rep k` the condition
is false and the body leads to `x = rep (k + 1)`, and with `x = rep n` the
condition is true.  When the condition holds on entry the loop ends with the
scope and state it was entered with, the body not run.  In the arithmetic of
`float64` the natural numbers up to `2 ^ 53` are such numbers, so for every
`n ≤ 2 ^ 53` the loop ends with `x = n`.  The program
`x = 0  until x == 3 do x = x + 1 end  print x` prints `3`, and with `print x`
put first in the body the three passes print `0`, `1`, `2`. -/
theorem C13_until_counts_to_n :
    (∀ {F : Type} (A : Arith F) (rep : Nat → F) (n : Nat) (x : String) (sc : Scope F)
        (w : State F),
      (∀ k, k < n → A.add (rep k) (rep 1) = rep (k + 1)) →
      (∀ k, k ≤ n → A.eq (rep k) (rep n) = decide (k = n)) →
      sc.Vars w x = some (rep 0) →
      Evals (fun m => evalUntilStatement A m (untilCount x (rep n) (rep 1)) sc w)
        (.ok (sc.set w x (rep n))) ∧
      (∀ k, k < n →
        Evals (fun m => evalCondition A m (Condition.cmp (Add.var x) "==" (Add.num (rep n)))
            (sc.set w x (rep k)).1 (sc.set w x (rep k)).2)
          (.ok (false, (sc.set w x (rep k)).2)) ∧
        Evals (fun m => evalStatementList A m
            [ .Assign ⟨x, Add.bin (Value.var x) "+" (Add.num (rep 1))⟩ ]
            (sc.set w x (rep k)).1 (sc.set w x (rep k)).2)
          (.ok ((A.zero, (sc.set w x (rep (k + 1))).1), (sc.set w x (rep (k + 1))).2))) ∧
      Evals (fun m => evalCondition A m (Condition.cmp (Add.var x) "==" (Add.num (rep n)))
          (sc.set w x (rep n)).1 (sc.set w x (rep n)).2)
        (.ok (true, (sc.set w x (rep n)).2))) ∧
    (∀ {F : Type} (A : Arith F) (x : String) (v vn one : F) (sc : Scope F) (w : State F)
        (m : Nat),
      sc.Vars w x = some v → A.eq v vn = true →
      evalUntilStatement A (m + 5) (untilCount x vn one) sc w = .ok (sc, w)) ∧
    (∀ (n : Nat) (x : String) (sc : Scope Flt) (w : State Flt),
      n ≤ 2 ^ 53 → sc.Vars w x = some (fltOfNat 0) →
      Evals (fun m => evalUntilStatement f64Arith m (untilCount x (fltOfNat n) (fltOfNat 1))
          sc w)
        (.ok (sc.set w x (fltOfNat n)))) ∧
    ((runMain fltArith 40 progUntilThree []).stdout = "3\n" ∧
     (runMain fltArith 40 progUntilThree []).err = none) ∧
    ((runMain fltArith 40 progUntilTraced []).stdout = "0\n1\n2\n" ∧
     (runMain fltArith 40 progUntilTraced []).err = none) := by
  have hgen : ∀ {F : Type} (A : Arith F) (rep : Nat → F) (n : Nat) (x : String)
      (sc : Scope F) (w : State F),
      (∀ k, k < n → A.add (rep k) (rep 1) = rep (k + 1)) →
      (∀ k, k ≤ n → A.eq (rep k) (rep n) = decide (k = n)) →
      sc.Vars w x = some (rep 0) →
      Evals (fun m => evalUntilStatement A m (untilCount x (rep n) (rep 1)) sc w)
        (.ok (sc.set w x (rep n))) := by
    intro F A rep n x sc w hadd heq hx
    have h := evalUntilStatement_count A rep n x sc w hadd heq n (le_refl n)
    simp only [Nat.sub_self] at h
    rw [Scope.set_self sc w x (rep 0) hx] at h
    exact h
  refine ⟨?_, ?_, ?_, ⟨by decide!, by decide!⟩, by decide!, by decide!⟩
  · intro F A rep n x sc w hadd heq hx
    refine ⟨hgen A rep n x sc w hadd heq hx, ?_, ?_⟩
    · intro k hk
      have hf : A.eq (rep k) (rep n) = false := by
        rw [heq k (by omega)]; exact decide_eq_false (by omega)
      refine ⟨⟨4, ?_, rfl⟩, ⟨7, ?_, rfl⟩⟩
      · simp only
        rw [evalCondition_var_eq A 0 x (rep k) (rep n) _ _ (Scope.vars_set sc w x _), hf]
      · simp only
        rw [evalStatementList_incr A 0 x (rep k) (rep 1) _ _ (Scope.vars_set sc w x _),
          hadd k hk, Scope.set_set]
    · have ht : A.eq (rep n) (rep n) = true := by
        rw [heq n (le_refl n)]; exact decide_eq_true rfl
      refine ⟨4, ?_, rfl⟩
      simp only
      rw [evalCondition_var_eq A 0 x (rep n) (rep n) _ _ (Scope.vars_set sc w x _), ht]
  · intro F A x v vn one sc w m hx ht
    rw [untilCount, evalUntilStatement, evalCondition_var_eq A m x v vn sc w hx, ht]
  · intro n x sc w hn hx
    refine hgen f64Arith fltOfNat n x sc w ?_ ?_ hx
    · intro k hk
      have h := f64_add_one_exact k (by omega)
      simpa [fltOfNat] using h
    · intro k _
      simp only [f64Arith, Flt.eq, fltOfNat, decide_eq_decide]
      exact ⟨fun h => by exact_mod_cast h, fun h => by rw [h]⟩

/-- Witness of C13 at `n = 3` in the arithmetic of `float64`, at top level
after `x = 0`. -/
theorem C13_until_counts_to_three_witness :
    (∀ k, k < 3 → f64Arith.add (fltOfNat k) (fltOfNat 1) = fltOfNat (k + 1)) ∧
    (∀ k, k ≤ 3 → f64Arith.eq (fltOfNat k) (fltOfNat 3) = decide (k = 3)) ∧
    Scope.glob.Vars stateXZero "x" = some (fltOfNat 0) ∧
    Evals (fun m => evalUntilStatement f64Arith m (untilCount "x" (fltOfNat 3) (fltOfNat 1))
        .glob stateXZero)
      (.ok (Scope.set .glob stateXZero "x" (fltOfNat 3))) :=
  have hadd : ∀ k, k < 3 → f64Arith.add (fltOfNat k) (fltOfNat 1) = fltOfNat (k + 1) := by
    intro k hk
    have h := f64_add_one_exact k (by omega)
    simpa [fltOfNat] using h
  have heq : ∀ k, k ≤ 3 → f64Arith.eq (fltOfNat k) (fltOfNat 3) = decide (k = 3) := by
    intro k _
    simp only [f64Arith, Flt.eq, fltOfNat, decide_eq_decide]
    exact ⟨fun h => by exact_mod_cast h, fun h => by rw [h]⟩
  ⟨hadd, heq, rfl,
   (C13_until_counts_to_n.1 f64Arith fltOfNat 3 "x" .glob stateXZero hadd heq rfl).1⟩

/-- C13, as stated, fails at `n = 2 ^ 53 + 2`, which is a `float64`: started
from `x = 0` in the arithmetic of `float64`, the loop
`until x == 2 ^ 53 + 2 do x = x + 1 end` never ends.  The counter reaches
`2 ^ 53`, where `x + 1` rounds back to `2 ^ 53`, which is not the bound: at
every fuel the run is cut by the fuel bound, so no outcome is ever produced. -/
theorem C13_loop_never_ends_at_two_pow_53_add_two :
    Flt.round64 (.fin (2 ^ 53 + 2)) = .fin (2 ^ 53 + 2) ∧
    f64Arith.add (.fin (2 ^ 53)) (.fin 1) = .fin (2 ^ 53) ∧
    f64Arith.eq (.fin (2 ^ 53)) (.fin (2 ^ 53 + 2)) = false ∧
    Scope.glob.Vars stateXZero "x" = some (Flt.fin 0) ∧
    (∀ m, (evalUntilStatement f64Arith m (untilCount "x" (.fin (2 ^ 53 + 2)) (.fin 1))
      .glob stateXZero).isOOF = true) ∧
    (∀ r, ¬ Evals (fun m => evalUntilStatement f64Arith m
      (untilCount "x" (.fin (2 ^ 53 + 2)) (.fin 1)) .glob stateXZero) r) := by
  have hx : Scope.glob.Vars stateXZero "x" = some (Flt.fin 0) := by
    simp [stateXZero, fltOfNat, Scope.set, Scope.Vars, mapSet]
  have hnever : ∀ m, (evalUntilStatement f64Arith m
      (untilCount "x" (.fin (2 ^ 53 + 2)) (.fin 1)) .glob stateXZero).isOOF = true := by
    intro m
    have h := evalUntilStatement_never_ends f64Arith "x" (.fin (2 ^ 53 + 2)) (.fin 1) f64Count
      .glob stateXZero f64Count_step f64Count_ne m 0
    have h0 : f64Count 0 = Flt.fin 0 := by simp [f64Count, fltOfNat]
    rw [h0, Scope.set_self .glob stateXZero "x" (Flt.fin 0) hx] at h
    exact h
  refine ⟨round64_two_pow_53_add_two, f64_add_one_stuck, ?_, hx, hnever, ?_⟩
  · have h := f64Count_ne (2 ^ 53)
    simpa [f64Count, fltOfNat] using h
  · intro r hr
    obtain ⟨m, hm, hoof⟩ := hr
    simp only at hm
    have h := hnever m
    rw [hm, hoof] at h
    exact Bool.noConfusion h

/-- C14, as the code has it: a chain `c1 L1 c2 L2 c3` with connectives among
`and`, `or` has the value of the right grouping `c1 L1 (c2 L2 c3)`, the three
comparisons being evaluated in turn; that value is the value of the left
grouping `(c1 L1 c2) L2 c3` when the two connectives are the same. -/
theorem C14_condition_chain_groups_to_the_right (A : Arith F)
    (a1 b1 a2 b2 a3 b3 : Add F) (op1 op2 op3 l1 l2 : String) (sc : Scope F)
    (w w1 w2 w3 : State F) (v1 v2 v3 : Bool)
    (hl1 : l1 = "and" ∨ l1 = "or") (hl2 : l2 = "and" ∨ l2 = "or")
    (h1 : Evals (fun n => evalCondition A n (.mk a1 op1 b1 none) sc w) (.ok (v1, w1)))
    (h2 : Evals (fun n => evalCondition A n (.mk a2 op2 b2 none) sc w1) (.ok (v2, w2)))
    (h3 : Evals (fun n => evalCondition A n (.mk a3 op3 b3 none) sc w2) (.ok (v3, w3))) :
    Evals (fun n => evalCondition A n (condChain a1 op1 b1 l1 a2 op2 b2 l2 a3 op3 b3) sc w)
      (.ok (groupRight l1 l2 v1 v2 v3, w3)) ∧
    (l1 = l2 → groupRight l1 l2 v1 v2 v3 = groupLeft l1 l2 v1 v2 v3) := by
  refine ⟨?_, ?_⟩
  · exact evalCondition_chain A a1 op1 b1 l1 _ sc w w1 w3 v1 _ hl1 h1
      (evalCondition_chain A a2 op2 b2 l2 _ sc w1 w2 w3 v2 v3 hl2 h2 h3)
  · rintro rfl
    rcases hl1 with rfl | rfl <;> cases v1 <;> cases v2 <;> cases v3 <;> decide

/-- Witness of C14 at `1 < 2 or 1 < 2 and 2 < 1`. -/
theorem C14_condition_chain_witness :
    ("or" = "and" ∨ "or" = "or") ∧ ("and" = "and" ∨ "and" = "or") ∧
    Evals (fun n => evalCondition fltArith n (.mk (Add.num (.fin 1)) "<" (Add.num (.fin 2)) none)
        .glob (State.init Flt [])) (.ok (true, State.init Flt [])) ∧
    Evals (fun n => evalCondition fltArith n (.mk (Add.num (.fin 2)) "<" (Add.num (.fin 1)) none)
        .glob (State.init Flt [])) (.ok (false, State.init Flt [])) ∧
    Evals (fun n => evalCondition fltArith n condMixed .glob (State.init Flt []))
      (.ok (groupRight "or" "and" true true false, State.init Flt [])) :=
  ⟨Or.inr rfl, Or.inl rfl, ⟨4, rfl, rfl⟩, ⟨4, rfl, rfl⟩,
   (C14_condition_chain_groups_to_the_right fltArith (Add.num (.fin 1)) (Add.num (.fin 2))
      (Add.num (.fin 1)) (Add.num (.fin 2)) (Add.num (.fin 2)) (Add.num (.fin 1))
      "<" "<" "<" "or" "and" .glob (State.init Flt []) (State.init Flt []) (State.init Flt [])
      (State.init Flt []) true true false (Or.inr rfl) (Or.inl rfl) ⟨4, rfl, rfl⟩ ⟨4, rfl, rfl⟩
      ⟨4, rfl, rfl⟩).1⟩

/-- C14, as stated, fails on `1 < 2 or 1 < 2 and 2 < 1`: the comparisons are
true, true, false; `evalCondition` gives `true` (the right grouping) and the
left grouping `(true or true) and false` is `false`. -/
theorem C14_mixed_chain_differs_from_left_grouping :
    (evalCondition fltArith 4 (.mk (Add.num (.fin 1)) "<" (Add.num (.fin 2)) none) .glob
      (State.init Flt [])).val = some true ∧
    (evalCondition fltArith 4 (.mk (Add.num (.fin 2)) "<" (Add.num (.fin 1)) none) .glob
      (State.init Flt [])).val = some false ∧
    (evalCondition fltArith 6 condMixed .glob (State.init Flt [])).val = some true ∧
    groupLeft "or" "and" true true false = false := by
  refine ⟨rfl, rfl, rfl, by decide⟩

/-- C15, as the code has it: `evalMul` on `v / rhs` is the quotient of the
host, whatever the divisor.  For every arithmetic, if `v` evaluates to `va`
and then `rhs` to `vr`, the node evaluates to `va / vr`; no check of `vr` is
made and no panic is raised by the division.  In IEEE-754 terms a zero divisor
gives an infinity or NaN: `1 / 0` evaluates to `+Inf`, `0 / 0` to NaN. -/
theorem C15_division_returns_host_quotient :
    (∀ {F : Type} (A : Arith F) (v : Value F) (rhs : Mul F) (sc : Scope F)
        (w w1 w2 : State F) (va vr : F),
      Evals (fun n => evalValue A n v sc w) (.ok (va, w1)) →
      Evals (fun n => evalMul A n rhs sc w1) (.ok (vr, w2)) →
      Evals (fun n => evalMul A n (.mk v (some ("/", rhs))) sc w) (.ok (A.div va vr, w2))) ∧
    (∀ (n : Nat) (sc : Scope Flt) (w : State Flt),
      evalMul fltArith (n + 3) exprOneOverZero sc w = .ok (.pinf, w)) ∧
    fltArith.div (.fin 0) (.fin 0) = .nan := by
  refine ⟨?_, ?_, by decide!⟩
  · intro F A v rhs sc w w1 w2 va vr hv hr
    obtain ⟨N1, h1⟩ := evalValue_fuel A v sc w _ hv
    obtain ⟨N2, h2⟩ := evalMul_fuel A rhs sc w1 _ hr
    refine ⟨N1 + N2 + 1, ?_, rfl⟩
    simp only
    rw [evalMul, h1 _ (by omega)]
    simp only
    rw [h2 _ (by omega)]
    simp
  · intro n sc w
    have h1 : evalMul fltArith (n + 3) exprOneOverZero sc w =
        .ok (fltArith.div (.fin 1) (.fin 0), w) := rfl
    have h2 : fltArith.div (.fin 1) (.fin 0) = Flt.pinf := by decide!
    rw [h1, h2]

/-- Witness of C15 at `1 / 0`. -/
theorem C15_division_witness :
    Evals (fun n => evalValue fltArith n (Value.num (.fin 1)) .glob (State.init Flt []))
      (.ok (Flt.fin 1, State.init Flt [])) ∧
    Evals (fun n => evalMul fltArith n (Mul.one (Value.num (.fin 0))) .glob (State.init Flt []))
      (.ok (Flt.fin 0, State.init Flt [])) ∧
    Evals (fun n => evalMul fltArith n exprOneOverZero .glob (State.init Flt []))
      (.ok (fltArith.div (.fin 1) (.fin 0), State.init Flt [])) :=
  ⟨⟨1, rfl, rfl⟩, ⟨2, rfl, rfl⟩,
   C15_division_returns_host_quotient.1 fltArith _ _ _ _ _ _ _ _ ⟨1, rfl, rfl⟩ ⟨2, rfl, rfl⟩⟩

/-- C15, as stated, fails on `1 / 0`: the right operand evaluates to `0` and
`evalMul` returns the value `+Inf`; it raises no panic. -/
theorem C15_one_over_zero_returns_a_value :
    evalMul fltArith 2 (Mul.one (Value.num (.fin 0))) .glob (State.init Flt []) =
      .ok (Flt.fin 0, State.init Flt []) ∧
    (evalMul fltArith 3 exprOneOverZero .glob (State.init Flt [])).val = some Flt.pinf ∧
    (evalMul fltArith 3 exprOneOverZero .glob (State.init Flt [])).err = none := by
  refine ⟨rfl, ?_, ?_⟩ <;> decide!

/-- C16: `evalValue` applies the power first and the negation last.  For every
arithmetic, if the alternative of a value node evaluates to `b`, the node with
exponent `e` and a unary minus evaluates to `-(b ^ e)`, with the exponent only
to `b ^ e`, with the minus only to `-b`.  `2 ^ 3` evaluates to `8` and
`-2 ^ 2` to `-4`, which is not `(-2) ^ 2 = 4`. -/
theorem C16_power_then_negation :
    (∀ {F : Type} (A : Arith F) (alt : ValueAlt F) (u : String) (e b : F) (sc : Scope F)
        (w w1 : State F),
      Evals (fun n => evalValue A n (.mk none alt none) sc w) (.ok (b, w1)) →
      Evals (fun n => evalValue A n (.mk (some u) alt (some e)) sc w)
        (.ok (A.neg (A.pow b e), w1)) ∧
      Evals (fun n => evalValue A n (.mk none alt (some e)) sc w) (.ok (A.pow b e, w1)) ∧
      Evals (fun n => evalValue A n (.mk (some u) alt none) sc w) (.ok (A.neg b, w1))) ∧
    (∀ (n : Nat) (sc : Scope Flt) (w : State Flt),
      evalValue fltArith (n + 1) valueTwoCubed sc w = .ok (.fin 8, w) ∧
      evalValue fltArith (n + 1) valueMinusTwoSquared sc w = .ok (.fin (-4), w)) ∧
    fltArith.pow (fltArith.neg (.fin 2)) (.fin 2) = .fin 4 ∧ Flt.fin (-4) ≠ Flt.fin 4 := by
  refine ⟨?_, ?_, by decide!, by decide!⟩
  · intro F A alt u e b sc w w1 h
    obtain ⟨n, hn, -⟩ := h
    simp only at hn
    refine ⟨⟨n, ?_, rfl⟩, ⟨n, ?_, rfl⟩, ⟨n, ?_, rfl⟩⟩ <;>
    · simp only
      rw [evalValue_finish, hn]
      rfl
  · intro n sc w
    have h1 : evalValue fltArith (n + 1) valueTwoCubed sc w =
        .ok (fltArith.pow (.fin 2) (.fin 3), w) := rfl
    have h2 : evalValue fltArith (n + 1) valueMinusTwoSquared sc w =
        .ok (fltArith.neg (fltArith.pow (.fin 2) (.fin 2)), w) := rfl
    have h3 : fltArith.pow (.fin 2) (.fin 3) = Flt.fin 8 := by decide!
    have h4 : fltArith.neg (fltArith.pow (.fin 2) (.fin 2)) = Flt.fin (-4) := by decide!
    rw [h1, h2, h3, h4]
    exact ⟨rfl, rfl⟩

/-- Witness of C16 at the number `2` with exponent `2` and a unary minus. -/
theorem C16_power_then_negation_witness :
    Evals (fun n => evalValue fltArith n (.mk none (.Number (.fin 2)) none) .glob
        (State.init Flt [])) (.ok (Flt.fin 2, State.init Flt [])) ∧
    Evals (fun n => evalValue fltArith n valueMinusTwoSquared .glob (State.init Flt []))
      (.ok (fltArith.neg (fltArith.pow (.fin 2) (.fin 2)), State.init Flt [])) :=
  ⟨⟨1, rfl, rfl⟩,
   (C16_power_then_negation.1 fltArith (.Number (.fin 2)) "-" (.fin 2) (.fin 2) .glob
      (State.init Flt []) (State.init Flt []) ⟨1, rfl, rfl⟩).1⟩

/-- C17: a function without `Return` yields `0`.  For every arithmetic, take a
call `ident(args)` with the right number of arguments, the arguments bound by
the loop of `evalFunctionCall`, and let the body read from the table when it
starts have no `Return` among its statements (a `Return` nested in a block
does not count: its value is dropped).  If the body runs to its end, the call
yields the default `0`; used as a statement it completes, its result dropped;
used as a value it is `0` followed by the exponent and sign of the value node.
In the embedding `evalFunctionCall` returns a number, not a pointer, as both
return paths of Go `evalStatementList` give a non-nil pointer.
`func f() x = 1 end  f()  print f() + 2` prints `2`. -/
theorem C17_function_without_return_yields_zero :
    (∀ {F : Type} (A : Arith F) (ident fname : String) (args : List (Add F))
        (params : List String) (body : StatementList F) (w w1 w2 : State F)
        (f0 : FunctionStatement F) (sc0 : Vars F) (sc1 : Scope F) (z : F),
      w.vars.Functions ident = some f0 →
      f0.params.length = args.length →
      Evals (fun n => bindArguments A n ident args 0 (Vars.Create F) w) (.ok (sc0, w1)) →
      w1.vars.Functions ident = some (.mk fname params body) →
      (∀ s, s ∈ body → s.isReturn = false) →
      Evals (fun n => evalStatementList A n body (.loc sc0) { w1 with inFunction := true })
        (.ok ((z, sc1), w2)) →
      Evals (fun n => evalFunctionCall A n (.mk ident args) w)
        (.ok (A.zero, { w2 with inFunction := false })) ∧
      (∀ sc, Evals (fun n => evalStatement A n (.FunCall (.mk ident args)) sc w)
        (.ok ((none, sc), { w2 with inFunction := false }))) ∧
      (∀ sc unary exp,
        Evals (fun n => evalValue A n (.mk unary (.FunCallStatement (.mk ident args)) exp) sc w)
          (.ok (finishValue A unary exp A.zero, { w2 with inFunction := false })))) ∧
    (∀ n, (runMain fltArith (n + 30) progNoReturn []).stdout = "2\n" ∧
          (runMain fltArith (n + 30) progNoReturn []).err = none) := by
  refine ⟨?_, ?_⟩
  · intro F A ident fname args params body w w1 w2 f0 sc0 sc1 z hf0 hlen hbind hf1 hbody hrun
    have hz : z = A.zero := by
      obtain ⟨n, hn, -⟩ := hrun
      exact evalStatementList_zero_of_no_return A n body _ _ z sc1 w2 hbody hn
    subst hz
    have hcall := evalFunctionCall_body A ident args w w1 w2 f0 _ sc0 sc1 A.zero hf0 hlen hbind
      hf1 hrun
    exact ⟨hcall, fun sc => evalStatement_funCall A _ sc w _ _ hcall,
      fun sc unary exp => evalValue_funCall A _ unary exp sc w _ _ hcall⟩
  · intro n
    have h1 : runMain fltArith (n + 30) progNoReturn [] =
        .ok ((Flt.fin 0, .glob), { stateWithNoReturn with
          stdout := "" ++ fltArith.fmt (fltArith.add (.fin 0) (.fin 2)) ++ "\n" }) := rfl
    have h2 : fltArith.fmt (fltArith.add (.fin 0) (.fin 2)) = "2" := by decide!
    rw [h1, h2]
    exact ⟨rfl, rfl⟩

/-- Witness of C17 at the call `f()` of `func f() x = 1 end`. -/
theorem C17_function_without_return_witness :
    stateWithNoReturn.vars.Functions "f" = some fnNoReturn ∧
    fnNoReturn.params.length = ([] : List (Add Flt)).length ∧
    Evals (fun n => bindArguments fltArith n "f" [] 0 (Vars.Create Flt) stateWithNoReturn)
      (.ok (Vars.Create Flt, stateWithNoReturn)) ∧
    (∀ s, s ∈ [Statement.Assign ⟨"x", Add.num (Flt.fin 1)⟩] → s.isReturn = false) ∧
    Evals (fun n => evalStatementList fltArith n [ .Assign ⟨"x", Add.num (.fin 1)⟩ ]
        (.loc (Vars.Create Flt)) { stateWithNoReturn with inFunction := true })
      (.ok ((Flt.fin 0, .loc { Vars := mapSet (fun _ => none) "x" (Flt.fin 1),
                               Functions := fun _ => none }),
        { stateWithNoReturn with inFunction := true })) ∧
    Evals (fun n => evalFunctionCall fltArith n (.mk "f" []) stateWithNoReturn)
      (.ok (fltArith.zero,
        { { stateWithNoReturn with inFunction := true } with inFunction := false })) :=
  ⟨rfl, rfl, ⟨1, rfl, rfl⟩, by simp [Statement.isReturn], ⟨7, rfl, rfl⟩,
   (C17_function_without_return_yields_zero.1 fltArith "f" "f" [] []
      [ .Assign ⟨"x", Add.num (.fin 1)⟩ ] stateWithNoReturn stateWithNoReturn _ fnNoReturn
      (Vars.Create Flt) _ _ rfl rfl ⟨1, rfl, rfl⟩ rfl (by simp [Statement.isReturn])
      ⟨7, rfl, rfl⟩).1⟩

/-- C18 (the code departs from the claim): the alternatives `"<"` and `">"`
stand before `"<" "="` and `">" "="` in the tag of `Cond`.  With any parser of
`Add` that reads the left operand `a` up to the operator and fails at `=`, the
rule on the tokens of `a <= b` or of `a >= b` takes the one-character
alternative and then fails at the `=`, where the right operand should start.
So it is on the tokens of `1 <= 2` and of `1 >= 2`, while `1 < 2` and `1 == 2`
are parsed, with the operators `<` and `==`. -/
theorem C18_two_character_operators_fail_to_parse :
    (∀ {F : Type} (parseAdd : List (Token F) → ParseRes F (Add F)) (a : Add F)
        (ts rest : List (Token F)) (c : String),
      c = "<" ∨ c = ">" →
      parseAdd ts = .ok a (.Punct c :: .Punct "=" :: rest) →
      parseAdd (.Punct "=" :: rest) = .fail (.Punct "=" :: rest) →
      ∀ n, parseCondition parseAdd (n + 1) ts = .fail (.Punct "=" :: rest)) ∧
    (∀ n, parseCondition parseOperand (n + 1) tokensLessEq =
        .fail [.Punct "=", .Number (.fin 2)]) ∧
    (∀ n, parseCondition parseOperand (n + 1) tokensGreaterEq =
        .fail [.Punct "=", .Number (.fin 2)]) ∧
    (∀ n, parseCondition parseOperand (n + 1) tokensLess =
        .ok (Condition.cmp (Add.num (.fin 1)) "<" (Add.num (.fin 2))) []) ∧
    (∀ n, parseCondition parseOperand (n + 1) tokensEqEq =
        .ok (Condition.cmp (Add.num (.fin 1)) "==" (Add.num (.fin 2))) []) ∧
    matchAlternatives condAlternatives
        ([.Punct "<", .Punct "=", .Number (.fin 2)] : List (Token Flt)) =
      some ("<", [.Punct "=", .Number (.fin 2)]) := by
  refine ⟨?_, fun n => ?_, fun n => ?_, fun n => rfl, fun n => rfl, rfl⟩
  · intro F parseAdd a ts rest c hc h1 h2 n
    exact parseCondition_two_char_fails parseAdd a ts rest c hc h1 h2 n
  · exact parseCondition_two_char_fails parseOperand (Add.num (Flt.fin 1)) tokensLessEq
      [Token.Number (Flt.fin 2)] "<" (Or.inl rfl) rfl rfl n
  · exact parseCondition_two_char_fails parseOperand (Add.num (Flt.fin 1)) tokensGreaterEq
      [Token.Number (Flt.fin 2)] ">" (Or.inr rfl) rfl rfl n

/-- Witness of C18 at the tokens of `1 <= 2`. -/
theorem C18_two_character_operators_witness :
    ("<" = "<" ∨ "<" = ">") ∧
    parseOperand tokensLessEq =
      .ok (Add.num (Flt.fin 1)) [.Punct "<", .Punct "=", .Number (Flt.fin 2)] ∧
    parseOperand ([.Punct "=", .Number (Flt.fin 2)] : List (Token Flt)) =
      .fail [.Punct "=", .Number (Flt.fin 2)] ∧
    parseCondition parseOperand 1 tokensLessEq = .fail [.Punct "=", .Number (Flt.fin 2)] :=
  ⟨Or.inl rfl, rfl, rfl,
   C18_two_character_operators_fail_to_parse.1 parseOperand (Add.num (Flt.fin 1)) tokensLessEq
     [Token.Number (Flt.fin 2)] "<" (Or.inl rfl) rfl rfl 0⟩

/-- C19: as the source is written, `evalAdd` on a node with operator `"-"` is
`evalMul` on the left operand and nothing else.  For every arithmetic, fuel,
scope and state the outcome (value, state or panic) of `m - r` is the outcome
of `m`, whatever `r` is: the right operand is not evaluated.  So `5 - y` with
`y` undefined evaluates to `5` with no panic. -/
theorem C19_minus_returns_left_operand :
    (∀ {F : Type} (A : Arith F) (n : Nat) (m : Mul F) (r : Add F) (sc : Scope F) (w : State F),
      evalAdd A (n + 1) (.mk m (some ("-", r))) sc w = evalMul A n m sc w) ∧
    (∀ (n : Nat) (sc : Scope Flt) (w : State Flt),
      evalAdd fltArith (n + 3) exprFiveMinusY sc w = .ok (.fin 5, w)) ∧
    (∀ n, evalAdd fltArith (n + 3) (Add.var "y") .glob (State.init Flt []) =
      .error (.UndefinedVariable "y", State.init Flt [])) := by
  refine ⟨?_, fun n sc w => rfl, fun n => rfl⟩
  intro F A n m r sc w
  rw [evalAdd]
  cases evalMul A n m sc w with
  | error e => rfl
  | ok p => obtain ⟨v, w1⟩ := p; simp

/-- C20: `evalCondition` never short-circuits.  For every arithmetic, when the
local comparison has evaluated its two operands (to any truth value `v1`):
(1) a panic in the trailing condition is the outcome of the whole condition,
whatever the connective and `v1`; (2) if the trailing condition ends, the
state of the whole condition is the state it left, so its effects have
occurred; (3) a panic in the second operand of the comparison is the outcome
too.  `1 < 0 and y == 1` with `y` undefined panics although `1 < 0` is false,
and in `func p() print 7 end if 1 < 2 or p() == 0 then print 1 end` the call
`p()` prints `7` although `1 < 2` is true. -/
theorem C20_condition_never_short_circuits :
    (∀ {F : Type} (A : Arith F) (a b : Add F) (op lg : String) (rest : Condition F)
        (sc : Scope F) (w w1 : State F) (v1 : Bool) (e : Err × State F),
      Evals (fun n => evalCondition A n (.mk a op b none) sc w) (.ok (v1, w1)) →
      Evals (fun n => evalCondition A n rest sc w1) (.error e) →
      Evals (fun n => evalCondition A n (.mk a op b (some (lg, rest))) sc w) (.error e)) ∧
    (∀ {F : Type} (A : Arith F) (a b : Add F) (op lg : String) (rest : Condition F)
        (sc : Scope F) (w w1 w2 : State F) (v1 v2 : Bool),
      lg = "and" ∨ lg = "or" →
      Evals (fun n => evalCondition A n (.mk a op b none) sc w) (.ok (v1, w1)) →
      Evals (fun n => evalCondition A n rest sc w1) (.ok (v2, w2)) →
      Evals (fun n => evalCondition A n (.mk a op b (some (lg, rest))) sc w)
        (.ok (connective lg v1 v2, w2))) ∧
    (∀ {F : Type} (A : Arith F) (a b : Add F) (op : String)
        (logic : Option (String × Condition F)) (sc : Scope F) (w w1 : State F) (va : F)
        (e : Err × State F),
      Evals (fun n => evalAdd A n a sc w) (.ok (va, w1)) →
      Evals (fun n => evalAdd A n b sc w1) (.error e) →
      Evals (fun n => evalCondition A n (.mk a op b logic) sc w) (.error e)) ∧
    (∀ n, (evalCondition fltArith (n + 5) condFalseAndUndefined .glob (State.init Flt [])).err =
        some (.UndefinedVariable "y")) ∧
    (∀ n, (runMain fltArith (n + 30) progOrWithCall []).stdout = "7\n1\n") := by
  refine ⟨?_, ?_, ?_, fun n => rfl, fun n => rfl⟩
  · intro F A a b op lg rest sc w w1 v1 e h1 h2
    exact evalCondition_chain_error A a op b lg rest sc w w1 v1 e h1 h2
  · intro F A a b op lg rest sc w w1 w2 v1 v2 hlg h1 h2
    exact evalCondition_chain A a op b lg rest sc w w1 w2 v1 v2 hlg h1 h2
  · intro F A a b op logic sc w w1 va e ha hb
    obtain ⟨N1, hN1⟩ := evalAdd_fuel A a sc w _ ha
    obtain ⟨N2, hN2⟩ := evalAdd_fuel A b sc w1 _ hb
    refine ⟨N1 + N2 + 1, ?_, hb.not_isOOF⟩
    simp only
    rw [evalCondition, hN1 _ (by omega)]
    simp only
    rw [hN2 _ (by omega)]

/-- Witness of C20 at `1 < 0 and y == 1` with `y` undefined. -/
theorem C20_condition_never_short_circuits_witness :
    Evals (fun n => evalCondition fltArith n (.mk (Add.num (.fin 1)) "<" (Add.num (.fin 0)) none)
        .glob (State.init Flt [])) (.ok (false, State.init Flt [])) ∧
    Evals (fun n => evalCondition fltArith n
        (Condition.cmp (Add.var "y") "==" (Add.num (.fin 1))) .glob (State.init Flt []))
      (.error (.UndefinedVariable "y", State.init Flt [])) ∧
    Evals (fun n => evalCondition fltArith n condFalseAndUndefined .glob (State.init Flt []))
      (.error (.UndefinedVariable "y", State.init Flt [])) :=
  ⟨⟨4, rfl, rfl⟩, ⟨4, rfl, rfl⟩,
   C20_condition_never_short_circuits.1 fltArith _ _ "<" "and" _ .glob _ _ false _
     ⟨4, rfl, rfl⟩ ⟨4, rfl, rfl⟩⟩

end Claims

end Ulang
